import Mathlib

/-!
# Adafruit RGB LCD driver (`drivers/misc/adafruit_rgb_lcd.c`)

A shallow embedding of the driver: the MCP23017 register cache
(`set_reg_pair`, `get_reg`), the HD44780 nibble strobe (`write_data`), the
busy wait (`wait_for_write`), the cursor model (`sync_cursorpos`), the
escape-sequence interpreter (`send_char`) and the character-device entry
point (`chardev_write`), followed by theorems about them.

The I2C bus is an oracle: a function from the history of transactions and
the next transaction to the value the SMBus call returns (negative: an
errno; otherwise success, and for reads the value read).  Every function
that touches the bus threads the history through the device record.
-/

namespace AdafruitRgbLcd

/-! ## The bus -/

/-- The four SMBus calls the driver makes on its client. -/
inductive Txn where
  | write_byte_data (reg : Nat) (val : Nat)
  | write_word_data (reg : Nat) (val : Nat)
  | read_byte_data (reg : Nat)
  | read_word_data (reg : Nat)
  deriving DecidableEq, Repr

/-- The bus history: every transaction issued so far, oldest first, each
with the value the call returned. -/
abbrev BusLog := List (Txn × Int)

/-- A bus behaviour: the return value of the next SMBus call, given the
history and the call. -/
abbrev Bus := BusLog → Txn → Int

/-- Every transaction on the bus succeeds. -/
def Bus.ok (bus : Bus) : Prop := ∀ log t, 0 ≤ bus log t

/-- Issue one transaction: ask the oracle and record call and result. -/
def i2c_smbus (bus : Bus) (log : BusLog) (t : Txn) : Int × BusLog :=
  (bus log t, log ++ [(t, bus log t)])

/-! ## Register values

Modelled from the spec: `reg_value` is declared in `adafruit_rgb_lcd.h`,
which is not among the sources.  It is the 16-bit register pair `value`
overlaid with its two bytes `value_a` (port A, the low byte, at the base
register) and `value_b` (port B, the high byte, at base+1) and with the named
bit fields of the Adafruit shield wiring: five buttons (bits 0-4), three
colour bits (bits 6-8), the four LCD data pins (bits 9-12, `lcd_data0`
being the lowest of them, the pin wired to the controller's busy flag),
enable (bit 13), read/write (bit 14) and register select (bit 15). -/

/-- Modelled from the spec: the port A half of a `reg_value`. -/
def value_a (v : Nat) : Nat := v % 256

/-- Modelled from the spec: the port B half of a `reg_value`. -/
def value_b (v : Nat) : Nat := v / 256 % 256

/-- Read the bit field of `width` bits starting at bit `lo`. -/
def getField (lo width v : Nat) : Nat := v / 2 ^ lo % 2 ^ width

/-- Assign `x` to the bit field of `width` bits starting at bit `lo`; as in
C, the assigned value is truncated to the width of the field. -/
def setField (lo width v x : Nat) : Nat :=
  v - getField lo width v * 2 ^ lo + x % 2 ^ width * 2 ^ lo

/-- Modelled from the spec: the four LCD data pins of a `reg_value`. -/
def lcd_data (v : Nat) : Nat := getField 9 4 v
/-- Modelled from the spec: the data pin that carries the busy flag. -/
def lcd_data0 (v : Nat) : Nat := getField 9 1 v
/-- Modelled from the spec: the enable pin. -/
def lcd_enable (v : Nat) : Nat := getField 13 1 v
/-- Modelled from the spec: the read/write pin. -/
def lcd_rw (v : Nat) : Nat := getField 14 1 v
/-- Modelled from the spec: the register-select pin. -/
def lcd_rs (v : Nat) : Nat := getField 15 1 v
/-- Modelled from the spec: the three backlight colour pins. -/
def color (v : Nat) : Nat := getField 6 3 v
/-- Modelled from the spec: the five button pins. -/
def buttons (v : Nat) : Nat := getField 0 5 v

/-- Assignment to the `lcd_data` field. -/
def set_lcd_data (v x : Nat) : Nat := setField 9 4 v x
/-- Assignment to the `lcd_enable` field. -/
def set_lcd_enable (v : Nat) (x : Bool) : Nat := setField 13 1 v x.toNat
/-- Assignment to the `lcd_rw` field. -/
def set_lcd_rw (v : Nat) (x : Bool) : Nat := setField 14 1 v x.toNat
/-- Assignment to the `lcd_rs` field. -/
def set_lcd_rs (v : Nat) (x : Bool) : Nat := setField 15 1 v x.toNat
/-- Assignment to the `color` field. -/
def set_color (v x : Nat) : Nat := setField 6 3 v x
/-- Assignment to the `value_a` byte. -/
def set_value_a (v x : Nat) : Nat := setField 0 8 v x
/-- Assignment to the `value_b` byte. -/
def set_value_b (v x : Nat) : Nat := setField 8 8 v x

/-- Modelled from the spec: the MCP23017 register addresses (sequential
bank layout) from the absent header. -/
def MCP23017_IODIR : Nat := 0x00
/-- Modelled from the spec: pull-up register pair. -/
def MCP23017_GPPU : Nat := 0x0C
/-- Modelled from the spec: port register pair. -/
def MCP23017_GPIO : Nat := 0x12
/-- Modelled from the spec: output-latch register pair. -/
def MCP23017_OLAT : Nat := 0x14

/-- Modelled from the spec: HD44780 clear-display opcode. -/
def LCD_CLEARDISPLAY : Nat := 0x01
/-- Modelled from the spec: HD44780 return-home opcode. -/
def LCD_RETURNHOME : Nat := 0x02
/-- Modelled from the spec: HD44780 set-DDRAM-address opcode. -/
def LCD_SETDDRAMADDR : Nat := 0x80

/-- The table `bit_flip`: the data pins to set for a 4-bit value. -/
def bit_flip_table : List Nat :=
  [0b0000, 0b1000, 0b0100, 0b1100,
   0b0010, 0b1010, 0b0110, 0b1110,
   0b0001, 0b1001, 0b0101, 0b1101,
   0b0011, 0b1011, 0b0111, 0b1111]

/-- Indexing `bit_flip[i]`. -/
def bit_flip (i : Nat) : Nat := bit_flip_table.getD i 0

/-! ## The register cache -/

/-- The function `set_reg_pair`: bring the register pair `reg` from the cached
value to `value` with the least bus traffic.  Returns the status, the new
cache and the new bus history. -/
def set_reg_pair (bus : Bus) (log : BusLog) (reg : Nat) (cache value : Nat) :
    Int × Nat × BusLog :=
  match (if value_a cache ≠ value_a value then 1 else 0) |||
        ((if value_b cache ≠ value_b value then 1 else 0) <<< 1) with
  | 0 =>
    -- Already up to date
    (0, value, log)
  | 1 =>
    let r := i2c_smbus bus log (Txn.write_byte_data reg (value_a value))
    if r.1 < 0 then (r.1, cache, r.2) else (0, value, r.2)
  | 2 =>
    let r := i2c_smbus bus log (Txn.write_byte_data (reg + 1) (value_b value))
    if r.1 < 0 then (r.1, cache, r.2) else (0, value, r.2)
  | _ =>
    let r := i2c_smbus bus log (Txn.write_word_data reg value)
    if r.1 < 0 then (r.1, cache, r.2) else (0, value, r.2)

/-- The function `get_reg`: read one byte of a register pair into the cache. -/
def get_reg (bus : Bus) (log : BusLog) (reg : Nat) (is_b : Bool) (value : Nat) :
    Int × Nat × BusLog :=
  let r := i2c_smbus bus log (Txn.read_byte_data (if is_b then reg + 1 else reg))
  if r.1 < 0 then (r.1, value, r.2)
  else if is_b then (0, set_value_b value (r.1 % 256).toNat, r.2)
  else (0, set_value_a value (r.1 % 256).toNat, r.2)

/-- The function `get_reg_pair`: read a register pair into the cache. -/
def get_reg_pair (bus : Bus) (log : BusLog) (reg : Nat) (value : Nat) :
    Int × Nat × BusLog :=
  let r := i2c_smbus bus log (Txn.read_word_data reg)
  if r.1 < 0 then (r.1, value, r.2)
  else (0, (r.1 % 65536).toNat, r.2)

/-! ## The device record -/

/-- Modelled from the spec: the parser states of the absent header.
`LCD_ESCAPE_NONE` is the zero value (the record is allocated zeroed and
`send_char` tests `if (data->lcd_escape)`), `LCD_ESCAPE_SINGLE` is "escape
introducer seen" and `LCD_ESCAPE_SEQUENCE` is "inside a CSI sequence". -/
inductive lcd_escape_state where
  | LCD_ESCAPE_NONE
  | LCD_ESCAPE_SINGLE
  | LCD_ESCAPE_SEQUENCE
  deriving DecidableEq, Repr

open lcd_escape_state

/-- Modelled from the spec: the compile-time constants of the absent header
and of the kernel: the busy-wait retry bound, the capacity of the
escape-argument array and the page size. -/
structure Config where
  LCD_WRITE_ATTEMPTS : Nat
  LCD_MAX_ESCAPE_PREFIXES : Nat
  PAGE_SIZE : Nat
  deriving DecidableEq, Repr

/-- Modelled from the spec: the record `device_data` of the absent header.
The four register caches are 16-bit `reg_value`s; the cursor and the escape
arguments are C `int`s (the code tests `lcd_col < 0` and saves the column in
an `int`).  Two ghost fields record what the code does: `bus_log` is the bus
history and `strobes` lists the calls of `write_data` (mode flag and byte),
oldest first. -/
structure device_data where
  iodir : Nat
  gppu : Nat
  gpio : Nat
  olat : Nat
  backlight_color : Nat
  lcd_row : Int
  lcd_col : Int
  lcd_escape : lcd_escape_state
  lcd_esc_pref : List Int
  lcd_esc_pref_pos : Nat
  bus_log : BusLog
  strobes : List (Bool × Nat)
  deriving DecidableEq, Repr

/-- Wrap-around of `int` arithmetic to 32 bits, two's complement. -/
def wrap_int (x : Int) : Int := (x + 2 ^ 31) % 2 ^ 32 - 2 ^ 31

/-- The C operator `!` on an `int`. -/
def lnot (x : Int) : Int := if x = 0 then 1 else 0

/-- The call `set_reg_pair (data->client, MCP23017_OLAT, &data->olat, value)`. -/
def set_olat (bus : Bus) (data : device_data) (value : Nat) : Int × device_data :=
  let r := set_reg_pair bus data.bus_log MCP23017_OLAT data.olat value
  (r.1, { data with olat := r.2.1, bus_log := r.2.2 })

/-- The call `set_reg_pair (data->client, MCP23017_IODIR, &data->iodir, value)`. -/
def set_iodir (bus : Bus) (data : device_data) (value : Nat) : Int × device_data :=
  let r := set_reg_pair bus data.bus_log MCP23017_IODIR data.iodir value
  (r.1, { data with iodir := r.2.1, bus_log := r.2.2 })

/-- The call `set_reg_pair (data->client, MCP23017_GPIO, &data->gpio, value)`. -/
def set_gpio (bus : Bus) (data : device_data) (value : Nat) : Int × device_data :=
  let r := set_reg_pair bus data.bus_log MCP23017_GPIO data.gpio value
  (r.1, { data with gpio := r.2.1, bus_log := r.2.2 })

/-- The call `get_reg (data->client, MCP23017_GPIO, true, &data->gpio)`. -/
def get_gpio_b (bus : Bus) (data : device_data) : Int × device_data :=
  let r := get_reg bus data.bus_log MCP23017_GPIO true data.gpio
  (r.1, { data with gpio := r.2.1, bus_log := r.2.2 })

/-! ## Busy wait and nibble strobe -/

/-- The loop `while (--attempts) ...` of `wait_for_write`.  The first
argument is the value of `attempts` after the decrement in the loop
condition.  A negative status is an early `return status`; status 0 is
leaving the loop (by `break` or because `attempts` reached 0). -/
def wait_for_write_loop (bus : Bus) (olat_low olat_high : Nat) :
    Nat → device_data → Int × device_data
  | 0, data => (0, data)
  | attempts + 1, data =>
    let r1 := set_olat bus data olat_high
    if r1.1 < 0 then r1 else
    let r2 := get_gpio_b bus r1.2
    if r2.1 < 0 then r2 else
    let r3 := set_olat bus r2.2 olat_low
    if r3.1 < 0 then r3 else
    if lcd_data0 r3.2.gpio = 0 then
      -- Not busy any more
      (0, r3.2)
    else
    let r4 := set_olat bus r3.2 olat_high
    if r4.1 < 0 then r4 else
    let r5 := set_olat bus r4.2 olat_low
    if r5.1 < 0 then r5 else
    wait_for_write_loop bus olat_low olat_high attempts r5.2

/-- The function `wait_for_write`.  `attempts` is an `unsigned`, so the first
`--attempts` wraps modulo 2^32 when the bound is 0. -/
def wait_for_write (cfg : Config) (bus : Bus) (data : device_data) : Int × device_data :=
  if lcd_data data.iodir = 0 then
    -- Already in write mode
    (0, data)
  else
  let olat_low := set_lcd_rs (set_lcd_rw (set_lcd_enable (set_lcd_data data.olat 0) false) true) false
  let olat_high := set_lcd_enable olat_low true
  let r1 := set_olat bus data olat_low
  if r1.1 < 0 then r1 else
  let r2 := wait_for_write_loop bus olat_low olat_high
    ((cfg.LCD_WRITE_ATTEMPTS + 2 ^ 32 - 1) % 2 ^ 32) r1.2
  if r2.1 < 0 then r2 else
  let r3 := set_iodir bus r2.2 (set_lcd_data r2.2.iodir 0)
  if r3.1 < 0 then r3 else (0, r3.2)

/-- The function `write_data`.  The status of `wait_for_write` is not looked
at, as in the source. -/
def write_data (cfg : Config) (bus : Bus) (data : device_data) (is_char : Bool) (value : Nat) :
    Int × device_data :=
  let data := { data with strobes := data.strobes ++ [(is_char, value)] }
  let data := (wait_for_write cfg bus data).2
  let olat1 := set_lcd_enable
    (set_lcd_data (set_lcd_rs (set_lcd_rw data.olat false) is_char) (bit_flip (value / 16))) true
  let r1 := set_olat bus data olat1
  if r1.1 < 0 then r1 else
  let olat2 := set_lcd_enable (set_lcd_data olat1 (bit_flip (value % 16))) false
  let r2 := set_olat bus r1.2 olat2
  if r2.1 < 0 then r2 else
  let olat3 := set_lcd_enable olat2 true
  let r3 := set_olat bus r2.2 olat3
  if r3.1 < 0 then r3 else
  let olat4 := set_lcd_enable olat3 false
  let r4 := set_olat bus r3.2 olat4
  if r4.1 < 0 then r4 else (0, r4.2)

/-! ## Commands and cursor -/

/-- The function `send_command`. -/
def send_command (cfg : Config) (bus : Bus) (data : device_data) (command : Nat) :
    Int × device_data :=
  let r := write_data cfg bus data false command
  if r.1 < 0 then r else
  if command = LCD_CLEARDISPLAY ∨ command = LCD_RETURNHOME then
    set_iodir bus r.2 (set_lcd_data r.2.iodir 0b1111)
  else r

/-- The clamping of `lcd_col` at the head of `sync_cursorpos`. -/
def clamp_col (data : device_data) : device_data :=
  if data.lcd_col < 0 then { data with lcd_col := 0 }
  else if data.lcd_col > 16 then { data with lcd_col := 16 }
  else data

/-- The byte `pos` of `sync_cursorpos` (a `uint8_t`), after the clamping. -/
def cursor_pos (data : device_data) : Nat :=
  ((((if lnot data.lcd_row ≠ 0 then 0x00 else 0x40 : Nat) : Int) + data.lcd_col) % 256).toNat

/-- The function `sync_cursorpos`. -/
def sync_cursorpos (cfg : Config) (bus : Bus) (data : device_data) : Int × device_data :=
  let data := clamp_col data
  send_command cfg bus data ((LCD_SETDDRAMADDR ||| cursor_pos data) % 256)

/-! ## The escape-sequence interpreter -/

/-- The loops `while (data->lcd_col < limit) ...` of `send_char` that write
spaces.  The first argument bounds the iterations (callers pass
`limit - lcd_col`, which is exactly the number of iterations, each one
advancing the column by one); `status` is the value of the variable on
entry.  A negative status is the early `return status`. -/
def write_spaces (cfg : Config) (bus : Bus) (limit : Int) :
    Nat → Int → device_data → Int × device_data
  | 0, status, data => (status, data)
  | fuel + 1, status, data =>
    if data.lcd_col < limit then
      let r := write_data cfg bus data true 0x20
      if r.1 < 0 then r else
      write_spaces cfg bus limit fuel r.1 { r.2 with lcd_col := r.2.lcd_col + 1 }
    else (status, data)

/-- The part of `send_char` after the label `escape:`.  The bytes are
'0'..'9' (0x30..0x39), ';' (0x3B), '[' (0x5B), 'A'..'H' (0x41..0x48),
'f' (0x66), 'J' (0x4A) and 'K' (0x4B). -/
def send_char_escape (cfg : Config) (bus : Bus) (data : device_data) (value : Nat) :
    Int × device_data :=
  if 0x30 ≤ value ∧ value ≤ 0x39 then
    -- Are we after a '['?
    if data.lcd_escape = LCD_ESCAPE_SEQUENCE then
      -- Increase the currently parsed argument
      let pref := wrap_int (data.lcd_esc_pref.getD data.lcd_esc_pref_pos 0 * 10
        + ((value : Int) - 0x30))
      (0, { data with lcd_esc_pref := data.lcd_esc_pref.set data.lcd_esc_pref_pos pref })
    else
      (0, { data with lcd_escape := LCD_ESCAPE_NONE })
  else if value = 0x3B then
    if data.lcd_escape = LCD_ESCAPE_SEQUENCE then
      if data.lcd_esc_pref_pos < cfg.LCD_MAX_ESCAPE_PREFIXES - 1 then
        (0, { data with lcd_esc_pref_pos := data.lcd_esc_pref_pos + 1,
                        lcd_esc_pref := data.lcd_esc_pref.set (data.lcd_esc_pref_pos + 1) 0 })
      else (0, data)
    else
      (0, { data with lcd_escape := LCD_ESCAPE_NONE })
  else if value = 0x5B then
    (0, { data with lcd_esc_pref_pos := 0, lcd_esc_pref := data.lcd_esc_pref.set 0 0,
                    lcd_escape := LCD_ESCAPE_SEQUENCE })
  else if value = 0x45 ∨ value = 0x46 ∨ value = 0x41 ∨ value = 0x42 then
    -- 'E' and 'F' set the column, then fall through to 'A' and 'B'
    let data := if value = 0x45 ∨ value = 0x46 then { data with lcd_col := 0 } else data
    let data :=
      if data.lcd_escape = LCD_ESCAPE_SEQUENCE ∧ data.lcd_esc_pref.getD 0 0 > 0 then
        { data with lcd_row := Int.xor data.lcd_row (Int.land (data.lcd_esc_pref.getD 0 0) 1) }
      else
        { data with lcd_row := lnot data.lcd_row }
    let r := sync_cursorpos cfg bus data
    (r.1, { r.2 with lcd_escape := LCD_ESCAPE_NONE })
  else if value = 0x43 then
    let data :=
      if data.lcd_escape = LCD_ESCAPE_SEQUENCE ∧ data.lcd_esc_pref.getD 0 0 > 0 then
        { data with lcd_col := wrap_int (data.lcd_col + data.lcd_esc_pref.getD 0 0) }
      else
        { data with lcd_col := wrap_int (data.lcd_col + 1) }
    let r := sync_cursorpos cfg bus data
    (r.1, { r.2 with lcd_escape := LCD_ESCAPE_NONE })
  else if value = 0x44 then
    let data :=
      if data.lcd_escape = LCD_ESCAPE_SEQUENCE ∧ data.lcd_esc_pref.getD 0 0 > 0 then
        { data with lcd_col := wrap_int (data.lcd_col - data.lcd_esc_pref.getD 0 0) }
      else
        { data with lcd_col := wrap_int (data.lcd_col - 1) }
    let r := sync_cursorpos cfg bus data
    (r.1, { r.2 with lcd_escape := LCD_ESCAPE_NONE })
  else if value = 0x47 then
    let data :=
      if data.lcd_escape = LCD_ESCAPE_SEQUENCE ∧ data.lcd_esc_pref.getD 0 0 > 0 then
        let data := { data with lcd_col := data.lcd_esc_pref.getD 0 0 - 1 }
        if data.lcd_col > 16 then { data with lcd_col := 16 } else data
      else
        { data with lcd_col := 0 }
    let r := sync_cursorpos cfg bus data
    (r.1, { r.2 with lcd_escape := LCD_ESCAPE_NONE })
  else if value = 0x66 ∨ value = 0x48 then
    let data := { data with lcd_col := 0, lcd_row := 0 }
    let data :=
      if data.lcd_escape = LCD_ESCAPE_SEQUENCE ∧ data.lcd_esc_pref_pos > 0 ∧
          data.lcd_esc_pref.getD 1 0 > 0 then
        { data with lcd_col := data.lcd_esc_pref.getD 1 0 - 1 }
      else data
    let data :=
      if data.lcd_escape = LCD_ESCAPE_SEQUENCE ∧ data.lcd_esc_pref.getD 0 0 > 0 then
        { data with lcd_row := data.lcd_esc_pref.getD 0 0 - 1 }
      else data
    let r := sync_cursorpos cfg bus data
    (r.1, { r.2 with lcd_escape := LCD_ESCAPE_NONE })
  else if value = 0x4A then
    let r := send_command cfg bus data LCD_CLEARDISPLAY
    (r.1, { r.2 with lcd_escape := LCD_ESCAPE_NONE })
  else if value = 0x4B then
    if data.lcd_escape = LCD_ESCAPE_SEQUENCE ∧ data.lcd_esc_pref.getD 0 0 = 1 then
      -- Clear to beginning of line
      let save_col := data.lcd_col
      let r := sync_cursorpos cfg bus { data with lcd_col := 0 }
      if r.1 < 0 then r else
      let r := write_spaces cfg bus save_col (save_col - r.2.lcd_col).toNat r.1 r.2
      if r.1 < 0 then r else
      (r.1, { r.2 with lcd_escape := LCD_ESCAPE_NONE })
    else if data.lcd_escape = LCD_ESCAPE_SEQUENCE ∧ data.lcd_esc_pref.getD 0 0 = 2 then
      -- Clear whole line
      let save_col := data.lcd_col
      let r := sync_cursorpos cfg bus { data with lcd_col := 0 }
      if r.1 < 0 then r else
      let r := write_spaces cfg bus 16 (16 - r.2.lcd_col).toNat r.1 r.2
      if r.1 < 0 then r else
      let r := sync_cursorpos cfg bus { r.2 with lcd_col := save_col }
      (r.1, { r.2 with lcd_escape := LCD_ESCAPE_NONE })
    else
      -- Clear to end of line
      let save_col := data.lcd_col
      let r := write_spaces cfg bus 16 (16 - data.lcd_col).toNat 0 data
      if r.1 < 0 then r else
      let r := sync_cursorpos cfg bus { r.2 with lcd_col := save_col }
      (r.1, { r.2 with lcd_escape := LCD_ESCAPE_NONE })
  else
    -- Can't interpret escape code, so just ignore it
    (0, { data with lcd_escape := LCD_ESCAPE_NONE })

/-- The function `send_char`; `value` is a `uint8_t`.  The bytes tested are
the escape introducer 0x1B and the newline 0x0A. -/
def send_char (cfg : Config) (bus : Bus) (data : device_data) (value : Nat) :
    Int × device_data :=
  if data.lcd_escape ≠ LCD_ESCAPE_NONE then send_char_escape cfg bus data value
  else if value = 0x1B then
    (0, { data with lcd_escape := LCD_ESCAPE_SINGLE })
  else if value = 0x0A then
    -- Go to beginning of "next" row
    let r := sync_cursorpos cfg bus { data with lcd_row := lnot data.lcd_row, lcd_col := 0 }
    if r.1 < 0 then r else
    -- Clear the new row
    let r := write_spaces cfg bus 16 (16 - r.2.lcd_col).toNat r.1 r.2
    if r.1 < 0 then r else
    -- Go back to the beginning again
    sync_cursorpos cfg bus { r.2 with lcd_col := 0 }
  else
    -- Display scrolling is not implemented yet, so never write outside of the screen
    if data.lcd_col < 16 then
      write_data cfg bus { data with lcd_col := data.lcd_col + 1 } true value
    else (0, data)

/-! ## The character device -/

/-- Modelled from the spec: the errno `ENODEV` of the kernel headers. -/
def ENODEV : Int := 19
/-- Modelled from the spec: the errno `EINVAL` of the kernel headers. -/
def EINVAL : Int := 22

/-- The loop `while (pos < size) ...` of `chardev_write` over the copied
buffer: returns `status`, `pos` and the device. -/
def chardev_write_loop (cfg : Config) (bus : Bus) :
    List Nat → Int → Nat → device_data → Int × Nat × device_data
  | [], status, pos, data => (status, pos, data)
  | value :: rest, _, pos, data =>
    let r := send_char cfg bus data value
    if r.1 < 0 then (r.1, pos, r.2)
    else chardev_write_loop cfg bus rest r.1 (pos + 1) r.2

/-- The function `chardev_write`: `private_data` is `file->private_data`
(`none` for a null pointer) and `user_buf` holds the `size` bytes of the
user buffer.  Returns the `ssize_t` result and the device. -/
def chardev_write (cfg : Config) (bus : Bus) (private_data : Option device_data)
    (user_buf : List Nat) : Int × Option device_data :=
  match private_data with
  | none => (-ENODEV, none)
  | some data =>
    let size := if user_buf.length > cfg.PAGE_SIZE then cfg.PAGE_SIZE else user_buf.length
    let buf := user_buf.take size
    let r := chardev_write_loop cfg bus buf 0 0 data
    if r.1 < 0 then (r.1, some r.2.2) else ((r.2.1 : Int), some r.2.2)

/-- Feed bytes to `send_char` one after the other, whatever the statuses. -/
def send_chars (cfg : Config) (bus : Bus) (data : device_data) (values : List Nat) :
    device_data :=
  values.foldl (fun d value => (send_char cfg bus d value).2) data

/-! ## The backlight -/

/-- The function `set_backlight`; `~(color & 0x7)` is truncated to the three
bits of the field. -/
def set_backlight (bus : Bus) (data : device_data) (color : Nat) : Int × device_data :=
  let gpio := set_color data.gpio ((-((color % 8 : Nat) : Int) - 1) % 8).toNat
  let r := set_gpio bus data gpio
  if r.1 < 0 then r else (0, { r.2 with backlight_color := color })

/-- Modelled from the spec: the `led_color` values of the absent header, by
the fixed mapping 0=off, 1=red, 2=green, 3=yellow, 4=blue, 5=violet, 6=teal,
7=on. -/
def LED_COLOR_OFF : Nat := 0
/-- Modelled from the spec: see `LED_COLOR_OFF`. -/
def LED_COLOR_RED : Nat := 1
/-- Modelled from the spec: see `LED_COLOR_OFF`. -/
def LED_COLOR_GREEN : Nat := 2
/-- Modelled from the spec: see `LED_COLOR_OFF`. -/
def LED_COLOR_YELLOW : Nat := 3
/-- Modelled from the spec: see `LED_COLOR_OFF`. -/
def LED_COLOR_BLUE : Nat := 4
/-- Modelled from the spec: see `LED_COLOR_OFF`. -/
def LED_COLOR_VIOLET : Nat := 5
/-- Modelled from the spec: see `LED_COLOR_OFF`. -/
def LED_COLOR_TEAL : Nat := 6
/-- Modelled from the spec: see `LED_COLOR_OFF`. -/
def LED_COLOR_ON : Nat := 7

/-- The kernel's `tolower` on an ASCII byte. -/
def tolower (c : Nat) : Nat := if 0x41 ≤ c ∧ c ≤ 0x5A then c + 32 else c

/-- The test `!strncmp (lit, str, 1)` for a one-character literal: the first
byte of `str` is that character.  `str` is the attribute buffer up to its
terminating NUL; reading at or past its end gives the NUL. -/
def strncmp1_eq (lit : Char) (str : List Nat) : Bool :=
  str.getD 0 0 = lit.toNat

/-- The test `!strncasecmp (lit, str, n)` with `n` the length of the literal:
the first `n` bytes of `str` are the literal up to letter case. -/
def strncasecmp_eq (lit : String) (str : List Nat) : Bool :=
  (List.range lit.length).all
    (fun i => tolower (str.getD i 0) = tolower ((lit.toList.getD i (Char.ofNat 0)).toNat))

/-- The function `set_backlight_attr`: `str` holds the bytes written to the
attribute and `size` their count.  The status of `set_backlight` is not
looked at, as in the source. -/
def set_backlight_attr (bus : Bus) (data : device_data) (str : List Nat) (size : Nat) :
    Int × device_data :=
  if strncmp1_eq '7' str || strncasecmp_eq "on" str then
    ((size : Int), (set_backlight bus data LED_COLOR_ON).2)
  else if strncmp1_eq '0' str || strncasecmp_eq "off" str then
    ((size : Int), (set_backlight bus data LED_COLOR_OFF).2)
  else if strncmp1_eq '1' str || strncasecmp_eq "red" str then
    ((size : Int), (set_backlight bus data LED_COLOR_RED).2)
  else if strncmp1_eq '2' str || strncasecmp_eq "green" str then
    ((size : Int), (set_backlight bus data LED_COLOR_GREEN).2)
  else if strncmp1_eq '4' str || strncasecmp_eq "blue" str then
    ((size : Int), (set_backlight bus data LED_COLOR_BLUE).2)
  else if strncmp1_eq '3' str || strncasecmp_eq "yellow" str then
    ((size : Int), (set_backlight bus data LED_COLOR_YELLOW).2)
  else if strncmp1_eq '6' str || strncasecmp_eq "teal" str then
    ((size : Int), (set_backlight bus data LED_COLOR_TEAL).2)
  else if strncmp1_eq '5' str || strncasecmp_eq "violet" str then
    ((size : Int), (set_backlight bus data LED_COLOR_VIOLET).2)
  else
    (-EINVAL, data)

/-- The decimal digits of a number, as `%d` prints it. -/
def decimal_digits (n : Nat) : List Char := (Nat.toDigits 10 n)

/-- The function `get_backlight_attr`: the text `snprintf` puts in the
buffer for `"%d\n"` (the colour is far shorter than a page). -/
def get_backlight_attr (data : device_data) : List Char :=
  decimal_digits data.backlight_color ++ ['\n']

/-! ## Auxiliary definitions for the statements -/

/-- The transaction `set_reg_pair` picks for a cached and a desired value:
none when both halves agree, a byte write for the one half that differs, a
word write when both differ. -/
def pair_txn (reg cache value : Nat) : Option Txn :=
  if value_a cache = value_a value then
    if value_b cache = value_b value then none
    else some (Txn.write_byte_data (reg + 1) (value_b value))
  else
    if value_b cache = value_b value then some (Txn.write_byte_data reg (value_a value))
    else some (Txn.write_word_data reg value)

/-- The fields of the device record that the register and bus layer does
not touch: cursor, parser, stored colour and the list of `write_data`
calls. -/
@[ext] structure cursor_view where
  lcd_row : Int
  lcd_col : Int
  lcd_escape : lcd_escape_state
  lcd_esc_pref : List Int
  lcd_esc_pref_pos : Nat
  backlight_color : Nat
  strobes : List (Bool × Nat)
  deriving DecidableEq, Repr

/-- The projection of a device record on its `cursor_view`. -/
def device_data.view (d : device_data) : cursor_view :=
  { lcd_row := d.lcd_row, lcd_col := d.lcd_col, lcd_escape := d.lcd_escape,
    lcd_esc_pref := d.lcd_esc_pref, lcd_esc_pref_pos := d.lcd_esc_pref_pos,
    backlight_color := d.backlight_color, strobes := d.strobes }

/-- The set-address command for a cursor position: the opcode plus the row
base (0x00 for row 0, 0x40 otherwise) plus the column. -/
def set_address_command (row col : Int) : Nat :=
  0x80 + (if row = 0 then 0x00 else 0x40) + col.toNat

/-- A retry bound of 10, an argument array of 4 and a page of 4096 bytes. -/
def cfg10 : Config := { LCD_WRITE_ATTEMPTS := 10, LCD_MAX_ESCAPE_PREFIXES := 4, PAGE_SIZE := 4096 }

/-- The bus on which every call returns 0. -/
def bus_ok : Bus := fun _ _ => 0

/-- The device record as allocated (zeroed), with a 4-element argument array:
data pins output-configured, cursor at the origin, parser idle. -/
def dev0 : device_data :=
  { iodir := 0, gppu := 0, gpio := 0, olat := 0, backlight_color := 0,
    lcd_row := 0, lcd_col := 0, lcd_escape := LCD_ESCAPE_NONE,
    lcd_esc_pref := [0, 0, 0, 0], lcd_esc_pref_pos := 0, bus_log := [], strobes := [] }

/-- The bus on which every call fails with -5 (`-EIO`). -/
def bus_fail : Bus := fun _ _ => -5

/-- The bus on which the first call fails with -5 (`-EIO`) and every later
call returns 0. -/
def bus_fail_first : Bus := fun log _ => if log.length = 0 then -5 else 0

/-- The bus on which the first `n` calls return 0 and every later call fails
with -5 (`-EIO`). -/
def bus_fail_from (n : Nat) : Bus := fun log _ => if log.length < n then 0 else -5

/-- The device record after bring-up and a clear-display command: buttons and
LCD data pins are input-configured. -/
def dev_input : device_data := { dev0 with iodir := 0x1E1F }

/-- The common tail of the cursor-moving final bytes: `sync_cursorpos`, then
the parser goes back to idle whatever the status. -/
def sync_then_idle (cfg : Config) (bus : Bus) (d : device_data) : Int × device_data :=
  ((sync_cursorpos cfg bus d).1,
   { (sync_cursorpos cfg bus d).2 with lcd_escape := LCD_ESCAPE_NONE })

/-- A device record inside a CSI sequence: arguments `pref`, active index
`pos`, cursor at (`row`, `col`), everything else as in `dev0`. -/
def dev_csi (pref : List Int) (pos : Nat) (row col : Int) : device_data :=
  { dev0 with lcd_escape := LCD_ESCAPE_SEQUENCE, lcd_esc_pref := pref, lcd_esc_pref_pos := pos,
              lcd_row := row, lcd_col := col }

/-- The invariant of the cursor column and of the argument index: the column
lies in [0,16] and the active index is below the capacity of the argument
array. -/
def col_index_inv (cfg : Config) (d : device_data) : Prop :=
  0 ≤ d.lcd_col ∧ d.lcd_col ≤ 16 ∧ d.lcd_esc_pref_pos < cfg.LCD_MAX_ESCAPE_PREFIXES

/-- The device record after the escape introducer, at column 5 of row 0. -/
def dev_esc : device_data := { dev0 with lcd_escape := LCD_ESCAPE_SINGLE, lcd_col := 5 }

/-- The bytes of the decimal numeral of `n`, most significant digit first
(the bytes of "0" for 0). -/
def decimal_bytes (n : Nat) : List Nat := (decimal_digits n).map Char.toNat

/-- The byte stream ESC [ n1 ; n2 of a CSI sequence with two arguments, up to
but not including the final byte. -/
def csi_two_args (n1 n2 : Nat) : List Nat :=
  [0x1B, 0x5B] ++ decimal_bytes n1 ++ [0x3B] ++ decimal_bytes n2

/-- The value of a string of digit bytes read in base ten, starting from the
accumulator `a`, without any wrap-around. -/
def accumulate (a : Int) (bytes : List Nat) : Int :=
  bytes.foldl (fun acc b => acc * 10 + ((b : Int) - 0x30)) a

/-- The value the driver accumulates for a string of digit bytes: each step
wraps to an `int`. -/
def accumulate_wrap (a : Int) (bytes : List Nat) : Int :=
  bytes.foldl (fun acc b => wrap_int (acc * 10 + ((b : Int) - 0x30))) a

/-- The bus on which every call succeeds and every byte read returns 0x02:
the data pin that carries the busy flag (bit 1 of port B) reads high. -/
def bus_busy : Bus := fun _ t =>
  match t with
  | Txn.read_byte_data _ => 0x02
  | _ => 0

/-- Whether a transaction is a byte read (the busy-flag read of
`wait_for_write`). -/
def is_read (t : Txn) : Bool :=
  match t with
  | Txn.read_byte_data _ => true
  | _ => false

/-- The number of byte reads in a bus history. -/
def count_reads (log : BusLog) : Nat := (log.filter (fun e => is_read e.1)).length

/-- Every byte read on the bus reports the busy flag set (bit 1 of the byte
read, the pin `lcd_data0`). -/
def Bus.busy (bus : Bus) : Prop := ∀ log reg, bus log (Txn.read_byte_data reg) / 2 % 2 = 1

/-- The bytes of a string literal. -/
def name_bytes (name : String) : List Nat := name.toList.map Char.toNat

/-- The byte string `str` starts with `name` up to letter case: it is a token
whose lower-cased bytes are those of `name`, followed by anything. -/
def starts_with_ci (name : String) (str : List Nat) : Prop :=
  ∃ tok rest, str = tok ++ rest ∧ tok.map tolower = name_bytes name

/-- The colour names of the backlight attribute with their colour numbers
(0=off, 1=red, 2=green, 3=yellow, 4=blue, 5=violet, 6=teal, 7=on). -/
def backlight_names : List (String × Nat) :=
  [("on", 7), ("off", 0), ("red", 1), ("green", 2), ("blue", 4), ("yellow", 3), ("teal", 6),
   ("violet", 5)]

/-- The log entries of the transaction `set_reg_pair` issues for a register
pair, a cached and a desired value on a bus with history `log`: none or
one. -/
def pair_entries (bus : Bus) (log : BusLog) (reg cache value : Nat) : BusLog :=
  match pair_txn reg cache value with
  | none => []
  | some t => [(t, bus log t)]

/-- The active-low encoding of a colour on the three colour pins: the
complement of its low three bits. -/
def color_pins (c : Nat) : Nat := 7 - c % 8

/-- The bits of a `reg_value` outside the display fields (data pins, enable,
read/write, register select): the nine bits below them and whatever lies
above bit 15. -/
def non_display (v : Nat) : Nat × Nat := (v % 512, v / 65536)

/-- The transactions of a bus history, without the values returned. -/
def txns (log : BusLog) : List Txn := log.map Prod.fst

/-- The write of port B of the output latch. -/
def olat_b_write (v : Nat) : Txn := Txn.write_byte_data (MCP23017_OLAT + 1) (value_b v)

/-- The bus history of `d2` extends that of `d1`, and the cached direction
register is the same in both. -/
def extends_log (d1 d2 : device_data) : Prop :=
  d1.bus_log <+: d2.bus_log ∧ d2.iodir = d1.iodir

/-! # Lemmas and theorems -/

/-! ## The register cache -/

theorem set_reg_pair_eq (bus : Bus) (log : BusLog) (reg cache value : Nat) :
    set_reg_pair bus log reg cache value =
      match pair_txn reg cache value with
      | none => (0, value, log)
      | some t =>
        if bus log t < 0 then (bus log t, cache, log ++ [(t, bus log t)])
        else (0, value, log ++ [(t, bus log t)]) := by
  unfold set_reg_pair pair_txn i2c_smbus
  by_cases ha : value_a cache = value_a value <;>
    by_cases hb : value_b cache = value_b value <;> simp [ha, hb]

/-- C1: `set_reg_pair` issues no transaction when both halves equal the cache,
one byte write of the low half to the base register or of the high half to
base+1 when exactly one half differs, and one word write of the full value to
the base register when both differ; the bus history never grows by more than
one transaction. -/
theorem set_reg_pair_traffic (bus : Bus) (log : BusLog) (reg cache value : Nat) :
    (value_a cache = value_a value → value_b cache = value_b value →
      (set_reg_pair bus log reg cache value).2.2 = log) ∧
    (value_a cache ≠ value_a value → value_b cache = value_b value →
      (set_reg_pair bus log reg cache value).2.2 =
        log ++ [(Txn.write_byte_data reg (value_a value),
                 bus log (Txn.write_byte_data reg (value_a value)))]) ∧
    (value_a cache = value_a value → value_b cache ≠ value_b value →
      (set_reg_pair bus log reg cache value).2.2 =
        log ++ [(Txn.write_byte_data (reg + 1) (value_b value),
                 bus log (Txn.write_byte_data (reg + 1) (value_b value)))]) ∧
    (value_a cache ≠ value_a value → value_b cache ≠ value_b value →
      (set_reg_pair bus log reg cache value).2.2 =
        log ++ [(Txn.write_word_data reg value,
                 bus log (Txn.write_word_data reg value))]) ∧
    (set_reg_pair bus log reg cache value).2.2.length ≤ log.length + 1 := by
  rw [set_reg_pair_eq]
  unfold pair_txn
  by_cases ha : value_a cache = value_a value <;>
    by_cases hb : value_b cache = value_b value <;>
    simp only [ha, hb, if_true, if_false] <;>
    refine ⟨?_, ?_, ?_, ?_, ?_⟩ <;>
    first
      | (intro h1 h2; first | exact absurd rfl h1 | exact absurd rfl h2 | exact absurd ha h1
                            | exact absurd hb h2 | (split <;> rfl) | rfl)
      | (split <;> simp)
      | simp

/-- C2: when the transaction issued by `set_reg_pair` fails, the call returns
that error and the cache is as before; when the call returns success (also
without a transaction) the cache is the desired value. -/
theorem set_reg_pair_cache (bus : Bus) (log : BusLog) (reg cache value : Nat) :
    (∀ e : Txn × Int, (set_reg_pair bus log reg cache value).2.2 = log ++ [e] → e.2 < 0 →
      (set_reg_pair bus log reg cache value).1 = e.2 ∧
      (set_reg_pair bus log reg cache value).2.1 = cache) ∧
    (0 ≤ (set_reg_pair bus log reg cache value).1 →
      (set_reg_pair bus log reg cache value).2.1 = value) ∧
    ((set_reg_pair bus log reg cache value).1 < 0 →
      (set_reg_pair bus log reg cache value).2.1 = cache ∧
      ∃ t, (set_reg_pair bus log reg cache value).2.2 =
        log ++ [(t, (set_reg_pair bus log reg cache value).1)]) := by
  rw [set_reg_pair_eq]
  cases pair_txn reg cache value with
  | none => simp
  | some t =>
    by_cases h : bus log t < 0
    · simp only [h, if_true]
      refine ⟨?_, ?_, ?_⟩
      · intro e he _
        have : e = (t, bus log t) := by simpa using he.symm
        subst this
        simp
      · intro h0
        exact absurd h0 (not_le.mpr h)
      · intro _
        exact ⟨trivial, t, rfl⟩
    · simp only [h, if_false]
      refine ⟨?_, ?_, ?_⟩
      · intro e he hneg
        have : e = (t, bus log t) := by simpa using he.symm
        subst this
        exact absurd hneg h
      · intro _
        trivial
      · intro h0
        exact absurd h0 (by decide)

theorem set_reg_pair_status_le (bus : Bus) (log : BusLog) (reg cache value : Nat) :
    (set_reg_pair bus log reg cache value).1 ≤ 0 := by
  rw [set_reg_pair_eq]
  cases pair_txn reg cache value with
  | none => simp
  | some t =>
    by_cases h : bus log t < 0
    · simp only [h, if_true]; exact le_of_lt h
    · simp only [h, if_false]; exact le_refl _

theorem set_reg_pair_status_ok (bus : Bus) (hb : bus.ok) (log : BusLog) (reg cache value : Nat) :
    (set_reg_pair bus log reg cache value).1 = 0 := by
  rw [set_reg_pair_eq]
  cases pair_txn reg cache value with
  | none => simp
  | some t =>
    have h : ¬ bus log t < 0 := not_lt.mpr (hb log t)
    simp only [h, if_false]

/-- C1 at a concrete pair: from cache 0x0000 to 0x2041 both halves differ
and the only transaction is one word write. -/
theorem set_reg_pair_traffic_witness :
    (set_reg_pair (fun _ _ => 0) [] MCP23017_OLAT 0x0000 0x2041).2.2 =
      [] ++ [(Txn.write_word_data MCP23017_OLAT 0x2041, 0)] :=
  (set_reg_pair_traffic (fun _ _ => 0) [] MCP23017_OLAT 0x0000 0x2041).2.2.2.1
    (by decide) (by decide)

/-- C2 at a concrete pair: the word write from 0x0000 to 0x2041 fails with
-5, which is returned, and the cache stays 0x0000. -/
theorem set_reg_pair_cache_witness :
    (set_reg_pair (fun _ _ => -5) [] MCP23017_OLAT 0x0000 0x2041).1 = -5 ∧
    (set_reg_pair (fun _ _ => -5) [] MCP23017_OLAT 0x0000 0x2041).2.1 = 0x0000 :=
  (set_reg_pair_cache (fun _ _ => -5) [] MCP23017_OLAT 0x0000 0x2041).1
    (Txn.write_word_data MCP23017_OLAT 0x2041, -5) (by decide) (by decide)

/-! ## Frame and success lemmas for the strobe layer -/

@[simp] theorem set_olat_view (bus : Bus) (d : device_data) (v : Nat) :
    (set_olat bus d v).2.view = d.view := by
  unfold set_olat device_data.view
  exact rfl

@[simp] theorem set_iodir_view (bus : Bus) (d : device_data) (v : Nat) :
    (set_iodir bus d v).2.view = d.view := by
  unfold set_iodir device_data.view
  exact rfl

@[simp] theorem set_gpio_view (bus : Bus) (d : device_data) (v : Nat) :
    (set_gpio bus d v).2.view = d.view := by
  unfold set_gpio device_data.view
  exact rfl

@[simp] theorem get_gpio_b_view (bus : Bus) (d : device_data) :
    (get_gpio_b bus d).2.view = d.view := by
  unfold get_gpio_b device_data.view
  exact rfl

theorem set_olat_ok (bus : Bus) (hb : bus.ok) (d : device_data) (v : Nat) :
    (set_olat bus d v).1 = 0 := set_reg_pair_status_ok bus hb _ _ _ _

theorem set_iodir_ok (bus : Bus) (hb : bus.ok) (d : device_data) (v : Nat) :
    (set_iodir bus d v).1 = 0 := set_reg_pair_status_ok bus hb _ _ _ _

theorem wait_for_write_loop_view (bus : Bus) (lo hi : Nat) (n : Nat) (d : device_data) :
    (wait_for_write_loop bus lo hi n d).2.view = d.view := by
  induction n generalizing d with
  | zero => rfl
  | succ n ih =>
    simp only [wait_for_write_loop]
    split_ifs <;> simp [ih]

theorem wait_for_write_view (cfg : Config) (bus : Bus) (d : device_data) :
    (wait_for_write cfg bus d).2.view = d.view := by
  unfold wait_for_write
  generalize (cfg.LCD_WRITE_ATTEMPTS + 2 ^ 32 - 1) % 2 ^ 32 = n
  dsimp only
  split_ifs <;> simp only [wait_for_write_loop_view, set_iodir_view, set_olat_view]

theorem write_data_view (cfg : Config) (bus : Bus) (d : device_data) (c : Bool) (v : Nat) :
    (write_data cfg bus d c v).2.view = { d.view with strobes := d.strobes ++ [(c, v)] } := by
  unfold write_data
  dsimp only
  split_ifs <;> simp only [set_olat_view, wait_for_write_view] <;> rfl

theorem write_data_ok (cfg : Config) (bus : Bus) (hb : bus.ok) (d : device_data) (c : Bool)
    (v : Nat) : (write_data cfg bus d c v).1 = 0 := by
  unfold write_data
  dsimp only
  simp only [set_olat_ok bus hb]
  rfl

theorem send_command_view (cfg : Config) (bus : Bus) (d : device_data) (cmd : Nat) :
    (send_command cfg bus d cmd).2.view = { d.view with strobes := d.strobes ++ [(false, cmd)] } := by
  unfold send_command
  dsimp only
  split_ifs <;> simp only [set_iodir_view, write_data_view]

theorem send_command_ok (cfg : Config) (bus : Bus) (hb : bus.ok) (d : device_data) (cmd : Nat) :
    (send_command cfg bus d cmd).1 = 0 := by
  unfold send_command
  dsimp only
  split_ifs
  · exact write_data_ok cfg bus hb _ _ _
  · exact set_iodir_ok bus hb _ _
  · exact write_data_ok cfg bus hb _ _ _

theorem clamp_col_view (d : device_data) :
    (clamp_col d).view = { d.view with lcd_col := max 0 (min d.lcd_col 16) } := by
  unfold clamp_col
  split_ifs with h1 h2
  · have : max 0 (min d.lcd_col 16) = 0 := by omega
    rw [this]; rfl
  · have : max 0 (min d.lcd_col 16) = 16 := by omega
    rw [this]; rfl
  · have : max 0 (min d.lcd_col 16) = d.lcd_col := by omega
    rw [this]; rfl

theorem cursor_command_eq (d : device_data) (h0 : 0 ≤ d.lcd_col) (h16 : d.lcd_col ≤ 16) :
    (LCD_SETDDRAMADDR ||| cursor_pos d) % 256 = set_address_command d.lcd_row d.lcd_col := by
  unfold cursor_pos set_address_command LCD_SETDDRAMADDR lnot
  generalize d.lcd_col = c at h0 h16
  by_cases hr : d.lcd_row = 0
  · simp only [hr, if_true]
    interval_cases c <;> decide
  · simp only [hr, if_false]
    interval_cases c <;> decide

theorem sync_cursorpos_view (cfg : Config) (bus : Bus) (d : device_data) :
    (sync_cursorpos cfg bus d).2.view =
      { d.view with lcd_col := max 0 (min d.lcd_col 16),
                    strobes := d.strobes ++
                      [(false, set_address_command d.lcd_row (max 0 (min d.lcd_col 16)))] } := by
  unfold sync_cursorpos
  dsimp only
  rw [send_command_view, cursor_command_eq]
  · have h := clamp_col_view d
    have hr : (clamp_col d).lcd_row = d.lcd_row := congrArg cursor_view.lcd_row h
    have hc : (clamp_col d).lcd_col = max 0 (min d.lcd_col 16) := congrArg cursor_view.lcd_col h
    have hs : (clamp_col d).strobes = d.strobes := congrArg cursor_view.strobes h
    rw [h, hr, hc, hs]
  · have hc : (clamp_col d).lcd_col = max 0 (min d.lcd_col 16) :=
      congrArg cursor_view.lcd_col (clamp_col_view d)
    omega
  · have hc : (clamp_col d).lcd_col = max 0 (min d.lcd_col 16) :=
      congrArg cursor_view.lcd_col (clamp_col_view d)
    omega

theorem sync_cursorpos_ok (cfg : Config) (bus : Bus) (hb : bus.ok) (d : device_data) :
    (sync_cursorpos cfg bus d).1 = 0 := by
  unfold sync_cursorpos
  exact send_command_ok cfg bus hb _ _

@[simp] theorem write_data_lcd_row (cfg : Config) (bus : Bus) (d : device_data) (c : Bool) (v : Nat) :
    (write_data cfg bus d c v).2.lcd_row = d.lcd_row :=
  congrArg cursor_view.lcd_row (write_data_view cfg bus d c v)

@[simp] theorem write_data_lcd_col (cfg : Config) (bus : Bus) (d : device_data) (c : Bool) (v : Nat) :
    (write_data cfg bus d c v).2.lcd_col = d.lcd_col :=
  congrArg cursor_view.lcd_col (write_data_view cfg bus d c v)

@[simp] theorem write_data_lcd_escape (cfg : Config) (bus : Bus) (d : device_data) (c : Bool) (v : Nat) :
    (write_data cfg bus d c v).2.lcd_escape = d.lcd_escape :=
  congrArg cursor_view.lcd_escape (write_data_view cfg bus d c v)

@[simp] theorem write_data_lcd_esc_pref (cfg : Config) (bus : Bus) (d : device_data) (c : Bool) (v : Nat) :
    (write_data cfg bus d c v).2.lcd_esc_pref = d.lcd_esc_pref :=
  congrArg cursor_view.lcd_esc_pref (write_data_view cfg bus d c v)

@[simp] theorem write_data_lcd_esc_pref_pos (cfg : Config) (bus : Bus) (d : device_data) (c : Bool) (v : Nat) :
    (write_data cfg bus d c v).2.lcd_esc_pref_pos = d.lcd_esc_pref_pos :=
  congrArg cursor_view.lcd_esc_pref_pos (write_data_view cfg bus d c v)

@[simp] theorem write_data_backlight_color (cfg : Config) (bus : Bus) (d : device_data) (c : Bool) (v : Nat) :
    (write_data cfg bus d c v).2.backlight_color = d.backlight_color :=
  congrArg cursor_view.backlight_color (write_data_view cfg bus d c v)

@[simp] theorem write_data_strobes (cfg : Config) (bus : Bus) (d : device_data) (c : Bool) (v : Nat) :
    (write_data cfg bus d c v).2.strobes = d.strobes ++ [(c, v)] :=
  congrArg cursor_view.strobes (write_data_view cfg bus d c v)

@[simp] theorem send_command_lcd_row (cfg : Config) (bus : Bus) (d : device_data) (cmd : Nat) :
    (send_command cfg bus d cmd).2.lcd_row = d.lcd_row :=
  congrArg cursor_view.lcd_row (send_command_view cfg bus d cmd)

@[simp] theorem send_command_lcd_col (cfg : Config) (bus : Bus) (d : device_data) (cmd : Nat) :
    (send_command cfg bus d cmd).2.lcd_col = d.lcd_col :=
  congrArg cursor_view.lcd_col (send_command_view cfg bus d cmd)

@[simp] theorem send_command_lcd_escape (cfg : Config) (bus : Bus) (d : device_data) (cmd : Nat) :
    (send_command cfg bus d cmd).2.lcd_escape = d.lcd_escape :=
  congrArg cursor_view.lcd_escape (send_command_view cfg bus d cmd)

@[simp] theorem send_command_lcd_esc_pref (cfg : Config) (bus : Bus) (d : device_data) (cmd : Nat) :
    (send_command cfg bus d cmd).2.lcd_esc_pref = d.lcd_esc_pref :=
  congrArg cursor_view.lcd_esc_pref (send_command_view cfg bus d cmd)

@[simp] theorem send_command_lcd_esc_pref_pos (cfg : Config) (bus : Bus) (d : device_data) (cmd : Nat) :
    (send_command cfg bus d cmd).2.lcd_esc_pref_pos = d.lcd_esc_pref_pos :=
  congrArg cursor_view.lcd_esc_pref_pos (send_command_view cfg bus d cmd)

@[simp] theorem send_command_backlight_color (cfg : Config) (bus : Bus) (d : device_data) (cmd : Nat) :
    (send_command cfg bus d cmd).2.backlight_color = d.backlight_color :=
  congrArg cursor_view.backlight_color (send_command_view cfg bus d cmd)

@[simp] theorem send_command_strobes (cfg : Config) (bus : Bus) (d : device_data) (cmd : Nat) :
    (send_command cfg bus d cmd).2.strobes = d.strobes ++ [(false, cmd)] :=
  congrArg cursor_view.strobes (send_command_view cfg bus d cmd)

@[simp] theorem sync_cursorpos_lcd_row (cfg : Config) (bus : Bus) (d : device_data) :
    (sync_cursorpos cfg bus d).2.lcd_row = d.lcd_row :=
  congrArg cursor_view.lcd_row (sync_cursorpos_view cfg bus d)

@[simp] theorem sync_cursorpos_lcd_col (cfg : Config) (bus : Bus) (d : device_data) :
    (sync_cursorpos cfg bus d).2.lcd_col = max 0 (min d.lcd_col 16) :=
  congrArg cursor_view.lcd_col (sync_cursorpos_view cfg bus d)

@[simp] theorem sync_cursorpos_lcd_escape (cfg : Config) (bus : Bus) (d : device_data) :
    (sync_cursorpos cfg bus d).2.lcd_escape = d.lcd_escape :=
  congrArg cursor_view.lcd_escape (sync_cursorpos_view cfg bus d)

@[simp] theorem sync_cursorpos_lcd_esc_pref (cfg : Config) (bus : Bus) (d : device_data) :
    (sync_cursorpos cfg bus d).2.lcd_esc_pref = d.lcd_esc_pref :=
  congrArg cursor_view.lcd_esc_pref (sync_cursorpos_view cfg bus d)

@[simp] theorem sync_cursorpos_lcd_esc_pref_pos (cfg : Config) (bus : Bus) (d : device_data) :
    (sync_cursorpos cfg bus d).2.lcd_esc_pref_pos = d.lcd_esc_pref_pos :=
  congrArg cursor_view.lcd_esc_pref_pos (sync_cursorpos_view cfg bus d)

@[simp] theorem sync_cursorpos_backlight_color (cfg : Config) (bus : Bus) (d : device_data) :
    (sync_cursorpos cfg bus d).2.backlight_color = d.backlight_color :=
  congrArg cursor_view.backlight_color (sync_cursorpos_view cfg bus d)

@[simp] theorem sync_cursorpos_strobes (cfg : Config) (bus : Bus) (d : device_data) :
    (sync_cursorpos cfg bus d).2.strobes = d.strobes ++
      [(false, set_address_command d.lcd_row (max 0 (min d.lcd_col 16)))] :=
  congrArg cursor_view.strobes (sync_cursorpos_view cfg bus d)

theorem write_spaces_ok (cfg : Config) (bus : Bus) (hb : bus.ok) (limit : Int) :
    ∀ (fuel : Nat) (st : Int) (d : device_data), (limit - d.lcd_col).toNat ≤ fuel →
      (write_spaces cfg bus limit fuel st d).1 = (if d.lcd_col < limit then 0 else st) ∧
      (write_spaces cfg bus limit fuel st d).2.view =
        { d.view with lcd_col := max d.lcd_col limit,
                      strobes := d.strobes ++
                        List.replicate (limit - d.lcd_col).toNat (true, 0x20) } := by
  intro fuel
  induction fuel with
  | zero =>
    intro st d hf
    have h1 : ¬ d.lcd_col < limit := by omega
    have h2 : (limit - d.lcd_col).toNat = 0 := by omega
    have h3 : max d.lcd_col limit = d.lcd_col := by omega
    simp only [write_spaces, h1, if_false, h2, h3, List.replicate_zero, List.append_nil]
    exact ⟨trivial, rfl⟩
  | succ fuel ih =>
    intro st d hf
    by_cases h1 : d.lcd_col < limit
    · have hw := write_data_ok cfg bus hb d true 0x20
      have hnot : ¬ (write_data cfg bus d true 0x20).1 < 0 := by rw [hw]; decide
      simp only [write_spaces, h1, if_true, hnot, if_false]
      have hf2 : (limit - ({ (write_data cfg bus d true 0x20).2 with
          lcd_col := (write_data cfg bus d true 0x20).2.lcd_col + 1 } : device_data).lcd_col).toNat
          ≤ fuel := by
        simp only [write_data_lcd_col]; omega
      obtain ⟨i1, i2⟩ := ih (write_data cfg bus d true 0x20).1 _ hf2
      have e1 : (limit - d.lcd_col).toNat = (limit - (d.lcd_col + 1)).toNat + 1 := by omega
      have e2 : max (d.lcd_col + 1) limit = max d.lcd_col limit := by omega
      refine ⟨?_, ?_⟩
      · rw [i1, hw]; simp
      · rw [i2]
        apply cursor_view.ext <;>
          simp [device_data.view, e1, e2, List.replicate_succ]
    · have h2 : (limit - d.lcd_col).toNat = 0 := by omega
      have h3 : max d.lcd_col limit = d.lcd_col := by omega
      simp only [write_spaces, h1, if_false, h2, h3, List.replicate_zero, List.append_nil]
      exact ⟨trivial, rfl⟩

/-- The result of `write_spaces` with exactly the fuel its callers pass. -/
theorem write_spaces_spec (cfg : Config) (bus : Bus) (hb : bus.ok) (limit : Int) (st : Int)
    (d : device_data) :
    (write_spaces cfg bus limit (limit - d.lcd_col).toNat st d).1 =
      (if d.lcd_col < limit then 0 else st) ∧
    (write_spaces cfg bus limit (limit - d.lcd_col).toNat st d).2.lcd_col = max d.lcd_col limit ∧
    (write_spaces cfg bus limit (limit - d.lcd_col).toNat st d).2.lcd_row = d.lcd_row ∧
    (write_spaces cfg bus limit (limit - d.lcd_col).toNat st d).2.lcd_escape = d.lcd_escape ∧
    (write_spaces cfg bus limit (limit - d.lcd_col).toNat st d).2.strobes =
      d.strobes ++ List.replicate (limit - d.lcd_col).toNat (true, 0x20) := by
  obtain ⟨h1, h2⟩ := write_spaces_ok cfg bus hb limit _ st d (le_refl _)
  exact ⟨h1, congrArg cursor_view.lcd_col h2, congrArg cursor_view.lcd_row h2,
    congrArg cursor_view.lcd_escape h2, congrArg cursor_view.strobes h2⟩

/-! ## Plain characters and newline -/

theorem send_char_idle_plain (cfg : Config) (bus : Bus) (hb : bus.ok) (d : device_data)
    (b : Nat) (hidle : d.lcd_escape = LCD_ESCAPE_NONE) (hesc : b ≠ 0x1B) (hnl : b ≠ 0x0A) :
    (send_char cfg bus d b).1 = 0 ∧
    (d.lcd_col < 16 →
      (send_char cfg bus d b).2.view =
        { d.view with lcd_col := d.lcd_col + 1, strobes := d.strobes ++ [(true, b)] }) ∧
    (¬ d.lcd_col < 16 → send_char cfg bus d b = (0, d)) := by
  unfold send_char
  simp only [hidle, ne_eq, not_true_eq_false, if_false, hesc, hnl]
  by_cases h : d.lcd_col < 16
  · simp only [h, if_true, not_true_eq_false, false_implies, and_true, true_implies]
    refine ⟨write_data_ok cfg bus hb _ _ _, ?_⟩
    apply cursor_view.ext <;> simp [device_data.view, hidle]
  · simp [h]

theorem send_chars_nil (cfg : Config) (bus : Bus) (d : device_data) :
    send_chars cfg bus d [] = d := rfl

theorem send_chars_cons (cfg : Config) (bus : Bus) (d : device_data) (b : Nat) (bs : List Nat) :
    send_chars cfg bus d (b :: bs) = send_chars cfg bus (send_char cfg bus d b).2 bs := rfl

theorem send_chars_plain_view (cfg : Config) (bus : Bus) (hb : bus.ok) :
    ∀ (bytes : List Nat) (d : device_data), d.lcd_escape = LCD_ESCAPE_NONE →
      0 ≤ d.lcd_col → d.lcd_col ≤ 16 → (∀ b ∈ bytes, b ≠ 0x1B ∧ b ≠ 0x0A) →
      (send_chars cfg bus d bytes).view =
        { d.view with lcd_col := min (d.lcd_col + bytes.length) 16,
                      strobes := d.strobes ++
                        (bytes.take (16 - d.lcd_col).toNat).map (fun b => (true, b)) } := by
  intro bytes
  induction bytes with
  | nil =>
    intro d _ h0 h16 _
    have : min (d.lcd_col + (([] : List Nat).length : Int)) 16 = d.lcd_col := by
      simp only [List.length_nil, Nat.cast_zero]; omega
    rw [send_chars_nil, this]
    apply cursor_view.ext <;> simp [device_data.view]
  | cons b bs ih =>
    intro d hidle h0 h16 hplain
    have hb1 := hplain b (List.mem_cons_self _ _)
    have hrest : ∀ x ∈ bs, x ≠ 0x1B ∧ x ≠ 0x0A := fun x hx => hplain x (List.mem_cons_of_mem _ hx)
    obtain ⟨_, hlt, hge⟩ := send_char_idle_plain cfg bus hb d b hidle hb1.1 hb1.2
    rw [send_chars_cons]
    by_cases h : d.lcd_col < 16
    · have hv := hlt h
      have hcol : (send_char cfg bus d b).2.lcd_col = d.lcd_col + 1 :=
        congrArg cursor_view.lcd_col hv
      have hesc : (send_char cfg bus d b).2.lcd_escape = LCD_ESCAPE_NONE :=
        (congrArg cursor_view.lcd_escape hv).trans hidle
      have hstr : (send_char cfg bus d b).2.strobes = d.strobes ++ [(true, b)] :=
        congrArg cursor_view.strobes hv
      rw [ih _ hesc (by omega) (by omega) hrest, hv, hcol, hstr]
      have e1 : (16 - d.lcd_col).toNat = (16 - (d.lcd_col + 1)).toNat + 1 := by omega
      have e2 : min (d.lcd_col + 1 + (bs.length : Int)) 16
          = min (d.lcd_col + ((b :: bs).length : Int)) 16 := by
        simp only [List.length_cons, Nat.cast_add, Nat.cast_one]; omega
      apply cursor_view.ext <;> simp [e1, e2]
    · rw [hge h]
      have e1 : (16 - d.lcd_col).toNat = 0 := by omega
      have e2 : min (d.lcd_col + ((b :: bs).length : Int)) 16 = 16 := by
        simp only [List.length_cons, Nat.cast_add, Nat.cast_one]; omega
      have e3 : min (d.lcd_col + (bs.length : Int)) 16 = 16 := by omega
      rw [ih d hidle h0 h16 hrest, e1, e2, e3]
      rfl

theorem bus_ok_ok : bus_ok.ok := fun _ _ => le_refl 0

/-- C3: from an idle parser at column c in [0,16], on a bus where every
transaction succeeds, feeding n bytes none of which is the escape introducer
or the newline leaves the column at min(c+n, 16) and calls `write_data` in
character mode once per byte, in order, for the first 16-c bytes and for no
other; every `send_char` returns 0, and a byte that arrives at column 16 is
dropped: `send_char` returns 0 and the device record, bus history included,
is the one it was given. -/
theorem send_chars_plain (cfg : Config) (bus : Bus) (hb : bus.ok) (s : device_data)
    (bytes : List Nat) (hidle : s.lcd_escape = LCD_ESCAPE_NONE)
    (h0 : 0 ≤ s.lcd_col) (h16 : s.lcd_col ≤ 16)
    (hplain : ∀ b ∈ bytes, b ≠ 0x1B ∧ b ≠ 0x0A) :
    (send_chars cfg bus s bytes).lcd_col = min (s.lcd_col + bytes.length) 16 ∧
    (send_chars cfg bus s bytes).strobes =
      s.strobes ++ (bytes.take (16 - s.lcd_col).toNat).map (fun b => (true, b)) ∧
    (send_chars cfg bus s bytes).strobes.length =
      s.strobes.length + min bytes.length (16 - s.lcd_col).toNat ∧
    (∀ k, k < bytes.length →
      (send_char cfg bus (send_chars cfg bus s (bytes.take k)) (bytes.getD k 0)).1 = 0) ∧
    (∀ k, k < bytes.length → (send_chars cfg bus s (bytes.take k)).lcd_col = 16 →
      send_char cfg bus (send_chars cfg bus s (bytes.take k)) (bytes.getD k 0) =
        (0, send_chars cfg bus s (bytes.take k))) := by
  have hv := send_chars_plain_view cfg bus hb bytes s hidle h0 h16 hplain
  have hstr : (send_chars cfg bus s bytes).strobes =
      s.strobes ++ (bytes.take (16 - s.lcd_col).toNat).map (fun b => (true, b)) :=
    congrArg cursor_view.strobes hv
  have hpre : ∀ k, (send_chars cfg bus s (bytes.take k)).lcd_escape = LCD_ESCAPE_NONE := by
    intro k
    have hp : ∀ b ∈ bytes.take k, b ≠ 0x1B ∧ b ≠ 0x0A :=
      fun b hbm => hplain b (List.mem_of_mem_take hbm)
    exact (congrArg cursor_view.lcd_escape
      (send_chars_plain_view cfg bus hb (bytes.take k) s hidle h0 h16 hp)).trans hidle
  have hget : ∀ k, k < bytes.length → bytes.getD k 0 ≠ 0x1B ∧ bytes.getD k 0 ≠ 0x0A := by
    intro k hk
    apply hplain
    rw [List.getD_eq_getElem _ _ hk]
    exact List.getElem_mem hk
  refine ⟨congrArg cursor_view.lcd_col hv, hstr, ?_, ?_, ?_⟩
  · rw [hstr, List.length_append, List.length_map, List.length_take, Nat.min_comm]
  · intro k hk
    exact (send_char_idle_plain cfg bus hb _ _ (hpre k) (hget k hk).1 (hget k hk).2).1
  · intro k hk hcol
    exact (send_char_idle_plain cfg bus hb _ _ (hpre k) (hget k hk).1 (hget k hk).2).2.2
      (by omega)

/-- C3 at a concrete input: three letters from column 14 end at column 16 and
only the first two are written. -/
theorem send_chars_plain_witness :
    (send_chars cfg10 bus_ok { dev0 with lcd_col := 14 } [0x41, 0x42, 0x43]).lcd_col = 16 ∧
    (send_chars cfg10 bus_ok { dev0 with lcd_col := 14 } [0x41, 0x42, 0x43]).strobes =
      [(true, 0x41), (true, 0x42)] :=
  ⟨(send_chars_plain cfg10 bus_ok bus_ok_ok { dev0 with lcd_col := 14 } [0x41, 0x42, 0x43]
      rfl (by decide) (by decide) (by decide)).1,
   (send_chars_plain cfg10 bus_ok bus_ok_ok { dev0 with lcd_col := 14 } [0x41, 0x42, 0x43]
      rfl (by decide) (by decide) (by decide)).2.1⟩

theorem lnot_flip (r : Int) (h : r = 0 ∨ r = 1) : lnot r = 1 - r := by
  rcases h with h | h <;> subst h <;> decide

/-- C4: from an idle parser with row r in {0,1} and any column, on a bus where
every transaction succeeds, the newline byte returns 0, ends with row 1-r and
column 0, and calls `write_data` exactly for: the set-address command of
column 0 of the new row, then 16 spaces in character mode, then the
set-address command of column 0 of the new row again. -/
theorem send_char_newline (cfg : Config) (bus : Bus) (hb : bus.ok) (s : device_data)
    (hidle : s.lcd_escape = LCD_ESCAPE_NONE) (hrow : s.lcd_row = 0 ∨ s.lcd_row = 1) :
    (send_char cfg bus s 0x0A).1 = 0 ∧
    (send_char cfg bus s 0x0A).2.lcd_row = 1 - s.lcd_row ∧
    (send_char cfg bus s 0x0A).2.lcd_col = 0 ∧
    (send_char cfg bus s 0x0A).2.lcd_escape = LCD_ESCAPE_NONE ∧
    (send_char cfg bus s 0x0A).2.strobes =
      s.strobes ++ [(false, set_address_command (1 - s.lcd_row) 0)]
        ++ List.replicate 16 (true, 0x20)
        ++ [(false, set_address_command (1 - s.lcd_row) 0)] := by
  unfold send_char
  rw [if_neg (fun h => h hidle), if_neg (by decide : ¬ (0x0A : Nat) = 0x1B), if_pos rfl]
  dsimp only
  have hl := lnot_flip s.lcd_row hrow
  have hS := sync_cursorpos_ok cfg bus hb { s with lcd_row := lnot s.lcd_row, lcd_col := 0 }
  have hSc := sync_cursorpos_lcd_col cfg bus { s with lcd_row := lnot s.lcd_row, lcd_col := 0 }
  have hSr := sync_cursorpos_lcd_row cfg bus { s with lcd_row := lnot s.lcd_row, lcd_col := 0 }
  have hSe := sync_cursorpos_lcd_escape cfg bus
    { s with lcd_row := lnot s.lcd_row, lcd_col := 0 }
  have hSs := sync_cursorpos_strobes cfg bus { s with lcd_row := lnot s.lcd_row, lcd_col := 0 }
  obtain ⟨w1, _, w3, w4, w5⟩ := write_spaces_spec cfg bus hb 16
    (sync_cursorpos cfg bus { s with lcd_row := lnot s.lcd_row, lcd_col := 0 }).1
    (sync_cursorpos cfg bus { s with lcd_row := lnot s.lcd_row, lcd_col := 0 }).2
  generalize sync_cursorpos cfg bus { s with lcd_row := lnot s.lcd_row, lcd_col := 0 } = S at *
  have hSc0 : S.2.lcd_col = 0 := hSc
  have hSr1 : S.2.lcd_row = 1 - s.lcd_row := hSr.trans hl
  have w1' : (write_spaces cfg bus 16 (16 - S.2.lcd_col).toNat S.1 S.2).1 = 0 := by
    rw [w1, hS]; split_ifs <;> rfl
  rw [if_neg (by rw [hS]; decide), if_neg (by rw [w1']; decide)]
  generalize write_spaces cfg bus 16 (16 - S.2.lcd_col).toNat S.1 S.2 = W at *
  refine ⟨sync_cursorpos_ok cfg bus hb _, ?_, ?_, ?_, ?_⟩
  · exact (sync_cursorpos_lcd_row cfg bus _).trans (w3.trans hSr1)
  · exact sync_cursorpos_lcd_col cfg bus _
  · exact (sync_cursorpos_lcd_escape cfg bus _).trans (w4.trans (hSe.trans hidle))
  · refine (sync_cursorpos_strobes cfg bus _).trans ?_
    show W.2.strobes ++ [(false, set_address_command W.2.lcd_row (max 0 (min 0 16)))] = _
    rw [w5, w3, hSs, hSr1, hSc0]
    show s.strobes ++ [(false, set_address_command (lnot s.lcd_row) (max 0 (min 0 16)))] ++ _ ++ _
      = _
    rw [hl]
    rfl

/-- C4 at a concrete input: from row 0, column 5 the newline ends at row 1,
column 0. -/
theorem send_char_newline_witness :
    (send_char cfg10 bus_ok { dev0 with lcd_col := 5 } 0x0A).2.lcd_row = 1 ∧
    (send_char cfg10 bus_ok { dev0 with lcd_col := 5 } 0x0A).2.lcd_col = 0 :=
  ⟨(send_char_newline cfg10 bus_ok bus_ok_ok { dev0 with lcd_col := 5 } rfl (Or.inl rfl)).2.1,
   (send_char_newline cfg10 bus_ok bus_ok_ok { dev0 with lcd_col := 5 } rfl (Or.inl rfl)).2.2.1⟩

/-! ## Error propagation and the character device -/

/-- C5 at the failing input: with the data pins input-configured, the first
transaction (issued by `wait_for_write`) fails with -5 and `wait_for_write`
returns -5, yet `send_char` of the letter A goes on to issue four more
transactions and returns 0. -/
theorem send_char_ignores_wait_error :
    (wait_for_write cfg10 bus_fail_first
      { dev_input with lcd_col := 1, strobes := [(true, 0x41)] }).1 = -5 ∧
    (send_char cfg10 bus_fail_first dev_input 0x41).1 = 0 ∧
    (send_char cfg10 bus_fail_first dev_input 0x41).2.bus_log =
      [(Txn.write_byte_data 0x15 0x40, -5),
       (Txn.write_byte_data 0x15 0xA4, 0),
       (Txn.write_byte_data 0x15 0x90, 0),
       (Txn.write_byte_data 0x15 0xB0, 0),
       (Txn.write_byte_data 0x15 0x90, 0)] := by
  decide

theorem chardev_write_loop_spec (cfg : Config) (bus : Bus) :
    ∀ (buf : List Nat) (st : Int) (pos : Nat) (d : device_data),
      (∀ k, k < buf.length →
        (∀ j, j < k →
          0 ≤ (send_char cfg bus (send_chars cfg bus d (buf.take j)) (buf.getD j 0)).1) →
        (send_char cfg bus (send_chars cfg bus d (buf.take k)) (buf.getD k 0)).1 < 0 →
        chardev_write_loop cfg bus buf st pos d =
          ((send_char cfg bus (send_chars cfg bus d (buf.take k)) (buf.getD k 0)).1, pos + k,
           (send_char cfg bus (send_chars cfg bus d (buf.take k)) (buf.getD k 0)).2)) ∧
      (0 ≤ st →
        (∀ j, j < buf.length →
          0 ≤ (send_char cfg bus (send_chars cfg bus d (buf.take j)) (buf.getD j 0)).1) →
        0 ≤ (chardev_write_loop cfg bus buf st pos d).1 ∧
        (chardev_write_loop cfg bus buf st pos d).2 =
          (pos + buf.length, send_chars cfg bus d buf)) := by
  intro buf
  induction buf with
  | nil =>
    intro st pos d
    refine ⟨fun k hk => absurd hk (Nat.not_lt_zero k), fun hst _ => ⟨hst, rfl⟩⟩
  | cons b bs ih =>
    intro st pos d
    refine ⟨?_, ?_⟩
    · intro k hk hprev hfail
      cases k with
      | zero =>
        have hfail0 : (send_char cfg bus d b).1 < 0 := hfail
        simp only [chardev_write_loop, hfail0, if_true]
        rfl
      | succ k =>
        have h0 : 0 ≤ (send_char cfg bus d b).1 := hprev 0 (Nat.succ_pos k)
        have hk2 : k < bs.length := Nat.lt_of_succ_lt_succ hk
        have hprev2 : ∀ j, j < k → 0 ≤ (send_char cfg bus
            (send_chars cfg bus (send_char cfg bus d b).2 (bs.take j)) (bs.getD j 0)).1 :=
          fun j hj => hprev (j + 1) (Nat.succ_lt_succ hj)
        have := (ih (send_char cfg bus d b).1 (pos + 1) (send_char cfg bus d b).2).1 k hk2
          hprev2 hfail
        simp only [chardev_write_loop, not_lt.mpr h0, if_false]
        rw [this]
        simp only [List.take_succ_cons, send_chars_cons, List.getD_cons_succ]
        congr 2
        omega
    · intro _ hall
      have h0 : 0 ≤ (send_char cfg bus d b).1 := hall 0 (Nat.succ_pos _)
      have hall2 : ∀ j, j < bs.length → 0 ≤ (send_char cfg bus
          (send_chars cfg bus (send_char cfg bus d b).2 (bs.take j)) (bs.getD j 0)).1 :=
        fun j hj => hall (j + 1) (Nat.succ_lt_succ hj)
      have := (ih (send_char cfg bus d b).1 (pos + 1) (send_char cfg bus d b).2).2 h0 hall2
      simp only [chardev_write_loop, not_lt.mpr h0, if_false]
      refine ⟨this.1, ?_⟩
      rw [this.2, send_chars_cons, List.length_cons]
      congr 1
      omega


/-- C6, as amended: for a buffer of at most one page, if the byte at index k
is the first whose `send_char` returns a negative status, `chardev_write`
stops there (the device is as that `send_char` left it) and returns that
negative status; if no byte fails it returns the length of the buffer and the
device is the one after all bytes. -/
theorem chardev_write_result (cfg : Config) (bus : Bus) (data : device_data) (buf : List Nat)
    (hlen : buf.length ≤ cfg.PAGE_SIZE) :
    (∀ k, k < buf.length →
      (∀ j, j < k →
        0 ≤ (send_char cfg bus (send_chars cfg bus data (buf.take j)) (buf.getD j 0)).1) →
      (send_char cfg bus (send_chars cfg bus data (buf.take k)) (buf.getD k 0)).1 < 0 →
      chardev_write cfg bus (some data) buf =
        ((send_char cfg bus (send_chars cfg bus data (buf.take k)) (buf.getD k 0)).1,
         some (send_char cfg bus (send_chars cfg bus data (buf.take k)) (buf.getD k 0)).2)) ∧
    ((∀ j, j < buf.length →
        0 ≤ (send_char cfg bus (send_chars cfg bus data (buf.take j)) (buf.getD j 0)).1) →
      chardev_write cfg bus (some data) buf =
        ((buf.length : Int), some (send_chars cfg bus data buf))) := by
  have hsize : (if buf.length > cfg.PAGE_SIZE then cfg.PAGE_SIZE else buf.length) = buf.length :=
    if_neg (Nat.not_lt.mpr hlen)
  refine ⟨?_, ?_⟩
  · intro k hk hprev hfail
    have h := (chardev_write_loop_spec cfg bus buf 0 0 data).1 k hk hprev hfail
    simp only [chardev_write, hsize, List.take_length, h, hfail, if_true]
  · intro hall
    have h := (chardev_write_loop_spec cfg bus buf 0 0 data).2 (le_refl 0) hall
    simp only [chardev_write, hsize, List.take_length, not_lt.mpr h.1, if_false, h.2,
      Nat.zero_add]

/-- C6 as stated fails: with the buffer "AB" and a bus that fails from its
fifth call on, the letter A succeeds and the letter B (index 1) fails, and
`chardev_write` returns -5, not the count 1. -/
theorem chardev_write_count_counterexample :
    0 ≤ (send_char cfg10 (bus_fail_from 4) dev0 0x41).1 ∧
    (send_char cfg10 (bus_fail_from 4)
      (send_chars cfg10 (bus_fail_from 4) dev0 [0x41]) 0x42).1 < 0 ∧
    (chardev_write cfg10 (bus_fail_from 4) (some dev0) [0x41, 0x42]).1 = -5 ∧
    (chardev_write cfg10 (bus_fail_from 4) (some dev0) [0x41, 0x42]).1 ≠ 1 := by
  decide

/-- C6 amended, at a concrete input: the buffer "AB" on the bus that fails
from its fifth call on returns the status -5 of the letter B. -/
theorem chardev_write_result_witness :
    chardev_write cfg10 (bus_fail_from 4) (some dev0) [0x41, 0x42] =
      ((send_char cfg10 (bus_fail_from 4)
          (send_chars cfg10 (bus_fail_from 4) dev0 ([0x41, 0x42].take 1))
          (([0x41, 0x42] : List Nat).getD 1 0)).1,
       some (send_char cfg10 (bus_fail_from 4)
          (send_chars cfg10 (bus_fail_from 4) dev0 ([0x41, 0x42].take 1))
          (([0x41, 0x42] : List Nat).getD 1 0)).2) :=
  (chardev_write_result cfg10 (bus_fail_from 4) dev0 [0x41, 0x42] (by decide)).1 1
    (by decide) (by decide) (by decide)

/-! ## Final bytes of a CSI sequence -/

theorem send_char_in_escape (cfg : Config) (bus : Bus) (d : device_data) (v : Nat)
    (h : d.lcd_escape ≠ LCD_ESCAPE_NONE) :
    send_char cfg bus d v = send_char_escape cfg bus d v := by
  unfold send_char
  rw [if_pos h]

theorem seq_ne_none (d : device_data) (h : d.lcd_escape = LCD_ESCAPE_SEQUENCE) :
    d.lcd_escape ≠ LCD_ESCAPE_NONE := by
  rw [h]; decide

theorem sync_then_idle_spec (cfg : Config) (bus : Bus) (d : device_data) :
    (sync_then_idle cfg bus d).2.lcd_col = max 0 (min d.lcd_col 16) ∧
    (sync_then_idle cfg bus d).2.lcd_row = d.lcd_row ∧
    (sync_then_idle cfg bus d).2.lcd_escape = LCD_ESCAPE_NONE ∧
    (sync_then_idle cfg bus d).2.strobes = d.strobes ++
      [(false, set_address_command d.lcd_row (max 0 (min d.lcd_col 16)))] ∧
    (bus.ok → (sync_then_idle cfg bus d).1 = 0) := by
  unfold sync_then_idle
  exact ⟨sync_cursorpos_lcd_col cfg bus d, sync_cursorpos_lcd_row cfg bus d, rfl,
    sync_cursorpos_strobes cfg bus d, fun hb => sync_cursorpos_ok cfg bus hb d⟩

theorem send_char_G_eq (cfg : Config) (bus : Bus) (s : device_data)
    (hseq : s.lcd_escape = LCD_ESCAPE_SEQUENCE) :
    send_char cfg bus s 0x47 = sync_then_idle cfg bus
      { s with lcd_col := if s.lcd_esc_pref.getD 0 0 > 0 then
                            (if s.lcd_esc_pref.getD 0 0 - 1 > 16 then 16
                             else s.lcd_esc_pref.getD 0 0 - 1)
                          else 0 } := by
  rw [send_char_in_escape cfg bus s _ (seq_ne_none s hseq)]
  unfold send_char_escape sync_then_idle
  simp +decide only [if_false, if_true, eq_true hseq, true_and]
  split_ifs <;> rfl

/-- C8: inside a CSI sequence with first argument n, on any bus, the final
byte G sets the column to min(n-1, 16) when n > 0 and to 0 otherwise (so to 16
for every n >= 17), leaves the row unchanged, calls `write_data` once, with
the set-address command of the new position, and returns the parser to idle;
on a bus where every transaction succeeds it returns 0. -/
theorem send_char_G (cfg : Config) (bus : Bus) (s : device_data)
    (hseq : s.lcd_escape = LCD_ESCAPE_SEQUENCE) :
    (send_char cfg bus s 0x47).2.lcd_col =
      (if s.lcd_esc_pref.getD 0 0 > 0 then min (s.lcd_esc_pref.getD 0 0 - 1) 16 else 0) ∧
    (17 ≤ s.lcd_esc_pref.getD 0 0 → (send_char cfg bus s 0x47).2.lcd_col = 16) ∧
    (send_char cfg bus s 0x47).2.lcd_row = s.lcd_row ∧
    (send_char cfg bus s 0x47).2.lcd_escape = LCD_ESCAPE_NONE ∧
    (send_char cfg bus s 0x47).2.strobes = s.strobes ++
      [(false, set_address_command s.lcd_row
        (if s.lcd_esc_pref.getD 0 0 > 0 then min (s.lcd_esc_pref.getD 0 0 - 1) 16 else 0))] ∧
    (bus.ok → (send_char cfg bus s 0x47).1 = 0) := by
  rw [send_char_G_eq cfg bus s hseq]
  obtain ⟨h1, h2, h3, h4, h5⟩ := sync_then_idle_spec cfg bus
    { s with lcd_col := if s.lcd_esc_pref.getD 0 0 > 0 then
                          (if s.lcd_esc_pref.getD 0 0 - 1 > 16 then 16
                           else s.lcd_esc_pref.getD 0 0 - 1)
                        else 0 }
  have hc : max (0 : Int) (min (if s.lcd_esc_pref.getD 0 0 > 0 then
        (if s.lcd_esc_pref.getD 0 0 - 1 > 16 then 16 else s.lcd_esc_pref.getD 0 0 - 1)
        else 0) 16) =
      (if s.lcd_esc_pref.getD 0 0 > 0 then min (s.lcd_esc_pref.getD 0 0 - 1) 16 else 0) := by
    split_ifs <;> omega
  simp only [hc] at h1 h4
  refine ⟨h1, ?_, h2, h3, h4, h5⟩
  intro h17
  rw [h1, if_pos (by omega)]
  omega
/-- C8 at a concrete input: CSI 99 G ends at column 16. -/
theorem send_char_G_witness :
    (send_char cfg10 bus_ok (dev_csi [99, 0, 0, 0] 0 0 3) 0x47).2.lcd_col = 16 :=
  (send_char_G cfg10 bus_ok (dev_csi [99, 0, 0, 0] 0 0 3) rfl).2.1 (by decide)

theorem land_one (n : Int) (hn : 0 ≤ n) : Int.land n 1 = n % 2 := by
  obtain ⟨m, rfl⟩ := Int.eq_ofNat_of_zero_le hn
  show ((m &&& 1 : Nat) : Int) = (m : Int) % 2
  rw [Nat.and_one_is_mod]
  omega

theorem xor_parity (r n : Int) (hr : r = 0 ∨ r = 1) (hn : 0 < n) :
    Int.xor r (Int.land n 1) = if n % 2 = 0 then r else 1 - r := by
  rw [land_one n (le_of_lt hn)]
  have h2 : n % 2 = 0 ∨ n % 2 = 1 := by omega
  rcases h2 with h2 | h2 <;> rcases hr with hr | hr <;> rw [h2, hr] <;> decide

theorem send_char_vertical_eq (cfg : Config) (bus : Bus) (s : device_data) (v : Nat)
    (hseq : s.lcd_escape = LCD_ESCAPE_SEQUENCE)
    (hv : v = 0x41 ∨ v = 0x42 ∨ v = 0x45 ∨ v = 0x46) :
    send_char cfg bus s v = sync_then_idle cfg bus
      { s with lcd_col := if v = 0x45 ∨ v = 0x46 then 0 else s.lcd_col,
               lcd_row := if s.lcd_esc_pref.getD 0 0 > 0 then
                            Int.xor s.lcd_row (Int.land (s.lcd_esc_pref.getD 0 0) 1)
                          else lnot s.lcd_row } := by
  rw [send_char_in_escape cfg bus s _ (seq_ne_none s hseq)]
  unfold send_char_escape sync_then_idle
  rcases hv with hv | hv | hv | hv <;> subst hv <;>
    simp +decide only [if_false, if_true, eq_true hseq, true_and] <;>
    split_ifs <;> rfl


/-- The final bytes A, B, E, F on any bus and for any column: the row follows
the parity of the first argument, E and F set the column to 0, A and B leave
it to the clamp of `sync_cursorpos`, `write_data` is called once with the
set-address command of the new position, and the parser returns to idle. -/
theorem vertical_move_clamp (cfg : Config) (bus : Bus) (s : device_data) (v : Nat)
    (hseq : s.lcd_escape = LCD_ESCAPE_SEQUENCE)
    (hv : v = 0x41 ∨ v = 0x42 ∨ v = 0x45 ∨ v = 0x46)
    (hrow : s.lcd_row = 0 ∨ s.lcd_row = 1) :
    (send_char cfg bus s v).2.lcd_row =
      (if s.lcd_esc_pref.getD 0 0 > 0 ∧ s.lcd_esc_pref.getD 0 0 % 2 = 0 then s.lcd_row
       else 1 - s.lcd_row) ∧
    (send_char cfg bus s v).2.lcd_col =
      (if v = 0x45 ∨ v = 0x46 then 0 else max 0 (min s.lcd_col 16)) ∧
    (v = 0x41 ∨ v = 0x42 → 0 ≤ s.lcd_col → s.lcd_col ≤ 16 →
      (send_char cfg bus s v).2.lcd_col = s.lcd_col) ∧
    (send_char cfg bus s v).2.lcd_escape = LCD_ESCAPE_NONE ∧
    (send_char cfg bus s v).2.strobes = s.strobes ++
      [(false, set_address_command (send_char cfg bus s v).2.lcd_row
        (send_char cfg bus s v).2.lcd_col)] ∧
    (bus.ok → (send_char cfg bus s v).1 = 0) := by
  rw [send_char_vertical_eq cfg bus s v hseq hv]
  obtain ⟨h1, h2, h3, h4, h5⟩ := sync_then_idle_spec cfg bus
    { s with lcd_col := if v = 0x45 ∨ v = 0x46 then 0 else s.lcd_col,
             lcd_row := if s.lcd_esc_pref.getD 0 0 > 0 then
                          Int.xor s.lcd_row (Int.land (s.lcd_esc_pref.getD 0 0) 1)
                        else lnot s.lcd_row }
  have hr : (if s.lcd_esc_pref.getD 0 0 > 0 then
        Int.xor s.lcd_row (Int.land (s.lcd_esc_pref.getD 0 0) 1) else lnot s.lcd_row) =
      (if s.lcd_esc_pref.getD 0 0 > 0 ∧ s.lcd_esc_pref.getD 0 0 % 2 = 0 then s.lcd_row
       else 1 - s.lcd_row) := by
    by_cases hn : s.lcd_esc_pref.getD 0 0 > 0
    · rw [if_pos hn, xor_parity _ _ hrow hn]
      by_cases he : s.lcd_esc_pref.getD 0 0 % 2 = 0
      · rw [if_pos he, if_pos ⟨hn, he⟩]
      · rw [if_neg he, if_neg (fun h => he h.2)]
    · rw [if_neg hn, if_neg (fun h => hn h.1)]
      exact lnot_flip _ hrow
  have hc : max (0 : Int) (min (if v = 0x45 ∨ v = 0x46 then 0 else s.lcd_col) 16) =
      (if v = 0x45 ∨ v = 0x46 then 0 else max 0 (min s.lcd_col 16)) := by
    split_ifs <;> omega
  have h1' : (sync_then_idle cfg bus
      { s with lcd_col := if v = 0x45 ∨ v = 0x46 then 0 else s.lcd_col,
               lcd_row := if s.lcd_esc_pref.getD 0 0 > 0 then
                            Int.xor s.lcd_row (Int.land (s.lcd_esc_pref.getD 0 0) 1)
                          else lnot s.lcd_row }).2.lcd_col =
      (if v = 0x45 ∨ v = 0x46 then 0 else max 0 (min s.lcd_col 16)) := h1.trans hc
  have h2' := h2.trans hr
  refine ⟨h2', h1', ?_, h3, ?_, h5⟩
  · intro hab h0 h16
    have hne : ¬ (v = 0x45 ∨ v = 0x46) := by
      rcases hab with h | h <;> subst h <;> decide
    rw [h1', if_neg hne]
    omega
  · rw [h4, h1, h2]

/-- C7: inside a CSI sequence with row r in {0,1} and the column within the
display range [0,16] (the range every state reached through `send_char`
keeps, see `send_chars_col_range`), on a bus where every transaction succeeds,
each of the final bytes A, B, E, F returns 0 and ends with row r when the
first argument n is positive and even, and with row 1-r otherwise (n odd, or
n = 0: no argument); E and F set the column to 0, A and B leave the column
unchanged; `write_data` is called exactly once, in command mode, with the
set-address command of the new position, and the parser returns to idle. -/
theorem send_char_vertical (cfg : Config) (bus : Bus) (hb : bus.ok) (s : device_data) (v : Nat)
    (hseq : s.lcd_escape = LCD_ESCAPE_SEQUENCE)
    (hv : v = 0x41 ∨ v = 0x42 ∨ v = 0x45 ∨ v = 0x46)
    (hrow : s.lcd_row = 0 ∨ s.lcd_row = 1)
    (h0 : 0 ≤ s.lcd_col) (h16 : s.lcd_col ≤ 16) :
    (send_char cfg bus s v).1 = 0 ∧
    (send_char cfg bus s v).2.lcd_row =
      (if s.lcd_esc_pref.getD 0 0 > 0 ∧ s.lcd_esc_pref.getD 0 0 % 2 = 0 then s.lcd_row
       else 1 - s.lcd_row) ∧
    (send_char cfg bus s v).2.lcd_col = (if v = 0x45 ∨ v = 0x46 then 0 else s.lcd_col) ∧
    (send_char cfg bus s v).2.lcd_escape = LCD_ESCAPE_NONE ∧
    (send_char cfg bus s v).2.strobes = s.strobes ++
      [(false, set_address_command
        (if s.lcd_esc_pref.getD 0 0 > 0 ∧ s.lcd_esc_pref.getD 0 0 % 2 = 0 then s.lcd_row
         else 1 - s.lcd_row)
        (if v = 0x45 ∨ v = 0x46 then 0 else s.lcd_col))] := by
  obtain ⟨hr, hc, _, he, hs, hok⟩ := vertical_move_clamp cfg bus s v hseq hv hrow
  have hc' : (send_char cfg bus s v).2.lcd_col = (if v = 0x45 ∨ v = 0x46 then 0 else s.lcd_col) := by
    rw [hc]
    split_ifs
    · rfl
    · omega
  refine ⟨hok hb, hr, hc', he, ?_⟩
  rw [hs, hr, hc']

/-- C7 at concrete inputs: CSI 3 A flips the row, CSI 2 A does not, CSI A
(argument 0) flips it, and the column 5 is unchanged; CSI 3 E flips the row
and sets the column to 0. -/
theorem send_char_vertical_witness :
    (send_char cfg10 bus_ok (dev_csi [3, 0, 0, 0] 0 0 5) 0x41).2.lcd_row = 1 ∧
    (send_char cfg10 bus_ok (dev_csi [2, 0, 0, 0] 0 0 5) 0x41).2.lcd_row = 0 ∧
    (send_char cfg10 bus_ok (dev_csi [0, 0, 0, 0] 0 0 5) 0x41).2.lcd_row = 1 ∧
    (send_char cfg10 bus_ok (dev_csi [3, 0, 0, 0] 0 0 5) 0x41).2.lcd_col = 5 ∧
    (send_char cfg10 bus_ok (dev_csi [3, 0, 0, 0] 0 0 5) 0x45).2.lcd_col = 0 :=
  ⟨(send_char_vertical cfg10 bus_ok bus_ok_ok (dev_csi [3, 0, 0, 0] 0 0 5) 0x41 rfl
      (Or.inl rfl) (Or.inl rfl) (by decide) (by decide)).2.1,
   (send_char_vertical cfg10 bus_ok bus_ok_ok (dev_csi [2, 0, 0, 0] 0 0 5) 0x41 rfl
      (Or.inl rfl) (Or.inl rfl) (by decide) (by decide)).2.1,
   (send_char_vertical cfg10 bus_ok bus_ok_ok (dev_csi [0, 0, 0, 0] 0 0 5) 0x41 rfl
      (Or.inl rfl) (Or.inl rfl) (by decide) (by decide)).2.1,
   (send_char_vertical cfg10 bus_ok bus_ok_ok (dev_csi [3, 0, 0, 0] 0 0 5) 0x41 rfl
      (Or.inl rfl) (Or.inl rfl) (by decide) (by decide)).2.2.1,
   (send_char_vertical cfg10 bus_ok bus_ok_ok (dev_csi [3, 0, 0, 0] 0 0 5) 0x45 rfl
      (Or.inr (Or.inr (Or.inl rfl))) (Or.inl rfl) (by decide) (by decide)).2.2.1⟩

theorem send_char_H_eq (cfg : Config) (bus : Bus) (s : device_data) (v : Nat)
    (hseq : s.lcd_escape = LCD_ESCAPE_SEQUENCE) (hv : v = 0x48 ∨ v = 0x66) :
    send_char cfg bus s v = sync_then_idle cfg bus
      { s with lcd_col := if s.lcd_esc_pref_pos > 0 ∧ s.lcd_esc_pref.getD 1 0 > 0 then
                            s.lcd_esc_pref.getD 1 0 - 1
                          else 0,
               lcd_row := if s.lcd_esc_pref.getD 0 0 > 0 then s.lcd_esc_pref.getD 0 0 - 1
                          else 0 } := by
  rw [send_char_in_escape cfg bus s _ (seq_ne_none s hseq)]
  unfold send_char_escape sync_then_idle
  by_cases h1 : s.lcd_esc_pref_pos > 0 ∧ s.lcd_esc_pref.getD 1 0 > 0 <;>
    by_cases h0 : s.lcd_esc_pref.getD 0 0 > 0 <;>
    rcases hv with hv | hv <;> subst hv <;>
    simp +decide only [if_false, if_true, eq_true hseq, true_and, h1, h0]

/-- C10: inside a CSI sequence with arguments p0, p1 and active index i, on
any bus and whatever the previous cursor, the final bytes H and f set the row
to p0-1 when p0 > 0 and to 0 otherwise, and the column to min(p1-1, 16) when
i > 0 and p1 > 0 and to 0 otherwise; `write_data` is called once, with the
set-address command of the new position, and the parser returns to idle; on a
bus where every transaction succeeds the status is 0. -/
theorem send_char_H (cfg : Config) (bus : Bus) (s : device_data) (v : Nat)
    (hseq : s.lcd_escape = LCD_ESCAPE_SEQUENCE) (hv : v = 0x48 ∨ v = 0x66) :
    (send_char cfg bus s v).2.lcd_row =
      (if s.lcd_esc_pref.getD 0 0 > 0 then s.lcd_esc_pref.getD 0 0 - 1 else 0) ∧
    (send_char cfg bus s v).2.lcd_col =
      (if s.lcd_esc_pref_pos > 0 ∧ s.lcd_esc_pref.getD 1 0 > 0 then
        min (s.lcd_esc_pref.getD 1 0 - 1) 16
       else 0) ∧
    (send_char cfg bus s v).2.lcd_escape = LCD_ESCAPE_NONE ∧
    (send_char cfg bus s v).2.strobes = s.strobes ++
      [(false, set_address_command (send_char cfg bus s v).2.lcd_row
        (send_char cfg bus s v).2.lcd_col)] ∧
    (bus.ok → (send_char cfg bus s v).1 = 0) := by
  rw [send_char_H_eq cfg bus s v hseq hv]
  obtain ⟨h1, h2, h3, h4, h5⟩ := sync_then_idle_spec cfg bus
    { s with lcd_col := if s.lcd_esc_pref_pos > 0 ∧ s.lcd_esc_pref.getD 1 0 > 0 then
                          s.lcd_esc_pref.getD 1 0 - 1
                        else 0,
             lcd_row := if s.lcd_esc_pref.getD 0 0 > 0 then s.lcd_esc_pref.getD 0 0 - 1
                        else 0 }
  have hc : max (0 : Int) (min (if s.lcd_esc_pref_pos > 0 ∧ s.lcd_esc_pref.getD 1 0 > 0 then
        s.lcd_esc_pref.getD 1 0 - 1 else 0) 16) =
      (if s.lcd_esc_pref_pos > 0 ∧ s.lcd_esc_pref.getD 1 0 > 0 then
        min (s.lcd_esc_pref.getD 1 0 - 1) 16 else 0) := by
    split_ifs with h
    · have := h.2
      omega
    · omega
  refine ⟨h2, h1.trans hc, h3, ?_, h5⟩
  rw [h4, h1, h2]

/-- C10 at a concrete input: CSI 2;7 H from row 0, column 3 ends at row 1,
column 6. -/
theorem send_char_H_witness :
    (send_char cfg10 bus_ok (dev_csi [2, 7, 0, 0] 1 0 3) 0x48).2.lcd_row = 1 ∧
    (send_char cfg10 bus_ok (dev_csi [2, 7, 0, 0] 1 0 3) 0x48).2.lcd_col = 6 :=
  ⟨(send_char_H cfg10 bus_ok (dev_csi [2, 7, 0, 0] 1 0 3) 0x48 rfl (Or.inl rfl)).1,
   (send_char_H cfg10 bus_ok (dev_csi [2, 7, 0, 0] 1 0 3) 0x48 rfl (Or.inl rfl)).2.1⟩

theorem send_char_K_one (cfg : Config) (bus : Bus) (hb : bus.ok) (s : device_data)
    (hseq : s.lcd_escape = LCD_ESCAPE_SEQUENCE) (h0 : 0 ≤ s.lcd_col)
    (p1 : s.lcd_esc_pref.getD 0 0 = 1) :
    (send_char cfg bus s 0x4B).1 = 0 ∧
    (send_char cfg bus s 0x4B).2.lcd_col = s.lcd_col ∧
    (send_char cfg bus s 0x4B).2.lcd_row = s.lcd_row ∧
    (send_char cfg bus s 0x4B).2.lcd_escape = LCD_ESCAPE_NONE ∧
    (send_char cfg bus s 0x4B).2.strobes =
      s.strobes ++ [(false, set_address_command s.lcd_row 0)]
        ++ List.replicate s.lcd_col.toNat (true, 0x20) := by
  rw [send_char_in_escape cfg bus s _ (seq_ne_none s hseq)]
  unfold send_char_escape
  simp +decide only [if_false, if_true, eq_true hseq, true_and, p1]
  have hS := sync_cursorpos_ok cfg bus hb { s with lcd_col := 0 }
  have hSc := sync_cursorpos_lcd_col cfg bus { s with lcd_col := 0 }
  have hSr := sync_cursorpos_lcd_row cfg bus { s with lcd_col := 0 }
  have hSs := sync_cursorpos_strobes cfg bus { s with lcd_col := 0 }
  obtain ⟨w1, w2, w3, w4, w5⟩ := write_spaces_spec cfg bus hb s.lcd_col
    (sync_cursorpos cfg bus { s with lcd_col := 0 }).1
    (sync_cursorpos cfg bus { s with lcd_col := 0 }).2
  generalize sync_cursorpos cfg bus { s with lcd_col := 0 } = S at *
  have hSc0 : S.2.lcd_col = 0 := hSc
  have w1' : (write_spaces cfg bus s.lcd_col (s.lcd_col - S.2.lcd_col).toNat S.1 S.2).1 = 0 := by
    rw [w1, hS]; split_ifs <;> rfl
  rw [if_neg (by rw [hS]; decide), if_neg (by rw [w1']; decide)]
  refine ⟨w1', ?_, ?_, rfl, ?_⟩
  · show (write_spaces cfg bus s.lcd_col (s.lcd_col - S.2.lcd_col).toNat S.1 S.2).2.lcd_col = _
    rw [w2, hSc0]; omega
  · show (write_spaces cfg bus s.lcd_col (s.lcd_col - S.2.lcd_col).toNat S.1 S.2).2.lcd_row = _
    rw [w3]; exact hSr
  · show (write_spaces cfg bus s.lcd_col (s.lcd_col - S.2.lcd_col).toNat S.1 S.2).2.strobes = _
    rw [w5, hSs, hSc0]
    have : (s.lcd_col - 0).toNat = s.lcd_col.toNat := by omega
    rw [this]
    rfl


theorem send_char_K_two (cfg : Config) (bus : Bus) (hb : bus.ok) (s : device_data)
    (hseq : s.lcd_escape = LCD_ESCAPE_SEQUENCE) (h0 : 0 ≤ s.lcd_col) (h16 : s.lcd_col ≤ 16)
    (p2 : s.lcd_esc_pref.getD 0 0 = 2) :
    (send_char cfg bus s 0x4B).1 = 0 ∧
    (send_char cfg bus s 0x4B).2.lcd_col = s.lcd_col ∧
    (send_char cfg bus s 0x4B).2.lcd_row = s.lcd_row ∧
    (send_char cfg bus s 0x4B).2.lcd_escape = LCD_ESCAPE_NONE ∧
    (send_char cfg bus s 0x4B).2.strobes =
      s.strobes ++ [(false, set_address_command s.lcd_row 0)]
        ++ List.replicate 16 (true, 0x20)
        ++ [(false, set_address_command s.lcd_row s.lcd_col)] := by
  rw [send_char_in_escape cfg bus s _ (seq_ne_none s hseq)]
  unfold send_char_escape
  simp +decide only [if_false, if_true, eq_true hseq, true_and, p2]
  have hS := sync_cursorpos_ok cfg bus hb { s with lcd_col := 0 }
  have hSc := sync_cursorpos_lcd_col cfg bus { s with lcd_col := 0 }
  have hSr := sync_cursorpos_lcd_row cfg bus { s with lcd_col := 0 }
  have hSs := sync_cursorpos_strobes cfg bus { s with lcd_col := 0 }
  obtain ⟨w1, _, w3, _, w5⟩ := write_spaces_spec cfg bus hb 16
    (sync_cursorpos cfg bus { s with lcd_col := 0 }).1
    (sync_cursorpos cfg bus { s with lcd_col := 0 }).2
  generalize sync_cursorpos cfg bus { s with lcd_col := 0 } = S at *
  have hSc0 : S.2.lcd_col = 0 := hSc
  have w1' : (write_spaces cfg bus 16 (16 - S.2.lcd_col).toNat S.1 S.2).1 = 0 := by
    rw [w1, hS]; split_ifs <;> rfl
  rw [if_neg (by rw [hS]; decide), if_neg (by rw [w1']; decide)]
  generalize write_spaces cfg bus 16 (16 - S.2.lcd_col).toNat S.1 S.2 = W at *
  obtain ⟨t1, t2, _, t4, _⟩ := sync_then_idle_spec cfg bus { W.2 with lcd_col := s.lcd_col }
  have hclamp : max (0 : Int) (min s.lcd_col 16) = s.lcd_col := by omega
  refine ⟨sync_cursorpos_ok cfg bus hb _, ?_, ?_, rfl, ?_⟩
  · exact t1.trans hclamp
  · exact t2.trans (w3.trans hSr)
  · refine t4.trans ?_
    show W.2.strobes ++ [(false, set_address_command W.2.lcd_row (max 0 (min s.lcd_col 16)))] = _
    rw [w5, w3, hSs, hSr, hclamp, hSc0]
    rfl

theorem send_char_K_other (cfg : Config) (bus : Bus) (hb : bus.ok) (s : device_data)
    (hseq : s.lcd_escape = LCD_ESCAPE_SEQUENCE) (h0 : 0 ≤ s.lcd_col) (h16 : s.lcd_col ≤ 16)
    (p1 : s.lcd_esc_pref.getD 0 0 ≠ 1) (p2 : s.lcd_esc_pref.getD 0 0 ≠ 2) :
    (send_char cfg bus s 0x4B).1 = 0 ∧
    (send_char cfg bus s 0x4B).2.lcd_col = s.lcd_col ∧
    (send_char cfg bus s 0x4B).2.lcd_row = s.lcd_row ∧
    (send_char cfg bus s 0x4B).2.lcd_escape = LCD_ESCAPE_NONE ∧
    (send_char cfg bus s 0x4B).2.strobes =
      s.strobes ++ List.replicate (16 - s.lcd_col).toNat (true, 0x20)
        ++ [(false, set_address_command s.lcd_row s.lcd_col)] := by
  rw [send_char_in_escape cfg bus s _ (seq_ne_none s hseq)]
  unfold send_char_escape
  simp +decide only [if_false, if_true, eq_true hseq, true_and, p1, p2]
  obtain ⟨w1, _, w3, _, w5⟩ := write_spaces_spec cfg bus hb 16 0 s
  have w1' : (write_spaces cfg bus 16 (16 - s.lcd_col).toNat 0 s).1 = 0 := by
    rw [w1]; split_ifs <;> rfl
  rw [if_neg (by rw [w1']; decide)]
  generalize write_spaces cfg bus 16 (16 - s.lcd_col).toNat 0 s = W at *
  obtain ⟨t1, t2, _, t4, _⟩ := sync_then_idle_spec cfg bus { W.2 with lcd_col := s.lcd_col }
  have hclamp : max (0 : Int) (min s.lcd_col 16) = s.lcd_col := by omega
  refine ⟨sync_cursorpos_ok cfg bus hb _, ?_, ?_, rfl, ?_⟩
  · exact t1.trans hclamp
  · exact t2.trans w3
  · refine t4.trans ?_
    show W.2.strobes ++ [(false, set_address_command W.2.lcd_row (max 0 (min s.lcd_col 16)))] = _
    rw [w5, w3, hclamp]

/-- C9: inside a CSI sequence at column c in [0,16], on a bus where every
transaction succeeds, the final byte K returns 0 and ends with the column c,
the row unchanged and the parser idle.  With first argument 1 it calls
`write_data` for the set-address command of column 0 and then for exactly c
spaces (columns [0,c)); with first argument 2 for the set-address command of
column 0, exactly 16 spaces and the set-address command of column c; with any
other first argument for exactly 16-c spaces (written from the current column
c, columns [c,16)) and the set-address command of column c. -/
theorem send_char_K (cfg : Config) (bus : Bus) (hb : bus.ok) (s : device_data)
    (hseq : s.lcd_escape = LCD_ESCAPE_SEQUENCE) (h0 : 0 ≤ s.lcd_col) (h16 : s.lcd_col ≤ 16) :
    (send_char cfg bus s 0x4B).1 = 0 ∧
    (send_char cfg bus s 0x4B).2.lcd_col = s.lcd_col ∧
    (send_char cfg bus s 0x4B).2.lcd_row = s.lcd_row ∧
    (send_char cfg bus s 0x4B).2.lcd_escape = LCD_ESCAPE_NONE ∧
    (s.lcd_esc_pref.getD 0 0 = 1 →
      (send_char cfg bus s 0x4B).2.strobes =
        s.strobes ++ [(false, set_address_command s.lcd_row 0)]
          ++ List.replicate s.lcd_col.toNat (true, 0x20)) ∧
    (s.lcd_esc_pref.getD 0 0 = 2 →
      (send_char cfg bus s 0x4B).2.strobes =
        s.strobes ++ [(false, set_address_command s.lcd_row 0)]
          ++ List.replicate 16 (true, 0x20)
          ++ [(false, set_address_command s.lcd_row s.lcd_col)]) ∧
    (s.lcd_esc_pref.getD 0 0 ≠ 1 → s.lcd_esc_pref.getD 0 0 ≠ 2 →
      (send_char cfg bus s 0x4B).2.strobes =
        s.strobes ++ List.replicate (16 - s.lcd_col).toNat (true, 0x20)
          ++ [(false, set_address_command s.lcd_row s.lcd_col)]) := by
  by_cases p1 : s.lcd_esc_pref.getD 0 0 = 1
  · obtain ⟨a, b, c, d, e⟩ := send_char_K_one cfg bus hb s hseq h0 p1
    exact ⟨a, b, c, d, fun _ => e, fun h => by omega, fun h => absurd p1 h⟩
  · by_cases p2 : s.lcd_esc_pref.getD 0 0 = 2
    · obtain ⟨a, b, c, d, e⟩ := send_char_K_two cfg bus hb s hseq h0 h16 p2
      exact ⟨a, b, c, d, fun h => absurd h p1, fun _ => e, fun _ h => absurd p2 h⟩
    · obtain ⟨a, b, c, d, e⟩ := send_char_K_other cfg bus hb s hseq h0 h16 p1 p2
      exact ⟨a, b, c, d, fun h => absurd h p1, fun h => absurd h p2, fun _ _ => e⟩

/-- C9 at column 10 of row 0: CSI 1 K writes 10 spaces from column 0,
CSI 2 K writes 16 spaces from column 0 and goes back to column 10 (command
0x8A), CSI K writes 6 spaces and goes back to column 10. -/
theorem send_char_K_witness :
    (send_char cfg10 bus_ok (dev_csi [1, 0, 0, 0] 0 0 10) 0x4B).2.lcd_col = 10 ∧
    (send_char cfg10 bus_ok (dev_csi [1, 0, 0, 0] 0 0 10) 0x4B).2.strobes =
      [(false, 0x80)] ++ List.replicate 10 (true, 0x20) ∧
    (send_char cfg10 bus_ok (dev_csi [2, 0, 0, 0] 0 0 10) 0x4B).2.strobes =
      [(false, 0x80)] ++ List.replicate 16 (true, 0x20) ++ [(false, 0x8A)] ∧
    (send_char cfg10 bus_ok (dev_csi [0, 0, 0, 0] 0 0 10) 0x4B).2.strobes =
      List.replicate 6 (true, 0x20) ++ [(false, 0x8A)] :=
  ⟨(send_char_K cfg10 bus_ok bus_ok_ok (dev_csi [1, 0, 0, 0] 0 0 10) rfl
      (by decide) (by decide)).2.1,
   (send_char_K cfg10 bus_ok bus_ok_ok (dev_csi [1, 0, 0, 0] 0 0 10) rfl
      (by decide) (by decide)).2.2.2.2.1 rfl,
   (send_char_K cfg10 bus_ok bus_ok_ok (dev_csi [2, 0, 0, 0] 0 0 10) rfl
      (by decide) (by decide)).2.2.2.2.2.1 rfl,
   (send_char_K cfg10 bus_ok bus_ok_ok (dev_csi [0, 0, 0, 0] 0 0 10) rfl
      (by decide) (by decide)).2.2.2.2.2.2 (by decide) (by decide)⟩

/-! ## Cursor forward and backward -/

theorem wrap_int_eq (x : Int) (hlo : -2147483648 ≤ x) (hhi : x < 2147483648) : wrap_int x = x := by
  unfold wrap_int
  norm_num
  omega

theorem wrap_int_over (x : Int) (hlo : 2147483648 ≤ x) (hhi : x < 6442450944) :
    wrap_int x = x - 4294967296 := by
  unfold wrap_int
  norm_num
  omega

theorem send_char_C_eq (cfg : Config) (bus : Bus) (s : device_data)
    (hseq : s.lcd_escape = LCD_ESCAPE_SEQUENCE) :
    send_char cfg bus s 0x43 = sync_then_idle cfg bus
      { s with lcd_col := if s.lcd_esc_pref.getD 0 0 > 0 then
                            wrap_int (s.lcd_col + s.lcd_esc_pref.getD 0 0)
                          else wrap_int (s.lcd_col + 1) } := by
  rw [send_char_in_escape cfg bus s _ (seq_ne_none s hseq)]
  unfold send_char_escape sync_then_idle
  by_cases h0 : s.lcd_esc_pref.getD 0 0 > 0 <;>
    simp +decide only [if_false, if_true, eq_true hseq, true_and, h0]

theorem send_char_D_eq (cfg : Config) (bus : Bus) (s : device_data)
    (hseq : s.lcd_escape = LCD_ESCAPE_SEQUENCE) :
    send_char cfg bus s 0x44 = sync_then_idle cfg bus
      { s with lcd_col := if s.lcd_esc_pref.getD 0 0 > 0 then
                            wrap_int (s.lcd_col - s.lcd_esc_pref.getD 0 0)
                          else wrap_int (s.lcd_col - 1) } := by
  rw [send_char_in_escape cfg bus s _ (seq_ne_none s hseq)]
  unfold send_char_escape sync_then_idle
  by_cases h0 : s.lcd_esc_pref.getD 0 0 > 0 <;>
    simp +decide only [if_false, if_true, eq_true hseq, true_and, h0]

/-- C11, as amended: inside a CSI sequence at column c in [0,16] with first
argument n, 0 <= n <= 2^31-1 (an `int`), on any bus: the final byte C yields
column min(c+n, 16) when n > 0 and c+n <= 2^31-1, column 0 when c+n exceeds
2^31-1 (the `int` addition wraps to a negative value, which `sync_cursorpos`
clamps to 0), and min(c+1, 16) when n = 0; the final byte D yields
max(c-n, 0) when n > 0 and max(c-1, 0) when n = 0.  For both bytes the
row is unchanged, `write_data` is called once, with the set-address command of
the clamped column, the parser returns to idle, and on a bus where every
transaction succeeds the status is 0. -/
theorem send_char_forward_backward (cfg : Config) (bus : Bus) (s : device_data)
    (hseq : s.lcd_escape = LCD_ESCAPE_SEQUENCE) (h0 : 0 ≤ s.lcd_col) (h16 : s.lcd_col ≤ 16)
    (hn : 0 ≤ s.lcd_esc_pref.getD 0 0) (hint : s.lcd_esc_pref.getD 0 0 < 2147483648) :
    (0 < s.lcd_esc_pref.getD 0 0 → s.lcd_col + s.lcd_esc_pref.getD 0 0 < 2147483648 →
      (send_char cfg bus s 0x43).2.lcd_col = min (s.lcd_col + s.lcd_esc_pref.getD 0 0) 16) ∧
    (2147483648 ≤ s.lcd_col + s.lcd_esc_pref.getD 0 0 →
      (send_char cfg bus s 0x43).2.lcd_col = 0) ∧
    (s.lcd_esc_pref.getD 0 0 = 0 →
      (send_char cfg bus s 0x43).2.lcd_col = min (s.lcd_col + 1) 16) ∧
    (0 < s.lcd_esc_pref.getD 0 0 →
      (send_char cfg bus s 0x44).2.lcd_col = max (s.lcd_col - s.lcd_esc_pref.getD 0 0) 0) ∧
    (s.lcd_esc_pref.getD 0 0 = 0 →
      (send_char cfg bus s 0x44).2.lcd_col = max (s.lcd_col - 1) 0) ∧
    (∀ v, v = 0x43 ∨ v = 0x44 →
      (send_char cfg bus s v).2.lcd_row = s.lcd_row ∧
      (send_char cfg bus s v).2.lcd_escape = LCD_ESCAPE_NONE ∧
      (send_char cfg bus s v).2.strobes = s.strobes ++
        [(false, set_address_command s.lcd_row (send_char cfg bus s v).2.lcd_col)] ∧
      (bus.ok → (send_char cfg bus s v).1 = 0)) := by
  rw [send_char_C_eq cfg bus s hseq, send_char_D_eq cfg bus s hseq]
  obtain ⟨c1, _, _, _, _⟩ := sync_then_idle_spec cfg bus
    { s with lcd_col := if s.lcd_esc_pref.getD 0 0 > 0 then
                          wrap_int (s.lcd_col + s.lcd_esc_pref.getD 0 0)
                        else wrap_int (s.lcd_col + 1) }
  obtain ⟨d1, _, _, _, _⟩ := sync_then_idle_spec cfg bus
    { s with lcd_col := if s.lcd_esc_pref.getD 0 0 > 0 then
                          wrap_int (s.lcd_col - s.lcd_esc_pref.getD 0 0)
                        else wrap_int (s.lcd_col - 1) }
  refine ⟨?_, ?_, ?_, ?_, ?_, ?_⟩
  · intro hpos hfit
    rw [c1]
    dsimp only
    rw [if_pos hpos, wrap_int_eq _ (by omega) hfit]
    omega
  · intro hover
    rw [c1]
    dsimp only
    rw [if_pos (by omega), wrap_int_over _ hover (by omega)]
    omega
  · intro hz
    rw [c1]
    dsimp only
    rw [if_neg (by omega), wrap_int_eq _ (by omega) (by omega)]
    omega
  · intro hpos
    rw [d1]
    dsimp only
    rw [if_pos hpos, wrap_int_eq _ (by omega) (by omega)]
    omega
  · intro hz
    rw [d1]
    dsimp only
    rw [if_neg (by omega), wrap_int_eq _ (by omega) (by omega)]
    omega
  · intro v hv
    rcases hv with hv | hv <;> subst hv
    · rw [send_char_C_eq cfg bus s hseq]
      obtain ⟨a1, a2, a3, a4, a5⟩ := sync_then_idle_spec cfg bus
        { s with lcd_col := if s.lcd_esc_pref.getD 0 0 > 0 then
                              wrap_int (s.lcd_col + s.lcd_esc_pref.getD 0 0)
                            else wrap_int (s.lcd_col + 1) }
      refine ⟨a2, a3, ?_, a5⟩
      rw [a4, a1]
    · rw [send_char_D_eq cfg bus s hseq]
      obtain ⟨a1, a2, a3, a4, a5⟩ := sync_then_idle_spec cfg bus
        { s with lcd_col := if s.lcd_esc_pref.getD 0 0 > 0 then
                              wrap_int (s.lcd_col - s.lcd_esc_pref.getD 0 0)
                            else wrap_int (s.lcd_col - 1) }
      refine ⟨a2, a3, ?_, a5⟩
      rw [a4, a1]

/-- C11 as stated fails: at column 16 with first argument 2147483647 the final
byte C ends at column 0, not at min(16 + 2147483647, 16) = 16. -/
theorem send_char_forward_counterexample :
    (dev_csi [2147483647, 0, 0, 0] 0 0 16).lcd_escape = LCD_ESCAPE_SEQUENCE ∧
    (send_char cfg10 bus_ok (dev_csi [2147483647, 0, 0, 0] 0 0 16) 0x43).2.lcd_col = 0 ∧
    (send_char cfg10 bus_ok (dev_csi [2147483647, 0, 0, 0] 0 0 16) 0x43).2.lcd_col ≠
      min ((dev_csi [2147483647, 0, 0, 0] 0 0 16).lcd_col + 2147483647) 16 := by
  decide

/-- C11 amended, at concrete inputs: CSI 3 C from column 5 ends at column 8,
CSI 7 D from column 5 ends at column 0. -/
theorem send_char_forward_backward_witness :
    (send_char cfg10 bus_ok (dev_csi [3, 0, 0, 0] 0 0 5) 0x43).2.lcd_col = 8 ∧
    (send_char cfg10 bus_ok (dev_csi [7, 0, 0, 0] 0 0 5) 0x44).2.lcd_col = 0 :=
  ⟨(send_char_forward_backward cfg10 bus_ok (dev_csi [3, 0, 0, 0] 0 0 5) rfl
      (by decide) (by decide) (by decide) (by decide)).1 (by decide) (by decide),
   (send_char_forward_backward cfg10 bus_ok (dev_csi [7, 0, 0, 0] 0 0 5) rfl
      (by decide) (by decide) (by decide) (by decide)).2.2.2.1 (by decide)⟩

/-! ## Invariants of `send_char` -/

theorem inv_sync (cfg : Config) (bus : Bus) (d : device_data)
    (h : d.lcd_esc_pref_pos < cfg.LCD_MAX_ESCAPE_PREFIXES) :
    col_index_inv cfg (sync_cursorpos cfg bus d).2 := by
  unfold col_index_inv
  rw [sync_cursorpos_lcd_col, sync_cursorpos_lcd_esc_pref_pos]
  exact ⟨by omega, by omega, h⟩

theorem inv_write_data (cfg : Config) (bus : Bus) (d : device_data) (c : Bool) (v : Nat)
    (h : col_index_inv cfg d) : col_index_inv cfg (write_data cfg bus d c v).2 := by
  unfold col_index_inv
  rw [write_data_lcd_col, write_data_lcd_esc_pref_pos]
  exact h

theorem inv_send_command (cfg : Config) (bus : Bus) (d : device_data) (v : Nat)
    (h : col_index_inv cfg d) : col_index_inv cfg (send_command cfg bus d v).2 := by
  unfold col_index_inv
  rw [send_command_lcd_col, send_command_lcd_esc_pref_pos]
  exact h

theorem inv_write_spaces (cfg : Config) (bus : Bus) (limit : Int) (hl : limit ≤ 16) :
    ∀ (fuel : Nat) (st : Int) (d : device_data), col_index_inv cfg d →
      col_index_inv cfg (write_spaces cfg bus limit fuel st d).2 := by
  intro fuel
  induction fuel with
  | zero => intro st d h; exact h
  | succ fuel ih =>
    intro st d h
    simp only [write_spaces]
    split_ifs with h1 h2
    · exact inv_write_data cfg bus d _ _ h
    · apply ih
      have hw := inv_write_data cfg bus d true 0x20 h
      have hc := write_data_lcd_col cfg bus d true 0x20
      unfold col_index_inv at hw ⊢
      refine ⟨?_, ?_, hw.2.2⟩
      · show 0 ≤ (write_data cfg bus d true 0x20).2.lcd_col + 1
        omega
      · show (write_data cfg bus d true 0x20).2.lcd_col + 1 ≤ 16
        omega
    · exact h


theorem inv_sync_col (cfg : Config) (bus : Bus) (d : device_data) (c : Int)
    (h : col_index_inv cfg d) :
    col_index_inv cfg (sync_cursorpos cfg bus { d with lcd_col := c }).2 :=
  inv_sync cfg bus { d with lcd_col := c } h.2.2

theorem inv_idle (cfg : Config) (bus : Bus) (s : device_data) (v : Nat)
    (hidle : s.lcd_escape = LCD_ESCAPE_NONE) (h : col_index_inv cfg s) :
    col_index_inv cfg (send_char cfg bus s v).2 := by
  have hp := h.2.2
  unfold send_char
  rw [if_neg (fun hne => hne hidle)]
  dsimp only
  split_ifs
  · exact h
  · exact inv_sync cfg bus _ hp
  · exact inv_write_spaces cfg bus 16 (le_refl _) _ _ _ (inv_sync cfg bus _ hp)
  · exact inv_sync_col cfg bus _ _
      (inv_write_spaces cfg bus 16 (le_refl _) _ _ _ (inv_sync cfg bus _ hp))
  · apply inv_write_data
    exact ⟨by show (0 : Int) ≤ s.lcd_col + 1; have := h.1; omega,
           by show s.lcd_col + 1 ≤ 16; omega, hp⟩
  · exact h

theorem inv_escape (cfg : Config) (bus : Bus) (s : device_data) (v : Nat)
    (h : col_index_inv cfg s) :
    col_index_inv cfg (send_char_escape cfg bus s v).2 := by
  have hp := h.2.2
  have h0 := h.1
  have h16 := h.2.1
  unfold send_char_escape
  by_cases c1 : 0x30 ≤ v ∧ v ≤ 0x39
  · rw [if_pos c1]
    split_ifs <;> exact h
  rw [if_neg c1]
  by_cases c2 : v = 0x3B
  · rw [if_pos c2]
    split_ifs
    · exact ⟨h0, h16, by show s.lcd_esc_pref_pos + 1 < _; omega⟩
    · exact h
    · exact h
  rw [if_neg c2]
  by_cases c3 : v = 0x5B
  · rw [if_pos c3]
    exact ⟨h0, h16, by show 0 < _; omega⟩
  rw [if_neg c3]
  by_cases c4 : v = 0x45 ∨ v = 0x46 ∨ v = 0x41 ∨ v = 0x42
  · rw [if_pos c4]
    dsimp only
    split_ifs <;> exact inv_sync cfg bus _ hp
  rw [if_neg c4]
  by_cases c5 : v = 0x43
  · rw [if_pos c5]
    dsimp only
    split_ifs <;> exact inv_sync cfg bus _ hp
  rw [if_neg c5]
  by_cases c6 : v = 0x44
  · rw [if_pos c6]
    dsimp only
    split_ifs <;> exact inv_sync cfg bus _ hp
  rw [if_neg c6]
  by_cases c7 : v = 0x47
  · rw [if_pos c7]
    dsimp only
    split_ifs <;> exact inv_sync cfg bus _ hp
  rw [if_neg c7]
  by_cases c8 : v = 0x66 ∨ v = 0x48
  · rw [if_pos c8]
    dsimp only
    split_ifs <;> exact inv_sync cfg bus _ hp
  rw [if_neg c8]
  by_cases c9 : v = 0x4A
  · rw [if_pos c9]
    exact inv_send_command cfg bus _ _ h
  rw [if_neg c9]
  by_cases c10 : v = 0x4B
  · rw [if_pos c10]
    dsimp only
    split_ifs
    all_goals first
      | exact inv_sync cfg bus _ hp
      | exact inv_write_spaces cfg bus _ h16 _ _ _ (inv_sync cfg bus _ hp)
      | exact inv_write_spaces cfg bus 16 (le_refl _) _ _ _ (inv_sync cfg bus _ hp)
      | exact inv_write_spaces cfg bus 16 (le_refl _) _ _ _ h
      | exact inv_sync_col cfg bus _ _
          (inv_write_spaces cfg bus 16 (le_refl _) _ _ _ (inv_sync cfg bus _ hp))
      | exact inv_sync_col cfg bus _ _ (inv_write_spaces cfg bus 16 (le_refl _) _ _ _ h)
  rw [if_neg c10]
  exact h

/-- C12: for every device record with 0 <= column <= 16 and active argument
index below the capacity K, every input byte and every bus (whatever
succeeds or fails), the record after `send_char`, returned with success or
with an error, again has 0 <= column <= 16 and index < K. -/
theorem send_char_col_index_inv (cfg : Config) (bus : Bus) (s : device_data) (v : Nat)
    (h0 : 0 ≤ s.lcd_col) (h16 : s.lcd_col ≤ 16)
    (hpos : s.lcd_esc_pref_pos < cfg.LCD_MAX_ESCAPE_PREFIXES) :
    0 ≤ (send_char cfg bus s v).2.lcd_col ∧ (send_char cfg bus s v).2.lcd_col ≤ 16 ∧
    (send_char cfg bus s v).2.lcd_esc_pref_pos < cfg.LCD_MAX_ESCAPE_PREFIXES := by
  by_cases hidle : s.lcd_escape = LCD_ESCAPE_NONE
  · exact inv_idle cfg bus s v hidle ⟨h0, h16, hpos⟩
  · rw [send_char_in_escape cfg bus s v hidle]
    exact inv_escape cfg bus s v ⟨h0, h16, hpos⟩

/-- C12 at a concrete input: CSI 2 K at column 10 on a bus that fails from its
eighth call on. -/
theorem send_char_col_index_inv_witness :
    0 ≤ (send_char cfg10 (bus_fail_from 7) (dev_csi [2, 0, 0, 0] 0 0 10) 0x4B).2.lcd_col ∧
    (send_char cfg10 (bus_fail_from 7) (dev_csi [2, 0, 0, 0] 0 0 10) 0x4B).2.lcd_col ≤ 16 ∧
    (send_char cfg10 (bus_fail_from 7) (dev_csi [2, 0, 0, 0] 0 0 10) 0x4B).2.lcd_esc_pref_pos
      < cfg10.LCD_MAX_ESCAPE_PREFIXES :=
  send_char_col_index_inv cfg10 (bus_fail_from 7) (dev_csi [2, 0, 0, 0] 0 0 10) 0x4B
    (by decide) (by decide) (by decide)

/-- Every state reached by feeding bytes to `send_char`, on any bus, from a
state with the column in [0,16] and the argument index below the capacity has
its column in [0,16] and its index below the capacity; the allocated device
(column 0, index 0) is such a state. -/
theorem send_chars_col_range (cfg : Config) (bus : Bus) :
    ∀ (bytes : List Nat) (d : device_data), col_index_inv cfg d →
      col_index_inv cfg (send_chars cfg bus d bytes) := by
  intro bytes
  induction bytes with
  | nil => intro d h; exact h
  | cons b bs ih =>
    intro d h
    rw [send_chars_cons]
    apply ih
    by_cases hidle : d.lcd_escape = LCD_ESCAPE_NONE
    · exact inv_idle cfg bus d b hidle h
    · rw [send_char_in_escape cfg bus d b hidle]
      exact inv_escape cfg bus d b h

/-! ## Rows, the escape state and unknown bytes -/

/-- C13 at the failing input: from the freshly allocated device the bytes
ESC [ 5 leave row 0 with first argument 5, and the final byte H then returns 0
with row 4, outside {0,1}.  A following CSI 1 A (cursor up by one) computes
4 xor 1 = 5, so the cursor stays on the second line (both set-address commands
are 0xC0). -/
theorem send_char_H_row_out_of_range :
    (send_chars cfg10 bus_ok dev0 [0x1B, 0x5B, 0x35]).lcd_row = 0 ∧
    (send_chars cfg10 bus_ok dev0 [0x1B, 0x5B, 0x35]).lcd_escape = LCD_ESCAPE_SEQUENCE ∧
    (send_chars cfg10 bus_ok dev0 [0x1B, 0x5B, 0x35]).lcd_esc_pref.getD 0 0 = 5 ∧
    (send_char cfg10 bus_ok (send_chars cfg10 bus_ok dev0 [0x1B, 0x5B, 0x35]) 0x48).1 = 0 ∧
    (send_char cfg10 bus_ok (send_chars cfg10 bus_ok dev0 [0x1B, 0x5B, 0x35]) 0x48).2.lcd_row = 4 ∧
    (send_chars cfg10 bus_ok dev0 [0x1B, 0x5B, 0x35, 0x48, 0x1B, 0x5B, 0x31, 0x41]).lcd_row = 5 ∧
    (send_chars cfg10 bus_ok dev0 [0x1B, 0x5B, 0x35, 0x48, 0x1B, 0x5B, 0x31, 0x41]).strobes =
      [(false, 0xC0), (false, 0xC0)] := by
  decide

theorem send_char_escape_discard (cfg : Config) (bus : Bus) (s : device_data) (v : Nat)
    (hdigit : ¬ (0x30 ≤ v ∧ v ≤ 0x39)) (hsemi : v ≠ 0x3B) (hbr : v ≠ 0x5B)
    (hfinal : v ∉ [0x41, 0x42, 0x43, 0x44, 0x45, 0x46, 0x47, 0x48, 0x66, 0x4A, 0x4B]) :
    send_char_escape cfg bus s v = (0, { s with lcd_escape := LCD_ESCAPE_NONE }) := by
  simp only [List.mem_cons, List.mem_singleton, List.not_mem_nil, or_false, not_or] at hfinal
  obtain ⟨hA, hB, hC, hD, hE, hF, hG, hH, hf, hJ, hK⟩ := hfinal
  unfold send_char_escape
  rw [if_neg hdigit, if_neg hsemi, if_neg hbr, if_neg (by simp [hA, hB, hE, hF]), if_neg hC,
    if_neg hD, if_neg hG, if_neg (by simp [hf, hH]), if_neg hJ, if_neg hK]

theorem write_spaces_strobes_le (cfg : Config) (bus : Bus) (limit : Int) :
    ∀ (fuel : Nat) (st : Int) (d : device_data),
      d.strobes.length ≤ (write_spaces cfg bus limit fuel st d).2.strobes.length := by
  intro fuel
  induction fuel with
  | zero => intro st d; exact le_refl _
  | succ fuel ih =>
    intro st d
    simp only [write_spaces]
    split_ifs
    · rw [write_data_strobes]; simp
    · refine le_trans ?_ (ih _ _)
      show d.strobes.length ≤ (write_data cfg bus d true 0x20).2.strobes.length
      rw [write_data_strobes]; simp
    · exact le_refl _

theorem sync_strobes_lt (cfg : Config) (bus : Bus) (d : device_data) (n : Nat)
    (h : n ≤ d.strobes.length) : n < (sync_cursorpos cfg bus d).2.strobes.length := by
  rw [sync_cursorpos_strobes, List.length_append]
  simp only [List.length_singleton]
  omega

theorem escape_move_strobes (cfg : Config) (bus : Bus) (s : device_data) (v : Nat)
    (hv : v ∈ [0x41, 0x42, 0x43, 0x44, 0x45, 0x46, 0x47, 0x48, 0x66]) :
    s.strobes.length < (send_char_escape cfg bus s v).2.strobes.length := by
  simp only [List.mem_cons, List.mem_singleton, List.not_mem_nil, or_false] at hv
  have hs : s.strobes.length ≤ s.strobes.length := le_refl _
  rcases hv with h | h | h | h | h | h | h | h | h <;> subst h <;>
    unfold send_char_escape <;>
    simp +decide only [if_false, if_true] <;>
    split_ifs <;>
    exact sync_strobes_lt cfg bus _ _ hs

theorem escape_J_strobes (cfg : Config) (bus : Bus) (s : device_data) :
    s.strobes.length < (send_char_escape cfg bus s 0x4A).2.strobes.length := by
  unfold send_char_escape
  simp +decide only [if_false, if_true]
  rw [send_command_strobes, List.length_append]
  simp

theorem escape_K_strobes (cfg : Config) (bus : Bus) (s : device_data) :
    s.strobes.length < (send_char_escape cfg bus s 0x4B).2.strobes.length := by
  have hS : s.strobes.length < (sync_cursorpos cfg bus { s with lcd_col := 0 }).2.strobes.length :=
    sync_strobes_lt cfg bus { s with lcd_col := 0 } _ (le_refl _)
  unfold send_char_escape
  simp +decide only [if_false, if_true]
  by_cases p1 : s.lcd_escape = LCD_ESCAPE_SEQUENCE ∧ s.lcd_esc_pref.getD 0 0 = 1
  · rw [if_pos p1]
    generalize sync_cursorpos cfg bus { s with lcd_col := 0 } = S at hS ⊢
    have hW := write_spaces_strobes_le cfg bus s.lcd_col (s.lcd_col - S.2.lcd_col).toNat S.1 S.2
    generalize write_spaces cfg bus s.lcd_col (s.lcd_col - S.2.lcd_col).toNat S.1 S.2 = W at hW ⊢
    split_ifs
    · exact hS
    · exact lt_of_lt_of_le hS hW
    · exact lt_of_lt_of_le hS hW
  · rw [if_neg p1]
    by_cases p2 : s.lcd_escape = LCD_ESCAPE_SEQUENCE ∧ s.lcd_esc_pref.getD 0 0 = 2
    · rw [if_pos p2]
      generalize sync_cursorpos cfg bus { s with lcd_col := 0 } = S at hS ⊢
      have hW := write_spaces_strobes_le cfg bus 16 (16 - S.2.lcd_col).toNat S.1 S.2
      generalize write_spaces cfg bus 16 (16 - S.2.lcd_col).toNat S.1 S.2 = W at hW ⊢
      split_ifs
      · exact hS
      · exact lt_of_lt_of_le hS hW
      · exact sync_strobes_lt cfg bus { W.2 with lcd_col := s.lcd_col } _
          (le_of_lt (lt_of_lt_of_le hS hW))
    · rw [if_neg p2]
      have hW := write_spaces_strobes_le cfg bus 16 (16 - s.lcd_col).toNat 0 s
      split_ifs with hneg
      · have hpos : 0 < (16 - s.lcd_col).toNat := by
          by_contra hz
          have hz0 : (16 - s.lcd_col).toNat = 0 := by omega
          rw [hz0] at hneg
          simp [write_spaces] at hneg
        obtain ⟨k, hk⟩ := Nat.exists_eq_succ_of_ne_zero (Nat.pos_iff_ne_zero.mp hpos)
        rw [hk] at hneg ⊢
        simp only [write_spaces] at hneg ⊢
        split_ifs at hneg ⊢ with a b
        · rw [write_data_strobes]; simp
        · refine lt_of_lt_of_le ?_ (write_spaces_strobes_le cfg bus _ _ _ _)
          show s.strobes.length < (write_data cfg bus s true 0x20).2.strobes.length
          rw [write_data_strobes]; simp
        · exact absurd hneg (lt_irrefl (0 : Int))
      · generalize write_spaces cfg bus 16 (16 - s.lcd_col).toNat 0 s = W at hW ⊢
        exact sync_strobes_lt cfg bus { W.2 with lcd_col := s.lcd_col } _ hW

/-- C14, as amended: in the escape state (escape introducer seen, no '['
yet), on any bus, the byte '[' moves the parser to the sequence state with
first argument 0 and index 0, without bus traffic and without moving the
cursor; every other byte that is not one of the final bytes A, B, C, D, E, F,
G, H, f, J, K is discarded (status 0, parser idle, everything else as
before); each of those final bytes is not discarded but executed, calling
`write_data` at least once. -/
theorem send_char_after_escape (cfg : Config) (bus : Bus) (s : device_data) (v : Nat)
    (hesc : s.lcd_escape = LCD_ESCAPE_SINGLE) :
    (v = 0x5B →
      (send_char cfg bus s v).1 = 0 ∧
      (send_char cfg bus s v).2.lcd_escape = LCD_ESCAPE_SEQUENCE ∧
      (send_char cfg bus s v).2.lcd_esc_pref.getD 0 0 = 0 ∧
      (send_char cfg bus s v).2.lcd_esc_pref_pos = 0 ∧
      (send_char cfg bus s v).2.lcd_row = s.lcd_row ∧
      (send_char cfg bus s v).2.lcd_col = s.lcd_col ∧
      (send_char cfg bus s v).2.bus_log = s.bus_log) ∧
    (v ≠ 0x5B →
      v ∉ [0x41, 0x42, 0x43, 0x44, 0x45, 0x46, 0x47, 0x48, 0x66, 0x4A, 0x4B] →
      send_char cfg bus s v = (0, { s with lcd_escape := LCD_ESCAPE_NONE })) ∧
    (v ∈ [0x41, 0x42, 0x43, 0x44, 0x45, 0x46, 0x47, 0x48, 0x66, 0x4A, 0x4B] →
      s.strobes.length < (send_char cfg bus s v).2.strobes.length) := by
  have hne : s.lcd_escape ≠ LCD_ESCAPE_NONE := by rw [hesc]; decide
  have hns : ¬ s.lcd_escape = LCD_ESCAPE_SEQUENCE := by rw [hesc]; decide
  rw [send_char_in_escape cfg bus s v hne]
  refine ⟨?_, ?_, ?_⟩
  rotate_left 2
  · intro hfinal
    simp only [List.mem_cons, List.mem_singleton, List.not_mem_nil, or_false] at hfinal
    rcases hfinal with h | h | h | h | h | h | h | h | h | h | h
    · exact escape_move_strobes cfg bus s v (by subst h; decide)
    · exact escape_move_strobes cfg bus s v (by subst h; decide)
    · exact escape_move_strobes cfg bus s v (by subst h; decide)
    · exact escape_move_strobes cfg bus s v (by subst h; decide)
    · exact escape_move_strobes cfg bus s v (by subst h; decide)
    · exact escape_move_strobes cfg bus s v (by subst h; decide)
    · exact escape_move_strobes cfg bus s v (by subst h; decide)
    · exact escape_move_strobes cfg bus s v (by subst h; decide)
    · exact escape_move_strobes cfg bus s v (by subst h; decide)
    · subst h; exact escape_J_strobes cfg bus s
    · subst h; exact escape_K_strobes cfg bus s
  · intro hv
    subst hv
    have e : send_char_escape cfg bus s 0x5B =
        (0, { s with lcd_esc_pref_pos := 0, lcd_esc_pref := s.lcd_esc_pref.set 0 0,
                     lcd_escape := LCD_ESCAPE_SEQUENCE }) := by
      unfold send_char_escape
      simp +decide only [if_false, if_true]
    rw [e]
    refine ⟨rfl, rfl, ?_, rfl, rfl, rfl, rfl⟩
    show (s.lcd_esc_pref.set 0 0).getD 0 0 = 0
    cases s.lcd_esc_pref <;> rfl
  · intro hbr hfinal
    by_cases hdigit : 0x30 ≤ v ∧ v ≤ 0x39
    · unfold send_char_escape
      rw [if_pos hdigit, if_neg hns]
    · by_cases hsemi : v = 0x3B
      · unfold send_char_escape
        rw [if_neg hdigit, if_pos hsemi, if_neg hns]
      · exact send_char_escape_discard cfg bus s v hdigit hsemi hbr hfinal

/-- C14 as stated fails: in the escape state at row 0, column 5 the byte A is
not discarded: the row becomes 1, a set-address command (0xC5) is written and
the bus history grows. -/
theorem send_char_after_escape_counterexample :
    dev_esc.lcd_escape = LCD_ESCAPE_SINGLE ∧ dev_esc.lcd_row = 0 ∧
    (send_char cfg10 bus_ok dev_esc 0x41).2.lcd_row = 1 ∧
    (send_char cfg10 bus_ok dev_esc 0x41).2.strobes = [(false, 0xC5)] ∧
    (send_char cfg10 bus_ok dev_esc 0x41).2.bus_log ≠ dev_esc.bus_log := by
  decide

/-- C14 amended, at concrete inputs: after the escape introducer '[' opens a
sequence and the letter x is discarded. -/
theorem send_char_after_escape_witness :
    (send_char cfg10 bus_ok dev_esc 0x5B).2.lcd_escape = LCD_ESCAPE_SEQUENCE ∧
    send_char cfg10 bus_ok dev_esc 0x78 = (0, { dev_esc with lcd_escape := LCD_ESCAPE_NONE }) :=
  ⟨((send_char_after_escape cfg10 bus_ok dev_esc 0x5B rfl).1 rfl).2.1,
   (send_char_after_escape cfg10 bus_ok dev_esc 0x78 rfl).2.1 (by decide) (by decide)⟩

/-- C15, as amended: in the sequence state, on any bus, every byte that is
not a decimal digit, not ';', not '[' and not one of the final bytes A, B, C,
D, E, F, G, H, f, J, K is discarded: `send_char` returns 0 and the device
record is the one before with the parser idle (row, column, registers and bus
history unchanged). -/
theorem send_char_unknown_final (cfg : Config) (bus : Bus) (s : device_data) (v : Nat)
    (hseq : s.lcd_escape = LCD_ESCAPE_SEQUENCE)
    (hdigit : ¬ (0x30 ≤ v ∧ v ≤ 0x39)) (hsemi : v ≠ 0x3B) (hbr : v ≠ 0x5B)
    (hfinal : v ∉ [0x41, 0x42, 0x43, 0x44, 0x45, 0x46, 0x47, 0x48, 0x66, 0x4A, 0x4B]) :
    send_char cfg bus s v = (0, { s with lcd_escape := LCD_ESCAPE_NONE }) := by
  rw [send_char_in_escape cfg bus s v (seq_ne_none s hseq)]
  exact send_char_escape_discard cfg bus s v hdigit hsemi hbr hfinal

/-- C15 as stated fails: '[' is neither a digit nor ';' nor a final byte, yet
in the sequence state it is not discarded: the parser stays in the sequence
state (the sequence is restarted) instead of becoming idle. -/
theorem send_char_unknown_final_counterexample :
    (dev_csi [5, 0, 0, 0] 0 0 3).lcd_escape = LCD_ESCAPE_SEQUENCE ∧
    ¬ (0x30 ≤ 0x5B ∧ 0x5B ≤ 0x39) ∧ 0x5B ≠ 0x3B ∧
    0x5B ∉ [0x41, 0x42, 0x43, 0x44, 0x45, 0x46, 0x47, 0x48, 0x66, 0x4A, 0x4B] ∧
    (send_char cfg10 bus_ok (dev_csi [5, 0, 0, 0] 0 0 3) 0x5B).2.lcd_escape
      = LCD_ESCAPE_SEQUENCE ∧
    (send_char cfg10 bus_ok (dev_csi [5, 0, 0, 0] 0 0 3) 0x5B).2.lcd_escape
      ≠ LCD_ESCAPE_NONE := by
  decide

/-- C15 amended, at a concrete input: the letter x inside CSI 5 is
discarded. -/
theorem send_char_unknown_final_witness :
    send_char cfg10 bus_ok (dev_csi [5, 0, 0, 0] 0 0 3) 0x78 =
      (0, { dev_csi [5, 0, 0, 0] 0 0 3 with lcd_escape := LCD_ESCAPE_NONE }) :=
  send_char_unknown_final cfg10 bus_ok (dev_csi [5, 0, 0, 0] 0 0 3) 0x78 rfl
    (by decide) (by decide) (by decide) (by decide)

/-! ## Parsing the arguments of a CSI sequence -/

theorem digitChar_toNat (m : Nat) (h : m < 10) : (Nat.digitChar m).toNat = 0x30 + m := by
  interval_cases m <;> rfl

theorem accumulate_cons (a : Int) (b : Nat) (bs : List Nat) :
    accumulate a (b :: bs) = accumulate (a * 10 + ((b : Int) - 0x30)) bs := rfl

theorem accumulate_wrap_cons (a : Int) (b : Nat) (bs : List Nat) :
    accumulate_wrap a (b :: bs) = accumulate_wrap (wrap_int (a * 10 + ((b : Int) - 0x30))) bs :=
  rfl

theorem toDigitsCore_spec :
    ∀ (fuel n : Nat) (ds : List Char), n < fuel →
      (∀ c ∈ ds, 0x30 ≤ c.toNat ∧ c.toNat ≤ 0x39) →
      (∀ c ∈ Nat.toDigitsCore 10 fuel n ds, 0x30 ≤ c.toNat ∧ c.toNat ≤ 0x39) ∧
      accumulate 0 ((Nat.toDigitsCore 10 fuel n ds).map Char.toNat) =
        accumulate (n : Int) (ds.map Char.toNat) := by
  intro fuel
  induction fuel with
  | zero => intro n ds h; exact absurd h (Nat.not_lt_zero n)
  | succ fuel ih =>
    intro n ds hn hds
    have hd := digitChar_toNat (n % 10) (Nat.mod_lt n (by decide))
    have hds2 : ∀ c ∈ Nat.digitChar (n % 10) :: ds, 0x30 ≤ c.toNat ∧ c.toNat ≤ 0x39 := by
      intro c hc
      rcases List.mem_cons.mp hc with h | h
      · subst h
        rw [hd]
        have := Nat.mod_lt n (show 0 < 10 by decide)
        omega
      · exact hds c h
    simp only [Nat.toDigitsCore]
    by_cases hz : n / 10 = 0
    · rw [if_pos hz]
      refine ⟨hds2, ?_⟩
      rw [List.map_cons, accumulate_cons, hd]
      congr 1
      push_cast
      omega
    · rw [if_neg hz]
      obtain ⟨i1, i2⟩ := ih (n / 10) (Nat.digitChar (n % 10) :: ds) (by omega) hds2
      refine ⟨i1, ?_⟩
      rw [i2, List.map_cons, accumulate_cons, hd]
      congr 1
      push_cast
      omega

theorem decimal_bytes_digits (n : Nat) :
    ∀ b ∈ decimal_bytes n, 0x30 ≤ b ∧ b ≤ 0x39 := by
  intro b hb
  unfold decimal_bytes decimal_digits Nat.toDigits at hb
  obtain ⟨c, hc, rfl⟩ := List.mem_map.mp hb
  exact (toDigitsCore_spec (n + 1) n [] (Nat.lt_succ_self n) (by simp)).1 c hc

theorem accumulate_decimal_bytes (n : Nat) : accumulate 0 (decimal_bytes n) = n := by
  unfold decimal_bytes decimal_digits Nat.toDigits
  rw [(toDigitsCore_spec (n + 1) n [] (Nat.lt_succ_self n) (by simp)).2]
  rfl

theorem wrap_int_step (a : Int) (d : Int) :
    wrap_int (wrap_int a * 10 + d) = wrap_int (a * 10 + d) := by
  unfold wrap_int
  norm_num
  omega

theorem accumulate_wrap_eq (bytes : List Nat) :
    ∀ a : Int, accumulate_wrap (wrap_int a) bytes = wrap_int (accumulate a bytes) := by
  induction bytes with
  | nil => intro a; rfl
  | cons b bs ih =>
    intro a
    rw [accumulate_wrap_cons, accumulate_cons, wrap_int_step]
    exact ih _


theorem send_chars_append (cfg : Config) (bus : Bus) (d : device_data) (a b : List Nat) :
    send_chars cfg bus d (a ++ b) = send_chars cfg bus (send_chars cfg bus d a) b := by
  unfold send_chars
  rw [List.foldl_append]

theorem send_char_digit (cfg : Config) (bus : Bus) (d : device_data) (v : Nat)
    (hseq : d.lcd_escape = LCD_ESCAPE_SEQUENCE) (hv : 0x30 ≤ v ∧ v ≤ 0x39) :
    send_char cfg bus d v =
      (0, { d with lcd_esc_pref := (d.lcd_esc_pref.set d.lcd_esc_pref_pos
              (wrap_int (d.lcd_esc_pref.getD d.lcd_esc_pref_pos 0 * 10 + ((v : Int) - 0x30)))) }) := by
  rw [send_char_in_escape cfg bus d v (seq_ne_none d hseq)]
  unfold send_char_escape
  rw [if_pos hv, if_pos hseq]

theorem send_char_semicolon (cfg : Config) (bus : Bus) (d : device_data)
    (hseq : d.lcd_escape = LCD_ESCAPE_SEQUENCE)
    (hpos : d.lcd_esc_pref_pos + 1 < cfg.LCD_MAX_ESCAPE_PREFIXES) :
    send_char cfg bus d 0x3B =
      (0, { d with lcd_esc_pref_pos := d.lcd_esc_pref_pos + 1,
                   lcd_esc_pref := d.lcd_esc_pref.set (d.lcd_esc_pref_pos + 1) 0 }) := by
  rw [send_char_in_escape cfg bus d _ (seq_ne_none d hseq)]
  unfold send_char_escape
  rw [if_neg (by decide), if_pos rfl, if_pos hseq, if_pos (by omega)]

theorem set_getD_self : ∀ (l : List Int) (p : Nat), p < l.length → l.set p (l.getD p 0) = l := by
  intro l
  induction l with
  | nil => intro p h; exact absurd h (Nat.not_lt_zero p)
  | cons x xs ih =>
    intro p h
    cases p with
    | zero => rfl
    | succ p =>
      show x :: xs.set p (xs.getD p 0) = x :: xs
      rw [ih p (Nat.lt_of_succ_lt_succ h)]

theorem getD_set_self (l : List Int) (p : Nat) (x : Int) (h : p < l.length) :
    (l.set p x).getD p 0 = x := by
  simp [List.getD_eq_getElem, h]

theorem send_chars_digits (cfg : Config) (bus : Bus) :
    ∀ (bytes : List Nat) (d : device_data), d.lcd_escape = LCD_ESCAPE_SEQUENCE →
      d.lcd_esc_pref_pos < d.lcd_esc_pref.length →
      (∀ b ∈ bytes, 0x30 ≤ b ∧ b ≤ 0x39) →
      send_chars cfg bus d bytes =
        { d with lcd_esc_pref := (d.lcd_esc_pref.set d.lcd_esc_pref_pos
            (accumulate_wrap (d.lcd_esc_pref.getD d.lcd_esc_pref_pos 0) bytes)) } := by
  intro bytes
  induction bytes with
  | nil =>
    intro d _ hpos _
    rw [send_chars_nil]
    have : d.lcd_esc_pref.set d.lcd_esc_pref_pos
        (accumulate_wrap (d.lcd_esc_pref.getD d.lcd_esc_pref_pos 0) []) = d.lcd_esc_pref := by
      exact set_getD_self _ _ hpos
    rw [this]
  | cons b bs ih =>
    intro d hseq hpos hdig
    rw [send_chars_cons, send_char_digit cfg bus d b hseq (hdig b (List.mem_cons_self _ _))]
    have key := ih
      { d with lcd_esc_pref := (d.lcd_esc_pref.set d.lcd_esc_pref_pos
          (wrap_int (d.lcd_esc_pref.getD d.lcd_esc_pref_pos 0 * 10 + ((b : Int) - 0x30)))) }
      hseq
      (by show d.lcd_esc_pref_pos < (d.lcd_esc_pref.set _ _).length; simpa using hpos)
      (fun x hx => hdig x (List.mem_cons_of_mem _ hx))
    refine key.trans ?_
    dsimp only
    rw [List.set_set, getD_set_self _ _ _ hpos, accumulate_wrap_cons]


theorem accumulate_wrap_decimal (n : Nat) (h : n < 2147483648) :
    accumulate_wrap 0 (decimal_bytes n) = n := by
  have h0 : wrap_int 0 = 0 := by decide
  have := accumulate_wrap_eq (decimal_bytes n) 0
  rw [h0] at this
  rw [this, accumulate_decimal_bytes, wrap_int_eq _ (by omega) (by omega)]

theorem send_chars_csi_two_args (cfg : Config) (bus : Bus) (s : device_data) (n1 n2 : Nat)
    (hidle : s.lcd_escape = LCD_ESCAPE_NONE)
    (hK : 2 ≤ cfg.LCD_MAX_ESCAPE_PREFIXES)
    (hlen : s.lcd_esc_pref.length = cfg.LCD_MAX_ESCAPE_PREFIXES)
    (h1 : n1 < 2147483648) (h2 : n2 < 2147483648) :
    send_chars cfg bus s (csi_two_args n1 n2) =
      { s with lcd_escape := LCD_ESCAPE_SEQUENCE, lcd_esc_pref_pos := 1,
               lcd_esc_pref := ((s.lcd_esc_pref.set 0 (n1 : Int)).set 1 (n2 : Int)) } := by
  have hl : 2 ≤ s.lcd_esc_pref.length := by omega
  have e1 : send_char cfg bus s 0x1B = (0, { s with lcd_escape := LCD_ESCAPE_SINGLE }) := by
    unfold send_char
    rw [if_neg (fun h => h hidle), if_pos rfl]
  have e2 : send_char cfg bus { s with lcd_escape := LCD_ESCAPE_SINGLE } 0x5B =
      (0, { s with lcd_esc_pref_pos := 0, lcd_esc_pref := s.lcd_esc_pref.set 0 0,
                   lcd_escape := LCD_ESCAPE_SEQUENCE }) := by
    rw [send_char_in_escape cfg bus _ _
      (show LCD_ESCAPE_SINGLE ≠ LCD_ESCAPE_NONE by decide)]
    unfold send_char_escape
    simp +decide only [if_false, if_true]
  have e3 := send_chars_digits cfg bus (decimal_bytes n1)
    { s with lcd_esc_pref_pos := 0, lcd_esc_pref := s.lcd_esc_pref.set 0 0,
             lcd_escape := LCD_ESCAPE_SEQUENCE }
    rfl (by show 0 < (s.lcd_esc_pref.set 0 0).length; rw [List.length_set]; omega)
    (decimal_bytes_digits n1)
  have g0 : (s.lcd_esc_pref.set 0 0).getD 0 0 = 0 :=
    getD_set_self _ _ _ (by omega)
  dsimp only at e3
  rw [g0, accumulate_wrap_decimal n1 h1, List.set_set] at e3
  have e4 := send_char_semicolon cfg bus
    { s with lcd_esc_pref_pos := 0, lcd_esc_pref := s.lcd_esc_pref.set 0 (n1 : Int),
             lcd_escape := LCD_ESCAPE_SEQUENCE }
    rfl (by show 0 + 1 < _; omega)
  dsimp only at e4
  have e5 := send_chars_digits cfg bus (decimal_bytes n2)
    { s with lcd_esc_pref_pos := 0 + 1,
             lcd_esc_pref := ((s.lcd_esc_pref.set 0 (n1 : Int)).set (0 + 1) 0),
             lcd_escape := LCD_ESCAPE_SEQUENCE }
    rfl (by show 0 + 1 < (List.set _ _ _).length; rw [List.length_set, List.length_set]; omega)
    (decimal_bytes_digits n2)
  have g1 : ((s.lcd_esc_pref.set 0 (n1 : Int)).set (0 + 1) 0).getD (0 + 1) 0 = 0 :=
    getD_set_self _ _ _ (by rw [List.length_set]; omega)
  dsimp only at e5
  rw [g1, accumulate_wrap_decimal n2 h2, List.set_set] at e5
  unfold csi_two_args
  rw [send_chars_append, send_chars_append, send_chars_append]
  have e12 : send_chars cfg bus s [0x1B, 0x5B] =
      { s with lcd_esc_pref_pos := 0, lcd_esc_pref := s.lcd_esc_pref.set 0 0,
               lcd_escape := LCD_ESCAPE_SEQUENCE } := by
    rw [send_chars_cons, e1, send_chars_cons, e2, send_chars_nil]
  rw [e12, e3]
  have e45 : send_chars cfg bus
      { s with lcd_esc_pref_pos := 0, lcd_esc_pref := s.lcd_esc_pref.set 0 (n1 : Int),
               lcd_escape := LCD_ESCAPE_SEQUENCE } [0x3B] =
      { s with lcd_esc_pref_pos := 0 + 1,
               lcd_esc_pref := ((s.lcd_esc_pref.set 0 (n1 : Int)).set (0 + 1) 0),
               lcd_escape := LCD_ESCAPE_SEQUENCE } := by
    rw [send_chars_cons, e4, send_chars_nil]
  rw [e45, e5]


/-- C16: for naturals n1, n2 below 2^31 (so that the `int` accumulator does
not overflow), an argument array of capacity K >= 2 and any bus, feeding from
the idle parser the bytes ESC, '[', the decimal digits of n1, ';', the decimal
digits of n2 leaves the parser in the sequence state with first argument n1,
second argument n2 and active index 1, with the bus history, the list of
`write_data` calls, the row and the column unchanged.  Step by step: in the
sequence state a digit d turns the active argument a into a*10 + d (when that
fits an `int`), and ';' with index+1 < K advances the index and zeroes the new
slot, both with status 0. -/
theorem csi_argument_parsing (cfg : Config) (bus : Bus) (s : device_data) (n1 n2 : Nat)
    (hidle : s.lcd_escape = LCD_ESCAPE_NONE)
    (hK : 2 ≤ cfg.LCD_MAX_ESCAPE_PREFIXES)
    (hlen : s.lcd_esc_pref.length = cfg.LCD_MAX_ESCAPE_PREFIXES)
    (h1 : n1 < 2147483648) (h2 : n2 < 2147483648) :
    (send_chars cfg bus s (csi_two_args n1 n2)).lcd_escape = LCD_ESCAPE_SEQUENCE ∧
    (send_chars cfg bus s (csi_two_args n1 n2)).lcd_esc_pref.getD 0 0 = n1 ∧
    (send_chars cfg bus s (csi_two_args n1 n2)).lcd_esc_pref.getD 1 0 = n2 ∧
    (send_chars cfg bus s (csi_two_args n1 n2)).lcd_esc_pref_pos = 1 ∧
    (send_chars cfg bus s (csi_two_args n1 n2)).bus_log = s.bus_log ∧
    (send_chars cfg bus s (csi_two_args n1 n2)).strobes = s.strobes ∧
    (send_chars cfg bus s (csi_two_args n1 n2)).lcd_row = s.lcd_row ∧
    (send_chars cfg bus s (csi_two_args n1 n2)).lcd_col = s.lcd_col ∧
    (∀ (d : device_data) (v : Nat), d.lcd_escape = LCD_ESCAPE_SEQUENCE →
      0x30 ≤ v ∧ v ≤ 0x39 → d.lcd_esc_pref_pos < d.lcd_esc_pref.length →
      d.lcd_esc_pref.getD d.lcd_esc_pref_pos 0 * 10 + ((v : Int) - 0x30) < 2147483648 →
      -2147483648 ≤ d.lcd_esc_pref.getD d.lcd_esc_pref_pos 0 * 10 + ((v : Int) - 0x30) →
      (send_char cfg bus d v).1 = 0 ∧
      (send_char cfg bus d v).2.lcd_esc_pref.getD d.lcd_esc_pref_pos 0 =
        d.lcd_esc_pref.getD d.lcd_esc_pref_pos 0 * 10 + ((v : Int) - 0x30) ∧
      (send_char cfg bus d v).2.lcd_esc_pref_pos = d.lcd_esc_pref_pos ∧
      (send_char cfg bus d v).2.lcd_escape = LCD_ESCAPE_SEQUENCE) ∧
    (∀ (d : device_data), d.lcd_escape = LCD_ESCAPE_SEQUENCE →
      d.lcd_esc_pref_pos + 1 < cfg.LCD_MAX_ESCAPE_PREFIXES →
      d.lcd_esc_pref.length = cfg.LCD_MAX_ESCAPE_PREFIXES →
      (send_char cfg bus d 0x3B).1 = 0 ∧
      (send_char cfg bus d 0x3B).2.lcd_esc_pref_pos = d.lcd_esc_pref_pos + 1 ∧
      (send_char cfg bus d 0x3B).2.lcd_esc_pref.getD (d.lcd_esc_pref_pos + 1) 0 = 0 ∧
      (send_char cfg bus d 0x3B).2.lcd_escape = LCD_ESCAPE_SEQUENCE) := by
  rw [send_chars_csi_two_args cfg bus s n1 n2 hidle hK hlen h1 h2]
  have hl : 2 ≤ s.lcd_esc_pref.length := by omega
  refine ⟨rfl, ?_, ?_, rfl, rfl, rfl, rfl, rfl, ?_, ?_⟩
  · show ((s.lcd_esc_pref.set 0 (n1 : Int)).set 1 (n2 : Int)).getD 0 0 = n1
    rw [List.getD_eq_getElem _ _ (by rw [List.length_set, List.length_set]; omega)]
    simp
  · show ((s.lcd_esc_pref.set 0 (n1 : Int)).set 1 (n2 : Int)).getD 1 0 = n2
    exact getD_set_self _ _ _ (by rw [List.length_set]; omega)
  · intro d v hseq hv hpos hhi hlo
    rw [send_char_digit cfg bus d v hseq hv]
    refine ⟨rfl, ?_, rfl, hseq⟩
    show (d.lcd_esc_pref.set d.lcd_esc_pref_pos _).getD d.lcd_esc_pref_pos 0 = _
    rw [getD_set_self _ _ _ hpos, wrap_int_eq _ hlo hhi]
  · intro d hseq hpos hdl
    rw [send_char_semicolon cfg bus d hseq hpos]
    refine ⟨rfl, rfl, ?_, hseq⟩
    show (d.lcd_esc_pref.set (d.lcd_esc_pref_pos + 1) 0).getD (d.lcd_esc_pref_pos + 1) 0 = 0
    exact getD_set_self _ _ _ (by omega)

/-- C16 at a concrete input: ESC [ 1 2 ; 3 4 5 from the fresh device gives the
arguments 12 and 345 and the index 1. -/
theorem csi_argument_parsing_witness :
    (send_chars cfg10 bus_ok dev0 (csi_two_args 12 345)).lcd_esc_pref.getD 0 0 = 12 ∧
    (send_chars cfg10 bus_ok dev0 (csi_two_args 12 345)).lcd_esc_pref.getD 1 0 = 345 ∧
    (send_chars cfg10 bus_ok dev0 (csi_two_args 12 345)).lcd_esc_pref_pos = 1 :=
  ⟨(csi_argument_parsing cfg10 bus_ok dev0 12 345 rfl (by decide) rfl
      (by decide) (by decide)).2.1,
   (csi_argument_parsing cfg10 bus_ok dev0 12 345 rfl (by decide) rfl
      (by decide) (by decide)).2.2.1,
   (csi_argument_parsing cfg10 bus_ok dev0 12 345 rfl (by decide) rfl
      (by decide) (by decide)).2.2.2.1⟩

/-! ## The busy wait -/

/-- C17 at the failing input: with the retry bound 10, the data pins
input-configured and a bus on which every call succeeds and every busy-flag
read reports busy, `wait_for_write` returns 0 after 9 busy-flag reads, not
10. -/
theorem wait_for_write_busy_reads :
    lcd_data dev_input.iodir ≠ 0 ∧
    (wait_for_write cfg10 bus_busy dev_input).1 = 0 ∧
    count_reads (wait_for_write cfg10 bus_busy dev_input).2.bus_log = 9 ∧
    count_reads (wait_for_write cfg10 bus_busy dev_input).2.bus_log
      ≠ cfg10.LCD_WRITE_ATTEMPTS := by
  decide

theorem lcd_data0_set_value_b (g x : Nat) (hx : x / 2 % 2 = 1) :
    lcd_data0 (set_value_b g x) = 1 := by
  simp only [lcd_data0, set_value_b, getField, setField]
  norm_num
  omega

theorem count_reads_append (a b : BusLog) :
    count_reads (a ++ b) = count_reads a + count_reads b := by
  unfold count_reads
  rw [List.filter_append, List.length_append]

theorem pair_txn_not_read (reg cache value : Nat) (t : Txn)
    (h : pair_txn reg cache value = some t) : is_read t = false := by
  unfold pair_txn at h
  split_ifs at h <;> cases h <;> rfl

theorem set_reg_pair_reads (bus : Bus) (log : BusLog) (reg cache value : Nat) :
    count_reads (set_reg_pair bus log reg cache value).2.2 = count_reads log := by
  rw [set_reg_pair_eq]
  cases hp : pair_txn reg cache value with
  | none => rfl
  | some t =>
    have ht := pair_txn_not_read reg cache value t hp
    have h1 : count_reads [(t, bus log t)] = 0 := by
      unfold count_reads
      simp [ht]
    dsimp only
    split_ifs <;> simp only [count_reads_append, h1, Nat.add_zero]


theorem set_olat_reads (bus : Bus) (d : device_data) (v : Nat) :
    count_reads (set_olat bus d v).2.bus_log = count_reads d.bus_log ∧
    (set_olat bus d v).2.gpio = d.gpio :=
  ⟨set_reg_pair_reads bus d.bus_log MCP23017_OLAT d.olat v, rfl⟩

theorem set_iodir_reads (bus : Bus) (d : device_data) (v : Nat) :
    count_reads (set_iodir bus d v).2.bus_log = count_reads d.bus_log :=
  set_reg_pair_reads bus d.bus_log MCP23017_IODIR d.iodir v

theorem get_gpio_b_busy (bus : Bus) (hb : bus.ok) (hbusy : bus.busy) (d : device_data) :
    (get_gpio_b bus d).1 = 0 ∧
    count_reads (get_gpio_b bus d).2.bus_log = count_reads d.bus_log + 1 ∧
    lcd_data0 (get_gpio_b bus d).2.gpio = 1 := by
  have h0 := hb d.bus_log (Txn.read_byte_data ( MCP23017_GPIO + 1))
  have h1 := hbusy d.bus_log ( MCP23017_GPIO + 1)
  have hn : ¬ bus d.bus_log (Txn.read_byte_data ( MCP23017_GPIO + 1)) < 0 := not_lt.mpr h0
  unfold get_gpio_b get_reg i2c_smbus
  simp only [if_true, hn, if_false]
  refine ⟨trivial, ?_, ?_⟩
  · rw [count_reads_append]
    rfl
  · apply lcd_data0_set_value_b
    omega

theorem wait_for_write_loop_busy (bus : Bus) (hb : bus.ok) (hbusy : bus.busy) (lo hi : Nat) :
    ∀ (n : Nat) (d : device_data),
      (wait_for_write_loop bus lo hi n d).1 = 0 ∧
      count_reads (wait_for_write_loop bus lo hi n d).2.bus_log = count_reads d.bus_log + n := by
  intro n
  induction n with
  | zero => intro d; exact ⟨rfl, rfl⟩
  | succ n ih =>
    intro d
    simp only [wait_for_write_loop]
    have a1 := set_olat_ok bus hb d hi
    have r1 := set_olat_reads bus d hi
    generalize set_olat bus d hi = S1 at a1 r1 ⊢
    obtain ⟨a2, r2, g2⟩ := get_gpio_b_busy bus hb hbusy S1.2
    generalize get_gpio_b bus S1.2 = S2 at a2 r2 g2 ⊢
    have a3 := set_olat_ok bus hb S2.2 lo
    have r3 := set_olat_reads bus S2.2 lo
    generalize set_olat bus S2.2 lo = S3 at a3 r3 ⊢
    have a4 := set_olat_ok bus hb S3.2 hi
    have r4 := set_olat_reads bus S3.2 hi
    generalize set_olat bus S3.2 hi = S4 at a4 r4 ⊢
    have a5 := set_olat_ok bus hb S4.2 lo
    have r5 := set_olat_reads bus S4.2 lo
    generalize set_olat bus S4.2 lo = S5 at a5 r5 ⊢
    have g3 : ¬ lcd_data0 S3.2.gpio = 0 := by rw [r3.2, g2]; decide
    rw [if_neg (by rw [a1]; decide), if_neg (by rw [a2]; decide), if_neg (by rw [a3]; decide),
      if_neg g3, if_neg (by rw [a4]; decide), if_neg (by rw [a5]; decide)]
    obtain ⟨i1, i2⟩ := ih S5.2
    refine ⟨i1, ?_⟩
    rw [i2, r5.1, r4.1, r3.1, r2, r1.1]
    omega

/-- The number of busy-flag reads of `wait_for_write` on a busy bus: one less
than the retry bound. -/
theorem wait_for_write_busy_general (cfg : Config) (bus : Bus) (hb : bus.ok) (hbusy : bus.busy)
    (d : device_data) (hin : lcd_data d.iodir ≠ 0)
    (hN1 : 1 ≤ cfg.LCD_WRITE_ATTEMPTS) (hN2 : cfg.LCD_WRITE_ATTEMPTS ≤ 4294967296) :
    (wait_for_write cfg bus d).1 = 0 ∧
    count_reads (wait_for_write cfg bus d).2.bus_log =
      count_reads d.bus_log + (cfg.LCD_WRITE_ATTEMPTS - 1) := by
  have hn : (cfg.LCD_WRITE_ATTEMPTS + 2 ^ 32 - 1) % 2 ^ 32 = cfg.LCD_WRITE_ATTEMPTS - 1 := by
    norm_num
    omega
  unfold wait_for_write
  rw [hn, if_neg hin]
  dsimp only
  generalize set_lcd_rs (set_lcd_rw (set_lcd_enable (set_lcd_data d.olat 0) false) true) false
    = lo
  have a1 := set_olat_ok bus hb d lo
  have r1 := set_olat_reads bus d lo
  generalize set_olat bus d lo = S1 at a1 r1 ⊢
  obtain ⟨a2, r2⟩ := wait_for_write_loop_busy bus hb hbusy lo (set_lcd_enable lo true)
    (cfg.LCD_WRITE_ATTEMPTS - 1) S1.2
  generalize wait_for_write_loop bus lo (set_lcd_enable lo true)
    (cfg.LCD_WRITE_ATTEMPTS - 1) S1.2 = S2 at a2 r2 ⊢
  have a3 := set_iodir_ok bus hb S2.2 (set_lcd_data S2.2.iodir 0)
  have r3 := set_iodir_reads bus S2.2 (set_lcd_data S2.2.iodir 0)
  generalize set_iodir bus S2.2 (set_lcd_data S2.2.iodir 0) = S3 at a3 r3 ⊢
  rw [if_neg (by rw [a1]; decide), if_neg (by rw [a2]; decide), if_neg (by rw [a3]; decide)]
  refine ⟨rfl, ?_⟩
  show count_reads S3.2.bus_log = _
  rw [r3, r2, r1.1]

/-! ## The backlight attribute -/

theorem strncasecmp_eq_iff (lit : String) (str : List Nat) :
    strncasecmp_eq lit str = true ↔
      ∀ i, i < (name_bytes lit).length →
        tolower (str.getD i 0) = tolower ((name_bytes lit).getD i 0) := by
  have hlen : (name_bytes lit).length = lit.length := by
    unfold name_bytes
    rw [List.length_map]
    rfl
  have hget : ∀ i, (name_bytes lit).getD i 0 = (lit.toList.getD i (Char.ofNat 0)).toNat := by
    intro i
    unfold name_bytes
    exact List.getD_map (n := i) (f := Char.toNat) (d := Char.ofNat 0) (l := lit.toList)
  unfold strncasecmp_eq
  rw [List.all_eq_true]
  constructor
  · intro h i hi
    have := h i (List.mem_range.mpr (hlen ▸ hi))
    rw [hget]
    exact of_decide_eq_true this
  · intro h i hi
    have := h i (hlen ▸ List.mem_range.mp hi)
    rw [hget] at this
    exact decide_eq_true this

theorem prefix_ci_iff (L : List Nat) (hL : ∀ x ∈ L, tolower x = x ∧ x ≠ 0) :
    ∀ str : List Nat,
      (∀ i, i < L.length → tolower (str.getD i 0) = tolower (L.getD i 0)) ↔
        ∃ tok rest, str = tok ++ rest ∧ tok.map tolower = L := by
  induction L with
  | nil =>
    intro str
    constructor
    · intro _; exact ⟨[], str, rfl, rfl⟩
    · intro _ i hi; exact absurd hi (Nat.not_lt_zero i)
  | cons x xs ih =>
    intro str
    have hx := hL x (List.mem_cons_self _ _)
    have hxs : ∀ y ∈ xs, tolower y = y ∧ y ≠ 0 := fun y hy => hL y (List.mem_cons_of_mem _ hy)
    constructor
    · intro h
      cases str with
      | nil =>
        have h0 := h 0 (Nat.succ_pos _)
        have : tolower 0 = x := by
          have h0' : tolower 0 = tolower x := h0
          rw [hx.1] at h0'
          exact h0'
        exact absurd this.symm hx.2
      | cons c cs =>
        have h0 : tolower c = tolower x := h 0 (Nat.succ_pos _)
        have htl : ∀ i, i < xs.length → tolower (cs.getD i 0) = tolower (xs.getD i 0) :=
          fun i hi => h (i + 1) (Nat.succ_lt_succ hi)
        obtain ⟨tok, rest, e1, e2⟩ := (ih hxs cs).mp htl
        refine ⟨c :: tok, rest, by rw [e1]; rfl, ?_⟩
        rw [List.map_cons, e2, h0, hx.1]
    · rintro ⟨tok, rest, e1, e2⟩ i hi
      cases tok with
      | nil => exact absurd e2 (by simp)
      | cons c tok =>
        rw [List.map_cons] at e2
        have ec : tolower c = x := (List.cons.inj e2).1
        have et : tok.map tolower = xs := (List.cons.inj e2).2
        subst e1
        cases i with
        | zero =>
          show tolower c = tolower x
          rw [ec, hx.1]
        | succ i =>
          exact (ih hxs (tok ++ rest)).mpr ⟨tok, rest, rfl, et⟩ i (Nat.lt_of_succ_lt_succ hi)


theorem backlight_names_clean :
    ∀ e ∈ backlight_names, ∀ x ∈ name_bytes e.1, tolower x = x ∧ x ≠ 0 := by
  decide

theorem backlight_names_first :
    ∀ e ∈ backlight_names,
      0x61 ≤ (name_bytes e.1).getD 0 0 ∧ (name_bytes e.1).getD 0 0 ≤ 0x7A ∧
      2 ≤ (name_bytes e.1).length := by
  decide

theorem backlight_names_distinct :
    ∀ e ∈ backlight_names, ∀ f ∈ backlight_names, e ≠ f →
      ¬ ((name_bytes e.1).getD 0 0 = (name_bytes f.1).getD 0 0 ∧
         (name_bytes e.1).getD 1 0 = (name_bytes f.1).getD 1 0) := by
  decide

theorem name_test_iff (e : String × Nat) (he : e ∈ backlight_names) (str : List Nat) :
    strncasecmp_eq e.1 str = true ↔ starts_with_ci e.1 str := by
  rw [strncasecmp_eq_iff]
  exact prefix_ci_iff (name_bytes e.1) (backlight_names_clean e he) str

theorem name_bytes_fixed (e : String × Nat) (he : e ∈ backlight_names) (i : Nat)
    (hi : i < (name_bytes e.1).length) :
    tolower ((name_bytes e.1).getD i 0) = (name_bytes e.1).getD i 0 := by
  rw [List.getD_eq_getElem _ _ hi]
  exact (backlight_names_clean e he _ (List.getElem_mem hi)).1

theorem name_test_other (e f : String × Nat) (he : e ∈ backlight_names)
    (hf : f ∈ backlight_names) (hne : e ≠ f) (str : List Nat)
    (h : strncasecmp_eq e.1 str = true) : strncasecmp_eq f.1 str = false := by
  by_contra hcon
  have hf' : strncasecmp_eq f.1 str = true := by
    cases hb : strncasecmp_eq f.1 str
    · exact absurd hb hcon
    · rfl
  have h1 := (strncasecmp_eq_iff e.1 str).mp h
  have h2 := (strncasecmp_eq_iff f.1 str).mp hf'
  have le := (backlight_names_first e he).2.2
  have lf := (backlight_names_first f hf).2.2
  have a0 := h1 0 (by omega)
  have a1 := h1 1 (by omega)
  have b0 := h2 0 (by omega)
  have b1 := h2 1 (by omega)
  rw [name_bytes_fixed e he 0 (by omega)] at a0
  rw [name_bytes_fixed e he 1 (by omega)] at a1
  rw [name_bytes_fixed f hf 0 (by omega)] at b0
  rw [name_bytes_fixed f hf 1 (by omega)] at b1
  exact backlight_names_distinct e he f hf hne ⟨a0.symm.trans b0, a1.symm.trans b1⟩

theorem tolower_letter (c x : Nat) (h : tolower c = x) (hx : 0x61 ≤ x) : 0x41 ≤ c := by
  unfold tolower at h
  split_ifs at h <;> omega

theorem name_test_digit (e : String × Nat) (he : e ∈ backlight_names) (str : List Nat)
    (h : strncasecmp_eq e.1 str = true) : 0x41 ≤ str.getD 0 0 := by
  have h1 := (strncasecmp_eq_iff e.1 str).mp h 0 (by have := (backlight_names_first e he).2.2; omega)
  rw [name_bytes_fixed e he 0 (by have := (backlight_names_first e he).2.2; omega)] at h1
  exact tolower_letter _ _ h1 (backlight_names_first e he).1

theorem name_test_false_of_digit (e : String × Nat) (he : e ∈ backlight_names) (str : List Nat)
    (h : str.getD 0 0 < 0x41) : strncasecmp_eq e.1 str = false := by
  cases hb : strncasecmp_eq e.1 str
  · rfl
  · have := name_test_digit e he str hb
    omega

theorem strncmp1_eq_iff (c : Char) (str : List Nat) :
    strncmp1_eq c str = true ↔ str.getD 0 0 = c.toNat := by
  unfold strncmp1_eq
  exact decide_eq_true_iff


theorem set_backlight_attr_name (bus : Bus) (data : device_data) (str : List Nat) (size : Nat)
    (e : String × Nat) (he : e ∈ backlight_names) (h : starts_with_ci e.1 str) :
    set_backlight_attr bus data str size = ((size : Int), (set_backlight bus data e.2).2) := by
  have ht : strncasecmp_eq e.1 str = true := (name_test_iff e he str).mpr h
  have T : ∀ f ∈ backlight_names, strncasecmp_eq f.1 str = decide (e = f) := by
    intro f hf
    by_cases hef : e = f
    · subst hef
      rw [ht]
      simp
    · rw [name_test_other e f he hf hef str ht]
      simp [hef]
  have hc := name_test_digit e he str ht
  have D : ∀ c : Char, c.toNat < 0x41 → strncmp1_eq c str = false := by
    intro c hlt
    cases hb : strncmp1_eq c str
    · rfl
    · have := (strncmp1_eq_iff c str).mp hb
      omega
  have t1 := T ("on", 7) (by decide)
  have t2 := T ("off", 0) (by decide)
  have t3 := T ("red", 1) (by decide)
  have t4 := T ("green", 2) (by decide)
  have t5 := T ("blue", 4) (by decide)
  have t6 := T ("yellow", 3) (by decide)
  have t7 := T ("teal", 6) (by decide)
  have t8 := T ("violet", 5) (by decide)
  have d0 := D '0' (by decide)
  have d1 := D '1' (by decide)
  have d2 := D '2' (by decide)
  have d3 := D '3' (by decide)
  have d4 := D '4' (by decide)
  have d5 := D '5' (by decide)
  have d6 := D '6' (by decide)
  have d7 := D '7' (by decide)
  dsimp only at t1 t2 t3 t4 t5 t6 t7 t8
  unfold set_backlight_attr
  rw [t1, t2, t3, t4, t5, t6, t7, t8, d0, d1, d2, d3, d4, d5, d6, d7]
  simp only [backlight_names, List.mem_cons, List.mem_singleton, List.not_mem_nil, or_false] at he
  rcases he with rfl | rfl | rfl | rfl | rfl | rfl | rfl | rfl <;> rfl

theorem set_backlight_attr_digit (bus : Bus) (data : device_data) (str : List Nat) (size : Nat)
    (d : Nat) (hd7 : d ≤ 7) (hd : str.getD 0 0 = 0x30 + d) :
    set_backlight_attr bus data str size = ((size : Int), (set_backlight bus data d).2) := by
  have hlt : str.getD 0 0 < 0x41 := by omega
  have t1 := name_test_false_of_digit ("on", 7) (by decide) str hlt
  have t2 := name_test_false_of_digit ("off", 0) (by decide) str hlt
  have t3 := name_test_false_of_digit ("red", 1) (by decide) str hlt
  have t4 := name_test_false_of_digit ("green", 2) (by decide) str hlt
  have t5 := name_test_false_of_digit ("blue", 4) (by decide) str hlt
  have t6 := name_test_false_of_digit ("yellow", 3) (by decide) str hlt
  have t7 := name_test_false_of_digit ("teal", 6) (by decide) str hlt
  have t8 := name_test_false_of_digit ("violet", 5) (by decide) str hlt
  dsimp only at t1 t2 t3 t4 t5 t6 t7 t8
  unfold set_backlight_attr strncmp1_eq
  rw [t1, t2, t3, t4, t5, t6, t7, t8, hd]
  interval_cases d <;> rfl

theorem set_backlight_attr_reject (bus : Bus) (data : device_data) (str : List Nat) (size : Nat)
    (hdig : ∀ d, d ≤ 7 → str.getD 0 0 ≠ 0x30 + d)
    (hname : ∀ e ∈ backlight_names, ¬ starts_with_ci e.1 str) :
    set_backlight_attr bus data str size = (-EINVAL, data) := by
  have T : ∀ e ∈ backlight_names, strncasecmp_eq e.1 str = false := by
    intro e he
    cases hb : strncasecmp_eq e.1 str
    · rfl
    · exact absurd ((name_test_iff e he str).mp hb) (hname e he)
  have D : ∀ (c : Char) (d : Nat), d ≤ 7 → c.toNat = 0x30 + d → strncmp1_eq c str = false := by
    intro c d hd hc
    cases hb : strncmp1_eq c str
    · rfl
    · have := (strncmp1_eq_iff c str).mp hb
      exact absurd (this.trans hc) (hdig d hd)
  have t1 := T ("on", 7) (by decide)
  have t2 := T ("off", 0) (by decide)
  have t3 := T ("red", 1) (by decide)
  have t4 := T ("green", 2) (by decide)
  have t5 := T ("blue", 4) (by decide)
  have t6 := T ("yellow", 3) (by decide)
  have t7 := T ("teal", 6) (by decide)
  have t8 := T ("violet", 5) (by decide)
  have d0 := D '0' 0 (by decide) (by decide)
  have d1 := D '1' 1 (by decide) (by decide)
  have d2 := D '2' 2 (by decide) (by decide)
  have d3 := D '3' 3 (by decide) (by decide)
  have d4 := D '4' 4 (by decide) (by decide)
  have d5 := D '5' 5 (by decide) (by decide)
  have d6 := D '6' 6 (by decide) (by decide)
  have d7 := D '7' 7 (by decide) (by decide)
  dsimp only at t1 t2 t3 t4 t5 t6 t7 t8
  unfold set_backlight_attr
  rw [t1, t2, t3, t4, t5, t6, t7, t8, d0, d1, d2, d3, d4, d5, d6, d7]
  rfl

theorem set_gpio_ok (bus : Bus) (hb : bus.ok) (d : device_data) (v : Nat) :
    (set_gpio bus d v).1 = 0 := set_reg_pair_status_ok bus hb _ _ _ _

theorem set_backlight_ok (bus : Bus) (hb : bus.ok) (data : device_data) (c : Nat) :
    (set_backlight bus data c).1 = 0 ∧ (set_backlight bus data c).2.backlight_color = c := by
  unfold set_backlight
  dsimp only
  rw [if_neg (by rw [set_gpio_ok bus hb]; decide)]
  exact ⟨rfl, rfl⟩

theorem get_backlight_attr_digit (data : device_data) (c : Nat) (hc : c ≤ 7)
    (h : data.backlight_color = c) : get_backlight_attr data = [Nat.digitChar c, '\n'] := by
  unfold get_backlight_attr
  rw [h]
  interval_cases c <;> rfl

/-- C18: on a bus where every transaction succeeds, for every device record:
an attribute write whose text starts, in any letter case, with one of the
names on, off, red, green, blue, yellow, teal, violet (in particular the name
itself), followed by an attribute read, returns the digit of that colour
(0=off, 1=red, 2=green, 3=yellow, 4=blue, 5=violet, 6=teal, 7=on) and a
newline; a write whose text starts with a digit character '0'..'7' reads back
that digit and a newline.  So a name and its digit read back the same. -/
theorem backlight_round_trip (bus : Bus) (hb : bus.ok) (data : device_data) (str : List Nat)
    (size : Nat) :
    (∀ e ∈ backlight_names, starts_with_ci e.1 str →
      (set_backlight_attr bus data str size).1 = size ∧
      get_backlight_attr (set_backlight_attr bus data str size).2 =
        [Nat.digitChar e.2, '\n']) ∧
    (∀ d, d ≤ 7 → str.getD 0 0 = 0x30 + d →
      (set_backlight_attr bus data str size).1 = size ∧
      get_backlight_attr (set_backlight_attr bus data str size).2 =
        [Nat.digitChar d, '\n']) := by
  have hle : ∀ e ∈ backlight_names, e.2 ≤ 7 := by decide
  refine ⟨?_, ?_⟩
  · intro e he h
    rw [set_backlight_attr_name bus data str size e he h]
    exact ⟨rfl, get_backlight_attr_digit _ e.2 (hle e he) (set_backlight_ok bus hb data e.2).2⟩
  · intro d hd h
    rw [set_backlight_attr_digit bus data str size d hd h]
    exact ⟨rfl, get_backlight_attr_digit _ d hd (set_backlight_ok bus hb data d).2⟩

/-- C18 at concrete inputs: "red" and "RED" read back "1\n", "7" reads back
"7\n". -/
theorem backlight_round_trip_witness :
    get_backlight_attr (set_backlight_attr bus_ok dev0 (name_bytes "red") 3).2 = ['1', '\n'] ∧
    get_backlight_attr (set_backlight_attr bus_ok dev0 (name_bytes "RED") 3).2 = ['1', '\n'] ∧
    get_backlight_attr (set_backlight_attr bus_ok dev0 (name_bytes "7") 1).2 = ['7', '\n'] :=
  ⟨((backlight_round_trip bus_ok bus_ok_ok dev0 (name_bytes "red") 3).1 ("red", 1) (by decide)
      ⟨name_bytes "red", [], by decide, by decide⟩).2,
   ((backlight_round_trip bus_ok bus_ok_ok dev0 (name_bytes "RED") 3).1 ("red", 1) (by decide)
      ⟨name_bytes "RED", [], by decide, by decide⟩).2,
   ((backlight_round_trip bus_ok bus_ok_ok dev0 (name_bytes "7") 1).2 7 (by decide)
      (by decide)).2⟩

/-- C19, as amended: for every attribute text that does not start with a
digit character '0'..'7' and does not start, ignoring letter case, with one of
the eight colour names, on any bus, `set_backlight_attr` returns `-EINVAL` and
the device record (stored colour, register caches, bus history) is
unchanged. -/
theorem set_backlight_attr_invalid (bus : Bus) (data : device_data) (str : List Nat)
    (size : Nat)
    (hdig : ∀ d, d ≤ 7 → str.getD 0 0 ≠ 0x30 + d)
    (hname : ∀ e ∈ backlight_names, ¬ starts_with_ci e.1 str) :
    (set_backlight_attr bus data str size).1 = -EINVAL ∧
    (set_backlight_attr bus data str size).2 = data := by
  rw [set_backlight_attr_reject bus data str size hdig hname]
  exact ⟨rfl, rfl⟩

/-- C19 as stated fails: "reddish" is neither a colour name nor a digit, with
or without a trailing newline, yet it is accepted: the call returns the size
7, the stored colour changes from 0 to 1 (red), the port cache changes and a
word write is issued. -/
theorem set_backlight_attr_invalid_counterexample :
    (∀ e ∈ backlight_names, ∀ tail ∈ [[], [0x0A]],
      (name_bytes "reddish").map tolower ≠ name_bytes e.1 ++ tail) ∧
    (∀ d, d ≤ 7 → ∀ tail ∈ [[], [0x0A]], name_bytes "reddish" ≠ (0x30 + d) :: tail) ∧
    (set_backlight_attr bus_ok dev0 (name_bytes "reddish") 7).1 = 7 ∧
    (set_backlight_attr bus_ok dev0 (name_bytes "reddish") 7).1 ≠ -EINVAL ∧
    dev0.backlight_color = 0 ∧
    (set_backlight_attr bus_ok dev0 (name_bytes "reddish") 7).2.backlight_color = 1 ∧
    dev0.gpio = 0 ∧
    (set_backlight_attr bus_ok dev0 (name_bytes "reddish") 7).2.gpio = 0x180 ∧
    (set_backlight_attr bus_ok dev0 (name_bytes "reddish") 7).2.bus_log =
      [(Txn.write_word_data 0x12 0x180, 0)] := by
  decide

/-- C19 amended, at a concrete input: "purple" is rejected and the device
record is unchanged. -/
theorem set_backlight_attr_invalid_witness :
    (set_backlight_attr bus_ok dev0 (name_bytes "purple") 6).1 = -EINVAL ∧
    (set_backlight_attr bus_ok dev0 (name_bytes "purple") 6).2 = dev0 :=
  set_backlight_attr_invalid bus_ok dev0 (name_bytes "purple") 6 (by decide)
    (fun e he h => absurd ((name_test_iff e he (name_bytes "purple")).mpr h)
      ((by decide : ∀ f ∈ backlight_names,
          ¬ strncasecmp_eq f.1 (name_bytes "purple") = true) e he))

/-- C20 at the failing input: on a bus where every call fails with -5,
`set_backlight` returns -5 for red, yet the attribute write of "red" returns
the size 3 as if accepted; the failed word write is in the bus history and
the stored colour still reads back "0\n". -/
theorem set_backlight_attr_ignores_error :
    (set_backlight bus_fail dev0 LED_COLOR_RED).1 = -5 ∧
    (set_backlight_attr bus_fail dev0 (name_bytes "red") 3).1 = 3 ∧
    (set_backlight_attr bus_fail dev0 (name_bytes "red") 3).2.bus_log =
      [(Txn.write_word_data 0x12 0x180, -5)] ∧
    (set_backlight_attr bus_fail dev0 (name_bytes "red") 3).2.backlight_color = 0 ∧
    get_backlight_attr (set_backlight_attr bus_fail dev0 (name_bytes "red") 3).2
      = ['0', '\n'] := by
  decide

/-! ## Repeated writes and the backlight pins -/

theorem set_reg_pair_success (bus : Bus) (log : BusLog) (reg cache value : Nat)
    (h : (set_reg_pair bus log reg cache value).1 = 0) :
    (set_reg_pair bus log reg cache value).2.1 = value := by
  rw [set_reg_pair_eq] at h ⊢
  revert h
  cases pair_txn reg cache value with
  | none => intro _; rfl
  | some t =>
    intro h
    dsimp only at h ⊢
    by_cases hneg : bus log t < 0
    · rw [if_pos hneg] at h
      exact absurd hneg (by rw [show bus log t = 0 from h]; decide)
    · rw [if_neg hneg]

theorem set_reg_pair_log (bus : Bus) (log : BusLog) (reg cache value : Nat) :
    (set_reg_pair bus log reg cache value).2.2 = log ++ pair_entries bus log reg cache value := by
  rw [set_reg_pair_eq]
  unfold pair_entries
  cases pair_txn reg cache value with
  | none => simp
  | some t =>
    dsimp only
    split_ifs <;> rfl

theorem pair_txn_self (reg value : Nat) : pair_txn reg value value = none := by
  unfold pair_txn
  simp

/-- C22: for every bus, history, register pair, cache value and desired
value: when a first `set_reg_pair` call with the desired value returns success,
a second call on the same pair with the same desired value, started from the
cache and the history the first call left, returns success, issues no
transaction (the history is the one the first call left) and leaves the cache
as it was. -/
theorem set_reg_pair_twice (bus : Bus) (log : BusLog) (reg cache value : Nat)
    (h : (set_reg_pair bus log reg cache value).1 = 0) :
    set_reg_pair bus (set_reg_pair bus log reg cache value).2.2 reg
        (set_reg_pair bus log reg cache value).2.1 value =
      (0, (set_reg_pair bus log reg cache value).2.1,
          (set_reg_pair bus log reg cache value).2.2) := by
  rw [set_reg_pair_success bus log reg cache value h]
  generalize (set_reg_pair bus log reg cache value).2.2 = log1
  rw [set_reg_pair_eq, pair_txn_self]

/-- C22 at a concrete pair: after the word write that brings the cache from
0x0000 to 0x2041, the second call returns 0 with the cache 0x2041 and the
history still holding that one word write. -/
theorem set_reg_pair_twice_witness :
    (set_reg_pair bus_ok [] MCP23017_OLAT 0x0000 0x2041).1 = 0 ∧
    set_reg_pair bus_ok (set_reg_pair bus_ok [] MCP23017_OLAT 0x0000 0x2041).2.2 MCP23017_OLAT
        (set_reg_pair bus_ok [] MCP23017_OLAT 0x0000 0x2041).2.1 0x2041 =
      (0, 0x2041, [(Txn.write_word_data MCP23017_OLAT 0x2041, 0)]) :=
  ⟨by decide, set_reg_pair_twice bus_ok [] MCP23017_OLAT 0x0000 0x2041 (by decide)⟩

theorem color_set_color (v x : Nat) :
    color (set_color v x) = x % 8 ∧ set_color v x % 64 = v % 64 ∧
    set_color v x / 512 = v / 512 := by
  simp only [color, set_color, getField, setField]
  norm_num
  omega

theorem color_complement (c : Nat) : ((-((c % 8 : Nat) : Int) - 1) % 8).toNat = color_pins c := by
  unfold color_pins
  omega

/-- C21, as amended: `set_backlight` goes through the cached port pair
(register `MCP23017_GPIO`, cache `gpio`), not the output-latch pair of
`write_data`.  For every bus, device record and colour c, when
`set_backlight` returns success the colour bits of the cached port pair are
the complement of the low three bits of c, the bits below (0..5) and above
(9 and up) the colour bits of that pair are unchanged, the cached output-latch
pair, from which the next `write_data` starts, is unchanged, and the only
transaction issued is the write `set_reg_pair` picks for the port pair. -/
theorem set_backlight_port_pair (bus : Bus) (data : device_data) (c : Nat)
    (h : (set_backlight bus data c).1 = 0) :
    color (set_backlight bus data c).2.gpio = color_pins c ∧
    (set_backlight bus data c).2.gpio % 64 = data.gpio % 64 ∧
    (set_backlight bus data c).2.gpio / 512 = data.gpio / 512 ∧
    (set_backlight bus data c).2.olat = data.olat ∧
    (set_backlight bus data c).2.bus_log =
      data.bus_log ++
        pair_entries bus data.bus_log MCP23017_GPIO data.gpio
          (set_color data.gpio (color_pins c)) := by
  unfold set_backlight at h ⊢
  rw [color_complement] at h ⊢
  dsimp only at h ⊢
  have hs : (set_gpio bus data (set_color data.gpio (color_pins c))).1 = 0 := by
    by_cases hneg : (set_gpio bus data (set_color data.gpio (color_pins c))).1 < 0
    · rw [if_pos hneg] at h
      exact absurd hneg (by rw [h]; decide)
    · have := set_reg_pair_status_le bus data.bus_log MCP23017_GPIO data.gpio
        (set_color data.gpio (color_pins c))
      exact le_antisymm this (not_lt.mp hneg)
  rw [if_neg (by rw [hs]; decide)]
  have hg : (set_gpio bus data (set_color data.gpio (color_pins c))).2.gpio =
      set_color data.gpio (color_pins c) :=
    set_reg_pair_success bus data.bus_log MCP23017_GPIO data.gpio _ hs
  have hl : (set_gpio bus data (set_color data.gpio (color_pins c))).2.bus_log = _ :=
    set_reg_pair_log bus data.bus_log MCP23017_GPIO data.gpio (set_color data.gpio (color_pins c))
  have hc := color_set_color data.gpio (color_pins c)
  have h7 : color_pins c % 8 = color_pins c := by unfold color_pins; omega
  refine ⟨?_, ?_, ?_, rfl, hl⟩
  · show color (set_gpio bus data (set_color data.gpio (color_pins c))).2.gpio = _
    rw [hg, hc.1, h7]
  · show (set_gpio bus data (set_color data.gpio (color_pins c))).2.gpio % 64 = _
    rw [hg, hc.2.1]
  · show (set_gpio bus data (set_color data.gpio (color_pins c))).2.gpio / 512 = _
    rw [hg, hc.2.2]

/-- C21 as stated fails: on the fresh device with a succeeding bus,
`set_backlight` for red succeeds, the active-low encoding of red is 6, but the
colour bits of the cached output-latch pair, from which `write_data` starts,
are still 0; the word written went to the port register 0x12, not to the
output latch 0x14, and the `write_data` that follows writes port B of the
output latch with the colour bit of that byte still 0. -/
theorem set_backlight_port_pair_counterexample :
    (set_backlight bus_ok dev0 LED_COLOR_RED).1 = 0 ∧
    color_pins LED_COLOR_RED = 6 ∧
    color (set_backlight bus_ok dev0 LED_COLOR_RED).2.olat = 0 ∧
    color (set_backlight bus_ok dev0 LED_COLOR_RED).2.olat ≠ color_pins LED_COLOR_RED ∧
    (set_backlight bus_ok dev0 LED_COLOR_RED).2.bus_log =
      [(Txn.write_word_data MCP23017_GPIO 0x180, 0)] ∧
    MCP23017_GPIO ≠ MCP23017_OLAT ∧
    (write_data cfg10 bus_ok (set_backlight bus_ok dev0 LED_COLOR_RED).2 true 0x41).2.bus_log =
      [(Txn.write_word_data MCP23017_GPIO 0x180, 0),
       (Txn.write_byte_data ( MCP23017_OLAT + 1) 0xA4, 0),
       (Txn.write_byte_data ( MCP23017_OLAT + 1) 0x90, 0),
       (Txn.write_byte_data ( MCP23017_OLAT + 1) 0xB0, 0),
       (Txn.write_byte_data ( MCP23017_OLAT + 1) 0x90, 0)] := by
  decide

/-- C21 amended, at a concrete input: after red on the fresh device the
colour bits of the cached port pair are 6 and the cached output latch is
still 0. -/
theorem set_backlight_port_pair_witness :
    color (set_backlight bus_ok dev0 LED_COLOR_RED).2.gpio = 6 ∧
    (set_backlight bus_ok dev0 LED_COLOR_RED).2.olat = 0 :=
  ⟨(set_backlight_port_pair bus_ok dev0 LED_COLOR_RED (by decide)).1,
   (set_backlight_port_pair bus_ok dev0 LED_COLOR_RED (by decide)).2.2.2.1⟩

/-! ## The nibble strobe -/

theorem set_lcd_data_fields (v x : Nat) :
    lcd_data (set_lcd_data v x) = x % 16 ∧
    lcd_enable (set_lcd_data v x) = lcd_enable v ∧
    lcd_rw (set_lcd_data v x) = lcd_rw v ∧
    lcd_rs (set_lcd_data v x) = lcd_rs v ∧
    non_display (set_lcd_data v x) = non_display v ∧
    value_a (set_lcd_data v x) = value_a v := by
  simp only [lcd_data, lcd_enable, lcd_rw, lcd_rs, non_display, set_lcd_data, getField, setField,
    value_a, Prod.mk.injEq]
  norm_num
  omega

theorem set_lcd_enable_fields (v : Nat) (b : Bool) :
    lcd_data (set_lcd_enable v b) = lcd_data v ∧
    lcd_enable (set_lcd_enable v b) = b.toNat ∧
    lcd_rw (set_lcd_enable v b) = lcd_rw v ∧
    lcd_rs (set_lcd_enable v b) = lcd_rs v ∧
    non_display (set_lcd_enable v b) = non_display v ∧
    value_a (set_lcd_enable v b) = value_a v := by
  cases b <;>
  · simp only [lcd_data, lcd_enable, lcd_rw, lcd_rs, non_display, set_lcd_enable, getField,
      setField, value_a, Prod.mk.injEq, Bool.toNat_false, Bool.toNat_true]
    norm_num
    omega

theorem set_lcd_rw_fields (v : Nat) (b : Bool) :
    lcd_data (set_lcd_rw v b) = lcd_data v ∧
    lcd_enable (set_lcd_rw v b) = lcd_enable v ∧
    lcd_rw (set_lcd_rw v b) = b.toNat ∧
    lcd_rs (set_lcd_rw v b) = lcd_rs v ∧
    non_display (set_lcd_rw v b) = non_display v ∧
    value_a (set_lcd_rw v b) = value_a v := by
  cases b <;>
  · simp only [lcd_data, lcd_enable, lcd_rw, lcd_rs, non_display, set_lcd_rw, getField,
      setField, value_a, Prod.mk.injEq, Bool.toNat_false, Bool.toNat_true]
    norm_num
    omega

theorem set_lcd_rs_fields (v : Nat) (b : Bool) :
    lcd_data (set_lcd_rs v b) = lcd_data v ∧
    lcd_enable (set_lcd_rs v b) = lcd_enable v ∧
    lcd_rw (set_lcd_rs v b) = lcd_rw v ∧
    lcd_rs (set_lcd_rs v b) = b.toNat ∧
    non_display (set_lcd_rs v b) = non_display v ∧
    value_a (set_lcd_rs v b) = value_a v := by
  cases b <;>
  · simp only [lcd_data, lcd_enable, lcd_rw, lcd_rs, non_display, set_lcd_rs, getField,
      setField, value_a, Prod.mk.injEq, Bool.toNat_false, Bool.toNat_true]
    norm_num
    omega

theorem bit_flip_lt (i : Nat) : bit_flip i % 16 = bit_flip i := by
  unfold bit_flip
  by_cases h : i < 16
  · interval_cases i <;> rfl
  · rw [List.getD_eq_default]
    exact (not_lt.mp h)
theorem wait_for_write_fast (cfg : Config) (bus : Bus) (d : device_data)
    (h : lcd_data d.iodir = 0) : wait_for_write cfg bus d = (0, d) := by
  unfold wait_for_write
  rw [if_pos h]

theorem value_b_of_enable (a b : Nat) (h : lcd_enable a ≠ lcd_enable b) :
    value_b a ≠ value_b b := by
  simp only [lcd_enable, value_b, getField] at h ⊢
  norm_num at h ⊢
  omega

theorem set_olat_b_step (bus : Bus) (hb : bus.ok) (d : device_data) (o : Nat)
    (ha : value_a d.olat = value_a o) :
    (set_olat bus d o).1 = 0 ∧ (set_olat bus d o).2.olat = o ∧
    (set_olat bus d o).2.iodir = d.iodir ∧
    txns (set_olat bus d o).2.bus_log =
      txns d.bus_log ++ (if value_b d.olat = value_b o then [] else [olat_b_write o]) := by
  have hs := set_olat_ok bus hb d o
  refine ⟨hs, set_reg_pair_success bus d.bus_log MCP23017_OLAT d.olat o hs, rfl, ?_⟩
  show txns (set_reg_pair bus d.bus_log MCP23017_OLAT d.olat o).2.2 = _
  rw [set_reg_pair_log]
  unfold pair_entries pair_txn txns olat_b_write
  rw [if_pos ha]
  split_ifs <;> simp

/-- C23, as amended: for every byte v and mode flag m, on a bus where all
transactions succeed and with the data pins output-configured, `write_data`
is four successive `set_reg_pair` steps on the output latch with values o1,
o2, o3, o4: o1 carries the high nibble (`bit_flip` of v / 16) with enable
asserted; o2 carries the low nibble (`bit_flip` of v % 16) with enable
de-asserted, so the high-nibble strobe ends in the step that puts the low
nibble on the pins; o3 carries the low nibble with enable asserted and o4 the
low nibble with enable de-asserted.  In every step register select is m,
read/write is 0 and the bits outside the display fields are as cached.  The
call returns 0, the cache ends as o4, and the transactions issued are the
port-B writes of o2, o3, o4, preceded by that of o1 unless port B already
held it. -/
theorem write_data_nibbles (cfg : Config) (bus : Bus) (hb : bus.ok) (data : device_data)
    (m : Bool) (v : Nat) (hout : lcd_data data.iodir = 0) :
    ∃ o1 o2 o3 o4 : Nat,
      (lcd_data o1 = bit_flip (v / 16) ∧ lcd_enable o1 = 1 ∧ lcd_rs o1 = m.toNat ∧
        lcd_rw o1 = 0 ∧ non_display o1 = non_display data.olat) ∧
      (lcd_data o2 = bit_flip (v % 16) ∧ lcd_enable o2 = 0 ∧ lcd_rs o2 = m.toNat ∧
        lcd_rw o2 = 0 ∧ non_display o2 = non_display data.olat) ∧
      (lcd_data o3 = bit_flip (v % 16) ∧ lcd_enable o3 = 1 ∧ lcd_rs o3 = m.toNat ∧
        lcd_rw o3 = 0 ∧ non_display o3 = non_display data.olat) ∧
      (lcd_data o4 = bit_flip (v % 16) ∧ lcd_enable o4 = 0 ∧ lcd_rs o4 = m.toNat ∧
        lcd_rw o4 = 0 ∧ non_display o4 = non_display data.olat) ∧
      write_data cfg bus data m v =
        (0, (set_olat bus (set_olat bus (set_olat bus (set_olat bus
          { data with strobes := data.strobes ++ [(m, v)] } o1).2 o2).2 o3).2 o4).2) ∧
      (write_data cfg bus data m v).2.olat = o4 ∧
      txns (write_data cfg bus data m v).2.bus_log =
        txns data.bus_log ++
          (if value_b data.olat = value_b o1 then [] else [olat_b_write o1]) ++
          [olat_b_write o2, olat_b_write o3, olat_b_write o4] := by
  have f1 := set_lcd_rw_fields data.olat false
  generalize hx1 : set_lcd_rw data.olat false = x1 at f1
  have f2 := set_lcd_rs_fields x1 m
  generalize hx2 : set_lcd_rs x1 m = x2 at f2
  have f3 := set_lcd_data_fields x2 (bit_flip (v / 16))
  generalize hx3 : set_lcd_data x2 (bit_flip (v / 16)) = x3 at f3
  have f4 := set_lcd_enable_fields x3 true
  generalize ho1 : set_lcd_enable x3 true = o1 at f4
  have f5 := set_lcd_data_fields o1 (bit_flip (v % 16))
  generalize hx5 : set_lcd_data o1 (bit_flip (v % 16)) = x5 at f5
  have f6 := set_lcd_enable_fields x5 false
  generalize ho2 : set_lcd_enable x5 false = o2 at f6
  have f7 := set_lcd_enable_fields o2 true
  generalize ho3 : set_lcd_enable o2 true = o3 at f7
  have f8 := set_lcd_enable_fields o3 false
  generalize ho4 : set_lcd_enable o3 false = o4 at f8
  rw [bit_flip_lt] at f3 f5
  have e1 : lcd_enable o1 = 1 := f4.2.1
  have e2 : lcd_enable o2 = 0 := f6.2.1
  have e3 : lcd_enable o3 = 1 := f7.2.1
  have e4 : lcd_enable o4 = 0 := f8.2.1
  have a1 : value_a data.olat = value_a o1 := by
    rw [f4.2.2.2.2.2, f3.2.2.2.2.2, f2.2.2.2.2.2, f1.2.2.2.2.2]
  have a2 : value_a o1 = value_a o2 := by rw [f6.2.2.2.2.2, f5.2.2.2.2.2]
  have a3 : value_a o2 = value_a o3 := by rw [f7.2.2.2.2.2]
  have a4 : value_a o3 = value_a o4 := by rw [f8.2.2.2.2.2]
  have b2 : value_b o1 ≠ value_b o2 := value_b_of_enable _ _ (by rw [e1, e2]; decide)
  have b3 : value_b o2 ≠ value_b o3 := value_b_of_enable _ _ (by rw [e2, e3]; decide)
  have b4 : value_b o3 ≠ value_b o4 := value_b_of_enable _ _ (by rw [e3, e4]; decide)
  have F1 : lcd_data o1 = bit_flip (v / 16) ∧ lcd_enable o1 = 1 ∧ lcd_rs o1 = m.toNat ∧
      lcd_rw o1 = 0 ∧ non_display o1 = non_display data.olat :=
    ⟨by rw [f4.1, f3.1], e1, by rw [f4.2.2.2.1, f3.2.2.2.1, f2.2.2.2.1],
      by rw [f4.2.2.1, f3.2.2.1, f2.2.2.1, f1.2.2.1]; rfl,
      by rw [f4.2.2.2.2.1, f3.2.2.2.2.1, f2.2.2.2.2.1, f1.2.2.2.2.1]⟩
  have F2 : lcd_data o2 = bit_flip (v % 16) ∧ lcd_enable o2 = 0 ∧ lcd_rs o2 = m.toNat ∧
      lcd_rw o2 = 0 ∧ non_display o2 = non_display data.olat :=
    ⟨by rw [f6.1, f5.1], e2, by rw [f6.2.2.2.1, f5.2.2.2.1, F1.2.2.1],
      by rw [f6.2.2.1, f5.2.2.1, F1.2.2.2.1],
      by rw [f6.2.2.2.2.1, f5.2.2.2.2.1, F1.2.2.2.2]⟩
  have F3 : lcd_data o3 = bit_flip (v % 16) ∧ lcd_enable o3 = 1 ∧ lcd_rs o3 = m.toNat ∧
      lcd_rw o3 = 0 ∧ non_display o3 = non_display data.olat :=
    ⟨by rw [f7.1, F2.1], e3, by rw [f7.2.2.2.1, F2.2.2.1], by rw [f7.2.2.1, F2.2.2.2.1],
      by rw [f7.2.2.2.2.1, F2.2.2.2.2]⟩
  have F4 : lcd_data o4 = bit_flip (v % 16) ∧ lcd_enable o4 = 0 ∧ lcd_rs o4 = m.toNat ∧
      lcd_rw o4 = 0 ∧ non_display o4 = non_display data.olat :=
    ⟨by rw [f8.1, F3.1], e4, by rw [f8.2.2.2.1, F3.2.2.1], by rw [f8.2.2.1, F3.2.2.2.1],
      by rw [f8.2.2.2.2.1, F3.2.2.2.2]⟩
  refine ⟨o1, o2, o3, o4, F1, F2, F3, F4, ?_⟩
  have s1 := set_olat_b_step bus hb { data with strobes := data.strobes ++ [(m, v)] } o1 a1
  generalize hS1 : set_olat bus { data with strobes := data.strobes ++ [(m, v)] } o1 = S1 at s1
  have s2 := set_olat_b_step bus hb S1.2 o2 (by rw [s1.2.1]; exact a2)
  generalize hS2 : set_olat bus S1.2 o2 = S2 at s2
  have s3 := set_olat_b_step bus hb S2.2 o3 (by rw [s2.2.1]; exact a3)
  generalize hS3 : set_olat bus S2.2 o3 = S3 at s3
  have s4 := set_olat_b_step bus hb S3.2 o4 (by rw [s3.2.1]; exact a4)
  generalize hS4 : set_olat bus S3.2 o4 = S4 at s4
  have hw : write_data cfg bus data m v = (0, S4.2) := by
    unfold write_data
    dsimp only
    rw [wait_for_write_fast cfg bus { data with strobes := data.strobes ++ [(m, v)] } hout]
    dsimp only
    rw [hx1, hx2, hx3, ho1, hx5, ho2, ho3, ho4, hS1, if_neg (by rw [s1.1]; decide), hS2,
      if_neg (by rw [s2.1]; decide), hS3, if_neg (by rw [s3.1]; decide), hS4,
      if_neg (by rw [s4.1]; decide)]
  refine ⟨hw, ?_, ?_⟩
  · rw [hw]
    exact s4.2.1
  · rw [hw]
    show txns S4.2.bus_log = _
    rw [s4.2.2.2, s3.2.2.2, s2.2.2.2, s1.2.2.2, s3.2.1, s2.2.1, s1.2.1, if_neg b2, if_neg b3,
      if_neg b4]
    simp only [List.append_assoc, List.singleton_append]
    rfl

/-- C23 as stated fails: for the byte 0x41 in character mode on the fresh
device the four transactions write 0xA4, 0x90, 0xB0, 0x90 to port B of the
output latch.  The first carries the high nibble (pins 2) with enable
asserted; the second has enable de-asserted but the pins already carry the low
nibble (8), not the high nibble; there is no step with the high nibble on
the pins and enable de-asserted. -/
theorem write_data_nibbles_counterexample :
    lcd_data dev0.iodir = 0 ∧
    txns (write_data cfg10 bus_ok dev0 true 0x41).2.bus_log =
      [Txn.write_byte_data ( MCP23017_OLAT + 1) 0xA4,
       Txn.write_byte_data ( MCP23017_OLAT + 1) 0x90,
       Txn.write_byte_data ( MCP23017_OLAT + 1) 0xB0,
       Txn.write_byte_data ( MCP23017_OLAT + 1) 0x90] ∧
    bit_flip (0x41 / 16) = 2 ∧ bit_flip (0x41 % 16) = 8 ∧
    lcd_data (0xA4 * 256) = 2 ∧ lcd_enable (0xA4 * 256) = 1 ∧
    lcd_data (0x90 * 256) = 8 ∧ lcd_enable (0x90 * 256) = 0 ∧
    lcd_data (0x90 * 256) ≠ bit_flip (0x41 / 16) ∧
    lcd_data (0xB0 * 256) = 8 ∧ lcd_enable (0xB0 * 256) = 1 := by
  decide

/-- C23 amended, at a concrete input: the four latch values for the byte 0x41
in character mode on the fresh device. -/
theorem write_data_nibbles_witness :
    ∃ o1 o2 o3 o4 : Nat,
      (lcd_data o1 = 2 ∧ lcd_enable o1 = 1) ∧ (lcd_data o2 = 8 ∧ lcd_enable o2 = 0) ∧
      (lcd_data o3 = 8 ∧ lcd_enable o3 = 1) ∧ (lcd_data o4 = 8 ∧ lcd_enable o4 = 0) ∧
      (write_data cfg10 bus_ok dev0 true 0x41).2.olat = o4 := by
  obtain ⟨o1, o2, o3, o4, F1, F2, F3, F4, _, ho, _⟩ :=
    write_data_nibbles cfg10 bus_ok bus_ok_ok dev0 true 0x41 (by decide)
  exact ⟨o1, o2, o3, o4, ⟨F1.1, F1.2.1⟩, ⟨F2.1, F2.2.1⟩, ⟨F3.1, F3.2.1⟩, ⟨F4.1, F4.2.1⟩, ho⟩

/-! ## The fast path and the direction register of the busy wait -/

theorem extends_log_refl (d : device_data) : extends_log d d :=
  ⟨List.prefix_refl _, rfl⟩

theorem extends_log_trans (a b c : device_data) (h1 : extends_log a b)
    (h2 : extends_log b c) : extends_log a c :=
  ⟨h1.1.trans h2.1, h2.2.trans h1.2⟩

theorem extends_log_length (a b : device_data) (h : extends_log a b) :
    a.bus_log.length ≤ b.bus_log.length := h.1.length_le

theorem set_reg_pair_fail (bus : Bus) (log : BusLog) (reg cache value : Nat)
    (h : (set_reg_pair bus log reg cache value).1 < 0) :
    (set_reg_pair bus log reg cache value).2.2.length = log.length + 1 := by
  rw [set_reg_pair_eq] at h ⊢
  revert h
  cases pair_txn reg cache value with
  | none => intro h; exact (lt_irrefl (0 : Int) h).elim
  | some t =>
    intro _
    dsimp only
    split_ifs <;> simp

theorem set_reg_pair_changed (bus : Bus) (log : BusLog) (reg cache value : Nat)
    (h : value_b cache ≠ value_b value) :
    (set_reg_pair bus log reg cache value).2.2.length = log.length + 1 := by
  rw [set_reg_pair_log]
  unfold pair_entries pair_txn
  split_ifs <;> simp

theorem set_olat_extends (bus : Bus) (d : device_data) (v : Nat) :
    extends_log d (set_olat bus d v).2 ∧
    ((set_olat bus d v).1 < 0 → d.bus_log.length < (set_olat bus d v).2.bus_log.length) := by
  refine ⟨⟨?_, rfl⟩, ?_⟩
  · show d.bus_log <+: (set_reg_pair bus d.bus_log MCP23017_OLAT d.olat v).2.2
    rw [set_reg_pair_log]
    exact List.prefix_append _ _
  · intro h
    have := set_reg_pair_fail bus d.bus_log MCP23017_OLAT d.olat v h
    show d.bus_log.length < (set_reg_pair bus d.bus_log MCP23017_OLAT d.olat v).2.2.length
    omega

theorem get_gpio_b_extends (bus : Bus) (d : device_data) :
    extends_log d (get_gpio_b bus d).2 ∧
    d.bus_log.length < (get_gpio_b bus d).2.bus_log.length := by
  unfold get_gpio_b get_reg i2c_smbus extends_log
  dsimp only
  split_ifs <;> simp

theorem wait_for_write_loop_extends (bus : Bus) (lo hi : Nat) :
    ∀ (n : Nat) (d : device_data),
      extends_log d (wait_for_write_loop bus lo hi n d).2 ∧
      ((wait_for_write_loop bus lo hi n d).1 < 0 →
        d.bus_log.length < (wait_for_write_loop bus lo hi n d).2.bus_log.length) := by
  intro n
  induction n with
  | zero =>
    intro d
    exact ⟨extends_log_refl d, fun h => (lt_irrefl (0 : Int) h).elim⟩
  | succ n ih =>
    intro d
    simp only [wait_for_write_loop]
    have e1 := set_olat_extends bus d hi
    generalize set_olat bus d hi = S1 at e1 ⊢
    have e2 := get_gpio_b_extends bus S1.2
    generalize get_gpio_b bus S1.2 = S2 at e2 ⊢
    have e3 := set_olat_extends bus S2.2 lo
    generalize set_olat bus S2.2 lo = S3 at e3 ⊢
    have e4 := set_olat_extends bus S3.2 hi
    generalize set_olat bus S3.2 hi = S4 at e4 ⊢
    have e5 := set_olat_extends bus S4.2 lo
    generalize set_olat bus S4.2 lo = S5 at e5 ⊢
    have e6 := ih S5.2
    generalize wait_for_write_loop bus lo hi n S5.2 = S6 at e6 ⊢
    have x2 := extends_log_trans _ _ _ e1.1 e2.1
    have x3 := extends_log_trans _ _ _ x2 e3.1
    have x4 := extends_log_trans _ _ _ x3 e4.1
    have x5 := extends_log_trans _ _ _ x4 e5.1
    have x6 := extends_log_trans _ _ _ x5 e6.1
    have l1 := extends_log_length _ _ e1.1
    have l2 := extends_log_length _ _ x2
    have l3 := extends_log_length _ _ x3
    have l4 := extends_log_length _ _ x4
    have l5 := extends_log_length _ _ x5
    have m2 := e2.2
    split_ifs with h1 h2 h3 h4 h5 h6
    · exact ⟨e1.1, e1.2⟩
    · exact ⟨x2, fun _ => by omega⟩
    · exact ⟨x3, fun _ => by have := extends_log_length _ _ e3.1; omega⟩
    · exact ⟨x3, fun _ => by have := extends_log_length _ _ e3.1; omega⟩
    · exact ⟨x4, fun _ => by
        have := extends_log_length _ _ e3.1
        have := extends_log_length _ _ e4.1
        omega⟩
    · exact ⟨x5, fun _ => by
        have := extends_log_length _ _ e3.1
        have := extends_log_length _ _ e4.1
        have := extends_log_length _ _ e5.1
        omega⟩
    · exact ⟨x6, fun _ => by
        have := extends_log_length _ _ e3.1
        have := extends_log_length _ _ e4.1
        have := extends_log_length _ _ e5.1
        have := extends_log_length _ _ e6.1
        omega⟩

theorem value_b_clear_data (v : Nat) (h : lcd_data v ≠ 0) :
    value_b v ≠ value_b (set_lcd_data v 0) := by
  simp only [lcd_data, value_b, set_lcd_data, getField, setField] at h ⊢
  norm_num at h ⊢
  omega
theorem set_lcd_data_frame (v x : Nat) :
    lcd_data (set_lcd_data v x) = x % 16 ∧ set_lcd_data v x % 512 = v % 512 ∧
    set_lcd_data v x / 8192 = v / 8192 := by
  simp only [lcd_data, set_lcd_data, getField, setField]
  norm_num
  omega

theorem set_iodir_step (bus : Bus) (d : device_data) (v : Nat) :
    d.bus_log <+: (set_iodir bus d v).2.bus_log ∧
    (value_b d.iodir ≠ value_b v →
      (set_iodir bus d v).2.bus_log.length = d.bus_log.length + 1) ∧
    ((set_iodir bus d v).1 = 0 → (set_iodir bus d v).2.iodir = v) ∧
    (set_iodir bus d v).1 ≤ 0 := by
  refine ⟨?_, ?_, ?_, ?_⟩
  · show d.bus_log <+: (set_reg_pair bus d.bus_log MCP23017_IODIR d.iodir v).2.2
    rw [set_reg_pair_log]
    exact List.prefix_append _ _
  · exact set_reg_pair_changed bus d.bus_log MCP23017_IODIR d.iodir v
  · exact set_reg_pair_success bus d.bus_log MCP23017_IODIR d.iodir v
  · exact set_reg_pair_status_le bus d.bus_log MCP23017_IODIR d.iodir v

theorem wait_for_write_slow (cfg : Config) (bus : Bus) (d : device_data)
    (hin : lcd_data d.iodir ≠ 0) :
    d.bus_log <+: (wait_for_write cfg bus d).2.bus_log ∧
    d.bus_log.length < (wait_for_write cfg bus d).2.bus_log.length ∧
    ((wait_for_write cfg bus d).1 = 0 →
      (wait_for_write cfg bus d).2.iodir = set_lcd_data d.iodir 0) := by
  unfold wait_for_write
  generalize (cfg.LCD_WRITE_ATTEMPTS + 2 ^ 32 - 1) % 2 ^ 32 = n
  rw [if_neg hin]
  dsimp only
  generalize set_lcd_rs (set_lcd_rw (set_lcd_enable (set_lcd_data d.olat 0) false) true) false
    = lo
  have e1 := set_olat_extends bus d lo
  generalize set_olat bus d lo = S1 at e1 ⊢
  have e2 := wait_for_write_loop_extends bus lo (set_lcd_enable lo true) n S1.2
  generalize wait_for_write_loop bus lo (set_lcd_enable lo true) n S1.2 = S2 at e2 ⊢
  have hi2 : S2.2.iodir = d.iodir := e2.1.2.trans e1.1.2
  have e3 := set_iodir_step bus S2.2 (set_lcd_data S2.2.iodir 0)
  rw [hi2] at e3
  rw [hi2]
  generalize set_iodir bus S2.2 (set_lcd_data d.iodir 0) = S3 at e3 ⊢
  have l1 := e1.1.1.length_le
  have l2 := e2.1.1.length_le
  have l3 := e3.2.1 (value_b_clear_data d.iodir hin)
  split_ifs with h1 h2 h3
  · exact ⟨e1.1.1, e1.2 h1, fun h => absurd h1 (by rw [h]; decide)⟩
  · exact ⟨e1.1.1.trans e2.1.1, by have := e2.2 h2; omega,
      fun h => absurd h2 (by rw [h]; decide)⟩
  · exact ⟨(e1.1.1.trans e2.1.1).trans e3.1, by omega,
      fun h => absurd h3 (by rw [h]; decide)⟩
  · have l4 : d.bus_log.length < S3.2.bus_log.length := by omega
    exact ⟨(e1.1.1.trans e2.1.1).trans e3.1, l4,
      fun _ => e3.2.2.1 (le_antisymm e3.2.2.2 (not_lt.mp h3))⟩

/-- C24: for every retry bound, bus and device record, `wait_for_write`
skips waiting exactly when the data pins are output-configured: when the
cached direction register has all four data pins set to output it returns
success with the record (bus history included) unchanged; otherwise the bus
history after the call extends the one before by at least one transaction;
hence the call returns success with nothing changed if and only if the four
data pins are output-configured. -/
theorem wait_for_write_skip (cfg : Config) (bus : Bus) (d : device_data) :
    (lcd_data d.iodir = 0 → wait_for_write cfg bus d = (0, d)) ∧
    (lcd_data d.iodir ≠ 0 →
      d.bus_log <+: (wait_for_write cfg bus d).2.bus_log ∧
      d.bus_log.length < (wait_for_write cfg bus d).2.bus_log.length) ∧
    (wait_for_write cfg bus d = (0, d) ↔ lcd_data d.iodir = 0) := by
  refine ⟨wait_for_write_fast cfg bus d, ?_, ?_⟩
  · intro hin
    exact ⟨(wait_for_write_slow cfg bus d hin).1, (wait_for_write_slow cfg bus d hin).2.1⟩
  · constructor
    · intro h
      by_contra hin
      have := (wait_for_write_slow cfg bus d hin).2.1
      rw [h] at this
      exact lt_irrefl _ this
    · exact wait_for_write_fast cfg bus d

/-- C25: for every retry bound, bus and device record, whenever
`wait_for_write` returns success (on the fast path, after the busy flag
cleared or after the retry bound was exhausted), the cached direction
register has all four data pins output-configured, and its bits below the
data pins (0..8) and above them (13 and up) are as before the call. -/
theorem wait_for_write_direction (cfg : Config) (bus : Bus) (d : device_data)
    (h : (wait_for_write cfg bus d).1 = 0) :
    lcd_data (wait_for_write cfg bus d).2.iodir = 0 ∧
    (wait_for_write cfg bus d).2.iodir % 512 = d.iodir % 512 ∧
    (wait_for_write cfg bus d).2.iodir / 8192 = d.iodir / 8192 := by
  by_cases hin : lcd_data d.iodir = 0
  · rw [wait_for_write_fast cfg bus d hin]
    exact ⟨hin, rfl, rfl⟩
  · rw [(wait_for_write_slow cfg bus d hin).2.2 h]
    exact set_lcd_data_frame d.iodir 0

/-- C25 at a concrete input, on the path where the retry bound is exhausted:
with the data pins input-configured and the busy flag always set, the call
returns success and the direction register ends with the data pins as
outputs and the other bits as before. -/
theorem wait_for_write_direction_witness :
    (wait_for_write cfg10 bus_busy dev_input).1 = 0 ∧
    lcd_data dev_input.iodir = 15 ∧
    lcd_data (wait_for_write cfg10 bus_busy dev_input).2.iodir = 0 ∧
    (wait_for_write cfg10 bus_busy dev_input).2.iodir % 512 = dev_input.iodir % 512 ∧
    (wait_for_write cfg10 bus_busy dev_input).2.iodir / 8192 = dev_input.iodir / 8192 :=
  ⟨by decide, by decide, wait_for_write_direction cfg10 bus_busy dev_input (by decide)⟩
/-! ## The cursor address and the pollable commands -/

theorem cursor_pos_clamped (d : device_data) (h0 : 0 ≤ d.lcd_col) (h16 : d.lcd_col ≤ 16) :
    cursor_pos d = (if d.lcd_row = 0 then 0x00 else 0x40) + d.lcd_col.toNat := by
  unfold cursor_pos lnot
  generalize d.lcd_col = c at h0 h16
  by_cases hr : d.lcd_row = 0
  · simp only [hr, if_true]
    interval_cases c <;> decide
  · simp only [hr, if_false]
    interval_cases c <;> decide

theorem set_address_or (p : Nat) (h : p ≤ 0x50) :
    LCD_SETDDRAMADDR ||| p = LCD_SETDDRAMADDR + p := by
  unfold LCD_SETDDRAMADDR
  interval_cases p <;> rfl

/-- C26: for every bus and device record (any integer column, any row),
`sync_cursorpos` leaves the column clamped to [0,16] (max 0 (min col 16):
below 0 gives 0, above 16 gives 16, in range unchanged), leaves the row
unchanged, and makes exactly one `write_data` call, in command mode, whose
byte is the set-address opcode plus base(row) plus the clamped column, with
base 0x00 for row 0 and 0x40 otherwise.  The byte `pos` of the code is that
base plus column, it never exceeds 0x50, and so the bitwise OR with the opcode
equals the sum. -/
theorem sync_cursorpos_address (cfg : Config) (bus : Bus) (d : device_data) :
    (sync_cursorpos cfg bus d).2.lcd_col = max 0 (min d.lcd_col 16) ∧
    (sync_cursorpos cfg bus d).2.lcd_row = d.lcd_row ∧
    (sync_cursorpos cfg bus d).2.strobes =
      d.strobes ++ [(false, LCD_SETDDRAMADDR +
        ((if d.lcd_row = 0 then 0x00 else 0x40) + (max 0 (min d.lcd_col 16)).toNat))] ∧
    cursor_pos (clamp_col d) =
      (if d.lcd_row = 0 then 0x00 else 0x40) + (max 0 (min d.lcd_col 16)).toNat ∧
    cursor_pos (clamp_col d) ≤ 0x50 ∧
    LCD_SETDDRAMADDR ||| cursor_pos (clamp_col d) =
      LCD_SETDDRAMADDR + cursor_pos (clamp_col d) := by
  have hv := sync_cursorpos_view cfg bus d
  have hc : (clamp_col d).lcd_col = max 0 (min d.lcd_col 16) :=
    congrArg cursor_view.lcd_col (clamp_col_view d)
  have hr : (clamp_col d).lcd_row = d.lcd_row :=
    congrArg cursor_view.lcd_row (clamp_col_view d)
  have hp := cursor_pos_clamped (clamp_col d) (by rw [hc]; omega) (by rw [hc]; omega)
  rw [hc, hr] at hp
  have h50 : cursor_pos (clamp_col d) ≤ 0x50 := by
    rw [hp]
    split_ifs <;> omega
  refine ⟨congrArg cursor_view.lcd_col hv, congrArg cursor_view.lcd_row hv, ?_, hp, h50,
    set_address_or _ h50⟩
  have hs := congrArg cursor_view.strobes hv
  rw [show (sync_cursorpos cfg bus d).2.view.strobes = (sync_cursorpos cfg bus d).2.strobes
    from rfl] at hs
  rw [hs]
  unfold set_address_command LCD_SETDDRAMADDR
  simp only [Nat.add_assoc]
theorem get_gpio_b_reads (bus : Bus) (d : device_data) :
    count_reads (get_gpio_b bus d).2.bus_log = count_reads d.bus_log + 1 := by
  unfold get_gpio_b get_reg i2c_smbus
  dsimp only
  split_ifs <;> (rw [count_reads_append]; rfl)

theorem get_gpio_b_ok (bus : Bus) (hb : bus.ok) (d : device_data) :
    (get_gpio_b bus d).1 = 0 := by
  have hn : ¬ bus d.bus_log (Txn.read_byte_data ( MCP23017_GPIO + 1)) < 0 :=
    not_lt.mpr (hb d.bus_log _)
  unfold get_gpio_b get_reg i2c_smbus
  simp only [if_true, hn, if_false]

theorem wait_for_write_loop_reads (bus : Bus) (lo hi : Nat) :
    ∀ (n : Nat) (d : device_data),
      count_reads d.bus_log ≤ count_reads (wait_for_write_loop bus lo hi n d).2.bus_log := by
  intro n
  induction n with
  | zero => intro d; exact le_refl _
  | succ n ih =>
    intro d
    simp only [wait_for_write_loop]
    have r1 := (set_olat_reads bus d hi).1
    generalize set_olat bus d hi = S1 at r1 ⊢
    have r2 := get_gpio_b_reads bus S1.2
    generalize get_gpio_b bus S1.2 = S2 at r2 ⊢
    have r3 := (set_olat_reads bus S2.2 lo).1
    generalize set_olat bus S2.2 lo = S3 at r3 ⊢
    have r4 := (set_olat_reads bus S3.2 hi).1
    generalize set_olat bus S3.2 hi = S4 at r4 ⊢
    have r5 := (set_olat_reads bus S4.2 lo).1
    generalize set_olat bus S4.2 lo = S5 at r5 ⊢
    have r6 := ih S5.2
    generalize wait_for_write_loop bus lo hi n S5.2 = S6 at r6 ⊢
    split_ifs
    · omega
    · omega
    · omega
    · show count_reads d.bus_log ≤ count_reads S3.2.bus_log
      omega
    · omega
    · omega
    · omega

theorem wait_for_write_loop_ok (bus : Bus) (hb : bus.ok) (lo hi : Nat) :
    ∀ (n : Nat) (d : device_data), (wait_for_write_loop bus lo hi n d).1 = 0 := by
  intro n
  induction n with
  | zero => intro d; rfl
  | succ n ih =>
    intro d
    simp only [wait_for_write_loop]
    have a1 := set_olat_ok bus hb d hi
    generalize set_olat bus d hi = S1 at a1 ⊢
    have a2 := get_gpio_b_ok bus hb S1.2
    generalize get_gpio_b bus S1.2 = S2 at a2 ⊢
    have a3 := set_olat_ok bus hb S2.2 lo
    generalize set_olat bus S2.2 lo = S3 at a3 ⊢
    have a4 := set_olat_ok bus hb S3.2 hi
    generalize set_olat bus S3.2 hi = S4 at a4 ⊢
    have a5 := set_olat_ok bus hb S4.2 lo
    generalize set_olat bus S4.2 lo = S5 at a5 ⊢
    have a6 := ih S5.2
    generalize wait_for_write_loop bus lo hi n S5.2 = S6 at a6 ⊢
    rw [if_neg (by rw [a1]; decide), if_neg (by rw [a2]; decide), if_neg (by rw [a3]; decide)]
    split_ifs with h4 h5 h6
    · rfl
    · exact absurd h5 (by rw [a4]; decide)
    · exact absurd h6 (by rw [a5]; decide)
    · exact a6

theorem wait_for_write_loop_polls (bus : Bus) (hb : bus.ok) (lo hi : Nat) (n : Nat)
    (d : device_data) :
    count_reads d.bus_log <
      count_reads (wait_for_write_loop bus lo hi (n + 1) d).2.bus_log := by
  simp only [wait_for_write_loop]
  have a1 := set_olat_ok bus hb d hi
  have r1 := (set_olat_reads bus d hi).1
  generalize set_olat bus d hi = S1 at a1 r1 ⊢
  have a2 := get_gpio_b_ok bus hb S1.2
  have r2 := get_gpio_b_reads bus S1.2
  generalize get_gpio_b bus S1.2 = S2 at a2 r2 ⊢
  have a3 := set_olat_ok bus hb S2.2 lo
  have r3 := (set_olat_reads bus S2.2 lo).1
  generalize set_olat bus S2.2 lo = S3 at a3 r3 ⊢
  have a4 := set_olat_ok bus hb S3.2 hi
  have r4 := (set_olat_reads bus S3.2 hi).1
  generalize set_olat bus S3.2 hi = S4 at a4 r4 ⊢
  have a5 := set_olat_ok bus hb S4.2 lo
  have r5 := (set_olat_reads bus S4.2 lo).1
  generalize set_olat bus S4.2 lo = S5 at a5 r5 ⊢
  have r6 := wait_for_write_loop_reads bus lo hi n S5.2
  generalize wait_for_write_loop bus lo hi n S5.2 = S6 at r6 ⊢
  rw [if_neg (by rw [a1]; decide), if_neg (by rw [a2]; decide), if_neg (by rw [a3]; decide)]
  split_ifs with h4 h5 h6
  · show count_reads d.bus_log < count_reads S3.2.bus_log
    omega
  · exact absurd h5 (by rw [a4]; decide)
  · exact absurd h6 (by rw [a5]; decide)
  · omega

theorem wait_for_write_ok (cfg : Config) (bus : Bus) (hb : bus.ok) (d : device_data) :
    (wait_for_write cfg bus d).1 = 0 := by
  unfold wait_for_write
  generalize (cfg.LCD_WRITE_ATTEMPTS + 2 ^ 32 - 1) % 2 ^ 32 = n
  dsimp only
  generalize set_lcd_rs (set_lcd_rw (set_lcd_enable (set_lcd_data d.olat 0) false) true) false
    = lo
  have a1 := set_olat_ok bus hb d lo
  generalize set_olat bus d lo = S1 at a1 ⊢
  have a2 := wait_for_write_loop_ok bus hb lo (set_lcd_enable lo true) n S1.2
  generalize wait_for_write_loop bus lo (set_lcd_enable lo true) n S1.2 = S2 at a2 ⊢
  have a3 := set_iodir_ok bus hb S2.2 (set_lcd_data S2.2.iodir 0)
  generalize set_iodir bus S2.2 (set_lcd_data S2.2.iodir 0) = S3 at a3 ⊢
  split_ifs with h0 h1 h2 h3
  · rfl
  · exact absurd h1 (by rw [a1]; decide)
  · exact absurd h2 (by rw [a2]; decide)
  · exact absurd h3 (by rw [a3]; decide)
  · rfl

theorem wait_for_write_polls (cfg : Config) (bus : Bus) (hb : bus.ok) (d : device_data)
    (hin : lcd_data d.iodir ≠ 0)
    (hN1 : 2 ≤ cfg.LCD_WRITE_ATTEMPTS) (hN2 : cfg.LCD_WRITE_ATTEMPTS < 4294967296) :
    count_reads d.bus_log < count_reads (wait_for_write cfg bus d).2.bus_log := by
  have hn : (cfg.LCD_WRITE_ATTEMPTS + 2 ^ 32 - 1) % 2 ^ 32 =
      (cfg.LCD_WRITE_ATTEMPTS - 2) + 1 := by
    norm_num
    omega
  unfold wait_for_write
  rw [hn, if_neg hin]
  dsimp only
  generalize set_lcd_rs (set_lcd_rw (set_lcd_enable (set_lcd_data d.olat 0) false) true) false
    = lo
  have a1 := set_olat_ok bus hb d lo
  have r1 := (set_olat_reads bus d lo).1
  generalize set_olat bus d lo = S1 at a1 r1 ⊢
  have a2 := wait_for_write_loop_ok bus hb lo (set_lcd_enable lo true)
    (cfg.LCD_WRITE_ATTEMPTS - 2 + 1) S1.2
  have r2 := wait_for_write_loop_polls bus hb lo (set_lcd_enable lo true)
    (cfg.LCD_WRITE_ATTEMPTS - 2) S1.2
  generalize wait_for_write_loop bus lo (set_lcd_enable lo true)
    (cfg.LCD_WRITE_ATTEMPTS - 2 + 1) S1.2 = S2 at a2 r2 ⊢
  have a3 := set_iodir_ok bus hb S2.2 (set_lcd_data S2.2.iodir 0)
  have r3 := set_iodir_reads bus S2.2 (set_lcd_data S2.2.iodir 0)
  generalize set_iodir bus S2.2 (set_lcd_data S2.2.iodir 0) = S3 at a3 r3 ⊢
  rw [if_neg (by rw [a1]; decide), if_neg (by rw [a2]; decide), if_neg (by rw [a3]; decide)]
  show count_reads d.bus_log < count_reads S3.2.bus_log
  omega

theorem write_data_wait (cfg : Config) (bus : Bus) (d : device_data) (m : Bool) (v : Nat) :
    (write_data cfg bus d m v).2.iodir =
      (wait_for_write cfg bus { d with strobes := d.strobes ++ [(m, v)] }).2.iodir ∧
    count_reads (write_data cfg bus d m v).2.bus_log =
      count_reads
        (wait_for_write cfg bus { d with strobes := d.strobes ++ [(m, v)] }).2.bus_log := by
  unfold write_data
  dsimp only
  generalize (wait_for_write cfg bus { d with strobes := d.strobes ++ [(m, v)] }).2 = W
  generalize set_lcd_enable (set_lcd_data (set_lcd_rs (set_lcd_rw W.olat false) m)
    (bit_flip (v / 16))) true = o1
  generalize set_lcd_enable (set_lcd_data o1 (bit_flip (v % 16))) false = o2
  generalize set_lcd_enable o2 true = o3
  generalize set_lcd_enable o3 false = o4
  have r1 := (set_olat_reads bus W o1).1
  have i1 : (set_olat bus W o1).2.iodir = W.iodir := rfl
  generalize set_olat bus W o1 = S1 at r1 i1 ⊢
  have r2 := (set_olat_reads bus S1.2 o2).1
  have i2 : (set_olat bus S1.2 o2).2.iodir = S1.2.iodir := rfl
  generalize set_olat bus S1.2 o2 = S2 at r2 i2 ⊢
  have r3 := (set_olat_reads bus S2.2 o3).1
  have i3 : (set_olat bus S2.2 o3).2.iodir = S2.2.iodir := rfl
  generalize set_olat bus S2.2 o3 = S3 at r3 i3 ⊢
  have r4 := (set_olat_reads bus S3.2 o4).1
  have i4 : (set_olat bus S3.2 o4).2.iodir = S3.2.iodir := rfl
  generalize set_olat bus S3.2 o4 = S4 at r4 i4 ⊢
  split_ifs
  · exact ⟨i1, r1⟩
  · exact ⟨i2.trans i1, r2.trans r1⟩
  · exact ⟨i3.trans (i2.trans i1), r3.trans (r2.trans r1)⟩
  · exact ⟨i4.trans (i3.trans (i2.trans i1)), r4.trans (r3.trans (r2.trans r1))⟩
  · exact ⟨i4.trans (i3.trans (i2.trans i1)), r4.trans (r3.trans (r2.trans r1))⟩
theorem write_data_output (cfg : Config) (bus : Bus) (hb : bus.ok) (d : device_data)
    (m : Bool) (v : Nat) : lcd_data (write_data cfg bus d m v).2.iodir = 0 := by
  rw [(write_data_wait cfg bus d m v).1]
  have hs := wait_for_write_ok cfg bus hb { d with strobes := d.strobes ++ [(m, v)] }
  by_cases hin : lcd_data ({ d with strobes := d.strobes ++ [(m, v)] } : device_data).iodir = 0
  · rw [wait_for_write_fast cfg bus _ hin]
    exact hin
  · rw [(wait_for_write_slow cfg bus _ hin).2.2 hs]
    exact (set_lcd_data_frame _ 0).1

theorem send_command_clear (cfg : Config) (bus : Bus) (hb : bus.ok) (d : device_data)
    (cmd : Nat) (hc : cmd = LCD_CLEARDISPLAY ∨ cmd = LCD_RETURNHOME) :
    lcd_data (send_command cfg bus d cmd).2.iodir = 0b1111 := by
  unfold send_command
  dsimp only
  have aW := write_data_ok cfg bus hb d false cmd
  generalize write_data cfg bus d false cmd = W at aW ⊢
  rw [if_neg (by rw [aW]; decide), if_pos hc]
  rw [(set_iodir_step bus W.2 (set_lcd_data W.2.iodir 0b1111)).2.2.1 (set_iodir_ok bus hb _ _)]
  exact (set_lcd_data_frame _ 0b1111).1

theorem write_data_polls (cfg : Config) (bus : Bus) (hb : bus.ok) (d : device_data)
    (m : Bool) (v : Nat) (hin : lcd_data d.iodir ≠ 0)
    (hN1 : 2 ≤ cfg.LCD_WRITE_ATTEMPTS) (hN2 : cfg.LCD_WRITE_ATTEMPTS < 4294967296) :
    count_reads d.bus_log < count_reads (write_data cfg bus d m v).2.bus_log := by
  rw [(write_data_wait cfg bus d m v).2]
  exact wait_for_write_polls cfg bus hb { d with strobes := d.strobes ++ [(m, v)] } hin hN1 hN2

/-- C27: on a bus where all transactions succeed, for every device record and
command byte.  For the clear-display and return-home commands `send_command`
returns success and leaves the cached direction register with all four data
pins input-configured; then, for a retry bound of at least 2 that fits an
`unsigned`, `wait_for_write` does not take its fast path and the next
`write_data`, whatever its byte, issues at least one busy-flag read.  For
every other command byte `send_command` is exactly its `write_data` call (no
direction-register write of its own) and the data pins are left
output-configured. -/
theorem send_command_pollable (cfg : Config) (bus : Bus) (hb : bus.ok) (d : device_data)
    (cmd : Nat) :
    (cmd = LCD_CLEARDISPLAY ∨ cmd = LCD_RETURNHOME →
      (send_command cfg bus d cmd).1 = 0 ∧
      lcd_data (send_command cfg bus d cmd).2.iodir = 0b1111 ∧
      (2 ≤ cfg.LCD_WRITE_ATTEMPTS → cfg.LCD_WRITE_ATTEMPTS < 4294967296 →
        ∀ (m : Bool) (v : Nat),
          wait_for_write cfg bus (send_command cfg bus d cmd).2 ≠
            (0, (send_command cfg bus d cmd).2) ∧
          count_reads (send_command cfg bus d cmd).2.bus_log <
            count_reads (write_data cfg bus (send_command cfg bus d cmd).2 m v).2.bus_log)) ∧
    (cmd ≠ LCD_CLEARDISPLAY → cmd ≠ LCD_RETURNHOME →
      send_command cfg bus d cmd = write_data cfg bus d false cmd ∧
      lcd_data (send_command cfg bus d cmd).2.iodir = 0) := by
  constructor
  · intro hc
    have h15 := send_command_clear cfg bus hb d cmd hc
    have hin : lcd_data (send_command cfg bus d cmd).2.iodir ≠ 0 := by
      rw [h15]; decide
    refine ⟨send_command_ok cfg bus hb d cmd, h15, fun hN1 hN2 m v => ⟨?_, ?_⟩⟩
    · intro h
      have := (wait_for_write_slow cfg bus _ hin).2.1
      rw [h] at this
      exact lt_irrefl _ this
    · exact write_data_polls cfg bus hb _ m v hin hN1 hN2
  · intro h1 h2
    have he : send_command cfg bus d cmd = write_data cfg bus d false cmd := by
      unfold send_command
      dsimp only
      rw [if_neg (by rw [write_data_ok cfg bus hb]; decide),
        if_neg (not_or.mpr ⟨h1, h2⟩)]
    exact ⟨he, by rw [he]; exact write_data_output cfg bus hb d false cmd⟩

/-- C27 at concrete inputs: after clear-display on the fresh device the data
pins are inputs and the next character write reads the busy flag; after the
set-address command 0x80 the data pins are outputs. -/
theorem send_command_pollable_witness :
    lcd_data (send_command cfg10 bus_ok dev0 LCD_CLEARDISPLAY).2.iodir = 0b1111 ∧
    count_reads (send_command cfg10 bus_ok dev0 LCD_CLEARDISPLAY).2.bus_log <
      count_reads (write_data cfg10 bus_ok
        (send_command cfg10 bus_ok dev0 LCD_CLEARDISPLAY).2 true 0x41).2.bus_log ∧
    lcd_data (send_command cfg10 bus_ok dev0 0x80).2.iodir = 0 :=
  ⟨((send_command_pollable cfg10 bus_ok bus_ok_ok dev0 LCD_CLEARDISPLAY).1 (Or.inl rfl)).2.1,
   (((send_command_pollable cfg10 bus_ok bus_ok_ok dev0 LCD_CLEARDISPLAY).1
      (Or.inl rfl)).2.2 (by decide) (by decide) true 0x41).2,
   ((send_command_pollable cfg10 bus_ok bus_ok_ok dev0 0x80).2 (by decide) (by decide)).2⟩

end AdafruitRgbLcd
